import Mathlib

/-!
# Train automation game (`main.go`): state machine of `initGame` / `updateGame`

The program keeps three global values (`topBoxes`, `bottomBoxes`, `train`) plus the
rail path `railPoints`; `updateGame` is one frame tick.  The embedding below passes the
globals explicitly as a `Game` record.

* Go `int` is 64 bits wide: values are `Int` and every `++` / `--` / `+ 1` goes through
  `wrap64`.
* `float32` and the `raymath` vector helpers belong to the graphics library, not to this
  program, so they are a parameter (`Raymath F`).  Theorems quantified over `rm` hold for
  whatever the library computes.
* A run-time panic (index out of range, integer division by zero) is `none`.
* `fmt.Println` diagnostics are not modelled.
-/

namespace Raytrain

/-! ## Constants -/

def screenWidth : Int := 800
def screenHeight : Int := 600
def boxSize : Int := 50
def trainHeadSize : Int := 20
def cargoSize : Int := 20
def segmentGap : Int := 5
def trainSpeed : Int := 3
def railWidth : Int := 10
def refillTime : Int := 180
def stationDelay : Int := 300

/-- Two's complement wrap-around of a Go `int` (64 bits). -/
def wrap64 (x : Int) : Int :=
  (x + 9223372036854775808) % 18446744073709551616 - 9223372036854775808

/-! ## Data model -/

/-- An RGBA colour as in the graphics library (`raylib.Color`). -/
structure Color where
  R : Nat
  G : Nat
  B : Nat
  A : Nat
deriving DecidableEq, Repr

def LightGray : Color := ⟨200, 200, 200, 255⟩
def Black : Color := ⟨0, 0, 0, 255⟩
def Blank : Color := ⟨0, 0, 0, 0⟩

structure Vector2 (F : Type) where
  X : F
  Y : F
deriving DecidableEq, Repr

structure Rectangle (F : Type) where
  X : F
  Y : F
  Width : F
  Height : F
deriving DecidableEq, Repr

/-- The part of the graphics library the update loop calls: `float32` constants,
addition, multiplication and `>`, and the `raymath` helpers on `Vector2`. -/
structure Raymath (F : Type) where
  ofInt : Int → F
  add : F → F → F
  mul : F → F → F
  gt : F → F → Bool
  Vector2Add : Vector2 F → Vector2 F → Vector2 F
  Vector2Subtract : Vector2 F → Vector2 F → Vector2 F
  Vector2Length : Vector2 F → F
  Vector2Scale : Vector2 F → F → Vector2 F
  Vector2Normalize : Vector2 F → Vector2 F

/-- A Go array of length three (`[3]T`). -/
structure Arr3 (α : Type) where
  e0 : α
  e1 : α
  e2 : α
deriving DecidableEq, Repr

def Arr3.get {α : Type} (a : Arr3 α) : Fin 3 → α
  | 0 => a.e0
  | 1 => a.e1
  | 2 => a.e2

def Arr3.set {α : Type} (a : Arr3 α) (i : Fin 3) (v : α) : Arr3 α :=
  match i with
  | 0 => { a with e0 := v }
  | 1 => { a with e1 := v }
  | 2 => { a with e2 := v }

structure Box (F : Type) where
  rect : Rectangle F
  color : Color
  isEmpty : Bool
  refillTimer : Int
deriving DecidableEq, Repr

structure Train (F : Type) where
  headPos : Vector2 F
  bodySegments : List (Vector2 F)
  cargo : Arr3 Color
  cargoCount : Int
  path : List (Vector2 F)
  currentWaypointIdx : Int
  targetPos : Vector2 F
  isMoving : Bool
  isFilling : Bool
  isEmptying : Bool
  stationTimer : Int
deriving DecidableEq, Repr

/-- The package-level variables of `main.go`. -/
structure Game (F : Type) where
  topBoxes : Arr3 (Box F)
  bottomBoxes : Arr3 (Box F)
  train : Train F
  railPoints : List (Vector2 F)
deriving DecidableEq, Repr

/-- The index range of every `for i := 0; i < 3; i++` loop. -/
def idx3 : List (Fin 3) := [0, 1, 2]

/-! ## `initGame` -/

section Init
variable {F : Type} (rm : Raymath F)

def initTopBox (i : Fin 3) : Box F :=
  { rect := ⟨rm.add (rm.ofInt 325) (rm.mul (rm.ofInt i.val) (rm.ofInt boxSize)),
             rm.ofInt (screenHeight / 4 - boxSize / 2), rm.ofInt boxSize, rm.ofInt boxSize⟩
    color := LightGray
    isEmpty := true
    refillTimer := 0 }

def initBottomBox (i : Fin 3) : Box F :=
  { rect := ⟨rm.add (rm.ofInt 325) (rm.mul (rm.ofInt i.val) (rm.ofInt boxSize)),
             rm.ofInt (screenHeight * 3 / 4 - boxSize / 2), rm.ofInt boxSize, rm.ofInt boxSize⟩
    color := Black
    isEmpty := false
    refillTimer := 0 }

def bottomY : Int := screenHeight * 3 / 4 + boxSize / 2 + trainHeadSize
def topY : Int := screenHeight / 4 - boxSize / 2 - trainHeadSize

def initRailPoints : List (Vector2 F) :=
  [ ⟨rm.ofInt (screenWidth / 2), rm.ofInt bottomY⟩,
    ⟨rm.ofInt (screenWidth / 2), rm.ofInt bottomY⟩,
    ⟨rm.ofInt (screenWidth / 2 - 150), rm.ofInt bottomY⟩,
    ⟨rm.ofInt (screenWidth / 2 - 150), rm.ofInt topY⟩,
    ⟨rm.ofInt (screenWidth / 2), rm.ofInt topY⟩,
    ⟨rm.ofInt (screenWidth / 2), rm.ofInt topY⟩,
    ⟨rm.ofInt (screenWidth / 2 + 150), rm.ofInt topY⟩,
    ⟨rm.ofInt (screenWidth / 2 + 150), rm.ofInt bottomY⟩,
    ⟨rm.ofInt (screenWidth / 2), rm.ofInt bottomY⟩ ]

/-- Body segment `i` is placed `(i+1) * (cargoSize + segmentGap)` below the head. -/
def initSegment (head : Vector2 F) (i : Fin 3) : Vector2 F :=
  ⟨head.X, rm.add head.Y (rm.mul (rm.ofInt (i.val + 1)) (rm.ofInt (cargoSize + segmentGap)))⟩

def initGame : Game F :=
  let head : Vector2 F := ⟨rm.ofInt (screenWidth / 2), rm.ofInt bottomY⟩
  let target : Vector2 F := ⟨rm.ofInt (screenWidth / 2), rm.ofInt bottomY⟩
  { topBoxes := ⟨initTopBox rm 0, initTopBox rm 1, initTopBox rm 2⟩
    bottomBoxes := ⟨initBottomBox rm 0, initBottomBox rm 1, initBottomBox rm 2⟩
    railPoints := initRailPoints rm
    train :=
      { headPos := head
        bodySegments := idx3.map (initSegment rm head)
        cargo := ⟨Blank, Blank, Blank⟩
        cargoCount := 0
        path := initRailPoints rm
        currentWaypointIdx := 0
        targetPos := target
        isMoving := true
        isFilling := false
        isEmptying := false
        stationTimer := 0 } }

end Init

/-! ## `updateGame` -/

section Update
variable {F : Type}

/-- Body of the refill loop for one bottom box. -/
def refillBox (b : Box F) : Box F :=
  if b.isEmpty then
    let t := wrap64 (b.refillTimer - 1)
    if t ≤ 0 then { b with color := Black, isEmpty := false, refillTimer := 0 }
    else { b with refillTimer := t }
  else b

/-- The loop `for i := 0; i < 3; i++` over `bottomBoxes` at the top of `updateGame`. -/
def refillBottomBoxes (bs : Arr3 (Box F)) : Arr3 (Box F) :=
  idx3.foldl (fun acc i => acc.set i (refillBox (acc.get i))) bs

/-- The filling loop with its `break`: the Boolean is `filledOne`. -/
def fillLoop (bs : Arr3 (Box F)) (t : Train F) : List (Fin 3) → Arr3 (Box F) × Train F × Bool
  | [] => (bs, t, false)
  | i :: rest =>
    if !(bs.get i).isEmpty && t.cargo.get i == Blank then
      (bs.set i { bs.get i with color := LightGray, isEmpty := true, refillTimer := refillTime },
       { t with cargo := t.cargo.set i (bs.get i).color, cargoCount := wrap64 (t.cargoCount + 1) },
       true)
    else fillLoop bs t rest

/-- The `if train.isFilling` arm of a dwell expiry. -/
def fillStep (g : Game F) : Game F :=
  match fillLoop g.bottomBoxes g.train idx3 with
  | (bs, t, filledOne) =>
    if !filledOne || t.cargoCount == 3 then
      { g with bottomBoxes := bs, train := { t with isFilling := false, isMoving := true } }
    else
      { g with bottomBoxes := bs, train := { t with stationTimer := stationDelay } }

/-- The emptying loop with its `break`: the Boolean is `emptiedOne`. -/
def emptyLoop (tops : Arr3 (Box F)) (t : Train F) : List (Fin 3) → Arr3 (Box F) × Train F × Bool
  | [] => (tops, t, false)
  | i :: rest =>
    if (tops.get i).isEmpty && t.cargo.get i != Blank then
      (tops.set i { tops.get i with color := t.cargo.get i, isEmpty := false },
       { t with cargo := t.cargo.set i Blank, cargoCount := wrap64 (t.cargoCount - 1) },
       true)
    else emptyLoop tops t rest

/-- The reset loop run when emptying ends. -/
def resetTopBoxes (tops : Arr3 (Box F)) : Arr3 (Box F) :=
  idx3.foldl (fun acc i => acc.set i { acc.get i with color := LightGray, isEmpty := true }) tops

/-- The `else if train.isEmptying` arm of a dwell expiry. -/
def emptyStep (g : Game F) : Game F :=
  match emptyLoop g.topBoxes g.train idx3 with
  | (tops, t, emptiedOne) =>
    if !emptiedOne || t.cargoCount == 0 then
      { g with topBoxes := resetTopBoxes tops,
               train := { t with isEmptying := false, isMoving := true } }
    else
      { g with topBoxes := tops, train := { t with stationTimer := stationDelay } }

/-- The `else` branch of `updateGame`: the train is stopped at a station. -/
def stationStep (g : Game F) : Game F :=
  let timer := wrap64 (g.train.stationTimer - 1)
  let g1 : Game F := { g with train := { g.train with stationTimer := timer } }
  if timer ≤ 0 then
    if g1.train.isFilling then fillStep g1
    else if g1.train.isEmptying then emptyStep g1
    else g1
  else g1

variable (rm : Raymath F)

/-- The head is farther than `trainSpeed` from the target: the leg is not finished. -/
def legOpen (t : Train F) : Bool :=
  rm.gt (rm.Vector2Length (rm.Vector2Subtract t.targetPos t.headPos)) (rm.ofInt trainSpeed)

/-- Station checks made right after the waypoint index advanced. -/
def stationCheck (t : Train F) : Train F :=
  let t1 :=
    if t.currentWaypointIdx == 1 || t.currentWaypointIdx == 8 then
      if t.cargoCount == 0 && !t.isFilling then
        { t with isMoving := false, isFilling := true, stationTimer := stationDelay }
      else t
    else t
  if t1.currentWaypointIdx == 4 || t1.currentWaypointIdx == 5 then
    if decide (t1.cargoCount > 0) && !t1.isEmptying then
      { t1 with isMoving := false, isEmptying := true, stationTimer := stationDelay }
    else t1
  else t1

/-- Head movement: one step towards the target, or snap and advance the waypoint. -/
def moveHead (t : Train F) : Option (Train F) :=
  let direction := rm.Vector2Subtract t.targetPos t.headPos
  let distance := rm.Vector2Length direction
  if rm.gt distance (rm.ofInt trainSpeed) then
    some { t with headPos :=
      rm.Vector2Add t.headPos (rm.Vector2Scale (rm.Vector2Normalize direction) (rm.ofInt trainSpeed)) }
  else if t.path.length = 0 then none
  else
    let idx := Int.tmod (wrap64 (t.currentWaypointIdx + 1)) t.path.length
    if idx < 0 then none
    else
      match t.path[idx.toNat]? with
      | none => none
      | some p =>
        some (stationCheck { t with headPos := t.targetPos, currentWaypointIdx := idx, targetPos := p })

/-- New position of one body segment given the (already updated) previous one. -/
def followSegment (prev cur : Vector2 F) : Vector2 F :=
  let segDirection := rm.Vector2Subtract prev cur
  let segDistance := rm.Vector2Length segDirection
  if rm.gt segDistance (rm.ofInt (cargoSize + segmentGap)) then
    rm.Vector2Add cur (rm.Vector2Scale (rm.Vector2Normalize segDirection) (rm.ofInt trainSpeed))
  else
    rm.Vector2Subtract prev
      (rm.Vector2Scale (rm.Vector2Normalize segDirection) (rm.ofInt (cargoSize + segmentGap)))

/-- The loop `for i := 1; i < len(train.bodySegments); i++`. -/
def followChain (prev : Vector2 F) : List (Vector2 F) → List (Vector2 F)
  | [] => []
  | cur :: rest =>
    let next := followSegment rm prev cur
    next :: followChain next rest

def moveBody (head : Vector2 F) : List (Vector2 F) → List (Vector2 F)
  | [] => []
  | _ :: rest => head :: followChain rm head rest

/-- The `if train.isMoving` branch of `updateGame`. -/
def moveTrain (t : Train F) : Option (Train F) :=
  match moveHead rm t with
  | none => none
  | some t1 => some { t1 with bodySegments := moveBody rm t1.headPos t1.bodySegments }

/-- The state between the refill loop and the rest of the tick. -/
def afterRefill (g : Game F) : Game F :=
  { g with bottomBoxes := refillBottomBoxes g.bottomBoxes }

/-- One frame tick; `none` is a run-time panic. -/
def updateGame (g : Game F) : Option (Game F) :=
  let g1 : Game F := afterRefill g
  if g1.train.isMoving then
    match moveTrain rm g1.train with
    | none => none
    | some t => some { g1 with train := t }
  else some (stationStep g1)

/-- States reachable from `initGame` by `updateGame` ticks. -/
inductive Reachable : Game F → Prop
  | init : Reachable (initGame rm)
  | tick {g g' : Game F} : Reachable g → updateGame rm g = some g' → Reachable g'

/-- Run `n` ticks. -/
def run : Nat → Game F → Option (Game F)
  | 0, g => some g
  | n + 1, g =>
    match updateGame rm g with
    | none => none
    | some g' => run n g'

end Update

/-! ## The loop invariant of the game -/

section Invariant
variable {F : Type}

/-- A bottom box that holds a unit. -/
def boxFull (b : Box F) : Prop :=
  b.isEmpty = false ∧ b.color = Black ∧ b.refillTimer = 0

/-- A bottom box waiting for its refill. -/
def boxRefilling (b : Box F) : Prop :=
  b.isEmpty = true ∧ b.color = LightGray ∧ 1 ≤ b.refillTimer ∧ b.refillTimer ≤ refillTime

def bottomOK (b : Box F) : Prop := boxFull b ∨ boxRefilling b

def topEmpty (b : Box F) : Prop :=
  b.isEmpty = true ∧ b.color = LightGray ∧ b.refillTimer = 0

def topLoaded (b : Box F) : Prop :=
  b.isEmpty = false ∧ b.color = Black ∧ b.refillTimer = 0

/-- Cargo after `c` fill transfers of a stop. -/
def fillPattern : Nat → Arr3 Color
  | 0 => ⟨Blank, Blank, Blank⟩
  | 1 => ⟨Black, Blank, Blank⟩
  | 2 => ⟨Black, Black, Blank⟩
  | _ => ⟨Black, Black, Black⟩

/-- Cargo while `c` units are still to be unloaded. -/
def emptyPattern : Nat → Arr3 Color
  | 0 => ⟨Blank, Blank, Blank⟩
  | 1 => ⟨Blank, Blank, Black⟩
  | 2 => ⟨Blank, Black, Black⟩
  | _ => ⟨Black, Black, Black⟩

def flagsAre (t : Train F) (mv fl em : Bool) : Prop :=
  t.isMoving = mv ∧ t.isFilling = fl ∧ t.isEmptying = em

def allTopEmpty (g : Game F) : Prop :=
  topEmpty g.topBoxes.e0 ∧ topEmpty g.topBoxes.e1 ∧ topEmpty g.topBoxes.e2

def allBottomFull (g : Game F) : Prop :=
  boxFull g.bottomBoxes.e0 ∧ boxFull g.bottomBoxes.e1 ∧ boxFull g.bottomBoxes.e2

/-- Moving with an empty train: at start-up and on the way from the top station back to
the bottom station. -/
def movingEmpty (g : Game F) : Prop :=
  flagsAre g.train true false false ∧ g.train.stationTimer = 0 ∧ g.train.cargoCount = 0 ∧
  g.train.cargo = fillPattern 0 ∧ allTopEmpty g ∧ allBottomFull g ∧
  (g.train.currentWaypointIdx = 0 ∨ g.train.currentWaypointIdx = 4 ∨
   g.train.currentWaypointIdx = 5 ∨ g.train.currentWaypointIdx = 6 ∨
   g.train.currentWaypointIdx = 7)

/-- Moving with a full train: on the way from the bottom station to the top station. -/
def movingLoaded (g : Game F) : Prop :=
  flagsAre g.train true false false ∧ g.train.stationTimer = 0 ∧ g.train.cargoCount = 3 ∧
  g.train.cargo = fillPattern 3 ∧ allTopEmpty g ∧
  (g.train.currentWaypointIdx = 8 ∨ g.train.currentWaypointIdx = 0 ∨
   g.train.currentWaypointIdx = 1 ∨ g.train.currentWaypointIdx = 2 ∨
   g.train.currentWaypointIdx = 3)

/-- Stopped at the bottom station with `c` units on board. -/
def fillingWith (c : Nat) (g : Game F) : Prop :=
  flagsAre g.train false true false ∧ 1 ≤ g.train.stationTimer ∧
  g.train.stationTimer ≤ stationDelay ∧ g.train.cargoCount = c ∧
  g.train.cargo = fillPattern c ∧ allTopEmpty g ∧
  (∀ i : Fin 3, c ≤ i.val → boxFull (g.bottomBoxes.get i)) ∧
  (g.train.currentWaypointIdx = 1 ∨ g.train.currentWaypointIdx = 8)

/-- Stopped at the top station, nothing unloaded yet.  Every bottom box still refilling
will be full `120 + d` ticks before the dwell timer runs out. -/
def emptyingFull (d : Int) (g : Game F) : Prop :=
  flagsAre g.train false false true ∧ 1 ≤ g.train.stationTimer ∧
  g.train.stationTimer ≤ stationDelay ∧ g.train.cargoCount = 3 ∧
  g.train.cargo = emptyPattern 3 ∧ allTopEmpty g ∧
  (∀ i : Fin 3, (g.bottomBoxes.get i).isEmpty = true →
    (g.bottomBoxes.get i).refillTimer + 120 + d ≤ g.train.stationTimer) ∧
  g.train.currentWaypointIdx = 4

/-- Stopped at the top station with `c` of the three units still on board. -/
def emptyingWith (c : Nat) (g : Game F) : Prop :=
  flagsAre g.train false false true ∧ 1 ≤ g.train.stationTimer ∧
  g.train.stationTimer ≤ stationDelay ∧ g.train.cargoCount = c ∧
  g.train.cargo = emptyPattern c ∧ allBottomFull g ∧
  (∀ i : Fin 3, (i.val + c < 3 → topLoaded (g.topBoxes.get i)) ∧
                (3 ≤ i.val + c → topEmpty (g.topBoxes.get i))) ∧
  g.train.currentWaypointIdx = 4

/-- The phase of the cycle the game is in. -/
def phaseInv (d : Int) (g : Game F) : Prop :=
  movingEmpty g ∨ movingLoaded g ∨ fillingWith 0 g ∨ fillingWith 1 g ∨ fillingWith 2 g ∨
  emptyingFull d g ∨ emptyingWith 2 g ∨ emptyingWith 1 g

/-- Invariant of every reachable state (`d = 0`); `d = 1` is the same between the refill
loop and the rest of a tick. -/
structure Inv (rm : Raymath F) (d : Int) (g : Game F) : Prop where
  path_eq : g.train.path = initRailPoints rm
  rail_eq : g.railPoints = initRailPoints rm
  body_len : g.train.bodySegments.length = 3
  target_eq : g.train.path[g.train.currentWaypointIdx.toNat]? = some g.train.targetPos
  bottom0 : bottomOK g.bottomBoxes.e0
  bottom1 : bottomOK g.bottomBoxes.e1
  bottom2 : bottomOK g.bottomBoxes.e2
  phase : phaseInv d g

end Invariant

/-! ## Names for the two outcomes of a moving tick -/

section Outcomes
variable {F : Type}

/-- The head one step closer to the target. -/
def stepHead (rm : Raymath F) (t : Train F) : Vector2 F :=
  rm.Vector2Add t.headPos
    (rm.Vector2Scale (rm.Vector2Normalize (rm.Vector2Subtract t.targetPos t.headPos))
      (rm.ofInt trainSpeed))

/-- The train after a finished leg, before the body follows. -/
def arrive (t : Train F) (p : Vector2 F) : Train F :=
  stationCheck { t with headPos := t.targetPos,
                        currentWaypointIdx := (t.currentWaypointIdx + 1) % 9,
                        targetPos := p }

end Outcomes

/-! ## A concrete arithmetic: IEEE-754 binary32

Concrete runs need concrete library arithmetic.  `f32Math` follows IEEE-754 binary32 with
round-to-nearest-even and the `raymath` helpers of the graphics library
(`Vector2Length v = float32(math.Sqrt(float64(v.X*v.X + v.Y*v.Y)))`, `Vector2Normalize`
scaling by `1/length` when the length is positive).  A finite binary32 value is stored as
the integer number of units of `2 ^ (-149)`; infinities and NaN are not represented, and no
quantity of the runs below comes near the overflow threshold. -/

section Binary32

/-- Binary search for the largest `k` with `2 ^ k ≤ n`, one digit of `k` per step, the
digits below `2 ^ j` still to be decided. -/
def log2Search (n : Nat) : Nat → Nat → Nat
  | 0, acc => acc
  | j + 1, acc =>
    if 2 ^ (acc + 2 ^ j) ≤ n then log2Search n j (acc + 2 ^ j) else log2Search n j acc

/-- Number of binary digits of `n` (for `n` below `2 ^ 65536`, far above every
intermediate value of binary32 and binary64 arithmetic). -/
def bitLen (n : Nat) : Nat := if n = 0 then 0 else log2Search n 16 0 + 1

/-- Round the fraction `n / d` to the nearest multiple of `2 ^ (bits - p)`, where `bits` is
the digit count of its integer part; ties go to the even multiple. -/
def roundEven (p n d : Nat) : Nat :=
  let q := 2 ^ (bitLen (n / d) - p)
  let k := n / (d * q)
  let r := n % (d * q)
  if 2 * r > d * q ∨ (2 * r = d * q ∧ k % 2 = 1) then (k + 1) * q else k * q

/-- Newton iteration for the integer square root, started above the root. -/
def sqrtIter (n : Nat) : Nat → Nat → Nat
  | 0, x => x
  | fuel + 1, x =>
    let y := (x + n / x) / 2
    if y < x then sqrtIter n fuel y else x

/-- Integer square root (rounded down). -/
def natSqrt (n : Nat) : Nat :=
  if n = 0 then 0 else sqrtIter n (bitLen n + 1) (2 ^ (bitLen n / 2 + 1))

/-- The value `1.0` in units of `2 ^ (-149)`. -/
def unit32 : Nat := 2 ^ 149

/-- Round `n / d` units to binary32 (24 significant digits). -/
def f32Round (n : Int) (d : Nat) : Int := Int.sign n * (roundEven 24 n.natAbs d : Nat)

def f32OfInt (i : Int) : Int := f32Round (i * unit32) 1
def f32Add (a b : Int) : Int := f32Round (a + b) 1
def f32Sub (a b : Int) : Int := f32Round (a - b) 1
def f32Mul (a b : Int) : Int := f32Round (a * b) unit32
def f32Div (a b : Int) : Int := f32Round (a * unit32 * Int.sign b) b.natAbs

/-- The conversion chain `float32(math.Sqrt(float64(x)))`: the root is rounded to binary64
(53 digits, unit `2 ^ (-1074)`) and then to binary32. -/
def f32Sqrt (x : Int) : Int :=
  let n := x.toNat * 2 ^ 1999
  let r := natSqrt n
  let q := 2 ^ (bitLen r - 53)
  let k := r / q
  let rem := r % q
  let inexact := decide (r * r ≠ n)
  let up := decide (2 * rem > q) || (decide (2 * rem = q) && (inexact || decide (k % 2 = 1)))
  let r64 := if up then (k + 1) * q else k * q
  f32Round (r64 : Nat) (2 ^ 925)

def f32Length (v : Vector2 Int) : Int :=
  f32Sqrt (f32Add (f32Mul v.X v.X) (f32Mul v.Y v.Y))

def f32Scale (v : Vector2 Int) (s : Int) : Vector2 Int := ⟨f32Mul v.X s, f32Mul v.Y s⟩

def f32Math : Raymath Int where
  ofInt := f32OfInt
  add := f32Add
  mul := f32Mul
  gt := fun a b => decide (a > b)
  Vector2Add := fun a b => ⟨f32Add a.X b.X, f32Add a.Y b.Y⟩
  Vector2Subtract := fun a b => ⟨f32Sub a.X b.X, f32Sub a.Y b.Y⟩
  Vector2Length := f32Length
  Vector2Scale := f32Scale
  Vector2Normalize := fun v =>
    if f32Length v > 0 then f32Scale v (f32Div (f32OfInt 1) (f32Length v)) else v

end Binary32

/-! ## Vocabulary of the claims -/

section Vocabulary
variable {F : Type}

/-- Number of cargo slots that hold a unit. -/
def nonBlankCount (c : Arr3 Color) : Nat :=
  (idx3.filter (fun i => c.get i != Blank)).length

/-- Exactly one of the three state flags is set. -/
def exactlyOneFlag (t : Train F) : Prop :=
  (t.isMoving = true ∧ t.isFilling = false ∧ t.isEmptying = false) ∨
  (t.isMoving = false ∧ t.isFilling = true ∧ t.isEmptying = false) ∨
  (t.isMoving = false ∧ t.isFilling = false ∧ t.isEmptying = true)

end Vocabulary

/-! ## Checkpoints of the first lap under binary32 arithmetic

The first lap of the concrete game: the train fills at the bottom station during ticks
1 to 901, travels for 181 ticks, and empties during ticks 1082 to 1982. -/

section Checkpoints

/-- Body segments while the train waits at the bottom station. -/
def bodyBottom : List (Vector2 Int) :=
  [⟨f32OfInt 400, f32OfInt 495⟩, ⟨f32OfInt 400, f32OfInt 542⟩, ⟨f32OfInt 400, f32OfInt 567⟩]

/-- Body segments while the train waits for unloading: about `(250.00006, 129.75735)` and
`(250.00017, 152.47253)` behind the head at `(250, 105)`. -/
def bodyTop : List (Vector2 Int) :=
  [⟨f32OfInt 250, f32OfInt 105⟩,
   ⟨178406005144387951012409069493136643314174394368,
    92597942579526535838516761357981024565724184576⟩,
   ⟨178406081367638141302624885289048708030253760512,
    108808036304494794875198814793135934300204564480⟩]

/-- The game during the first stop at the bottom station; the bottom boxes are full. -/
def fillingAt (timer count : Int) (cargo : Arr3 Color) : Game Int :=
  let g := initGame f32Math
  { g with train := { g.train with bodySegments := bodyBottom, cargo := cargo,
                                   cargoCount := count, currentWaypointIdx := 1,
                                   isMoving := false, isFilling := true,
                                   stationTimer := timer } }

/-- The game right after the third fill transfer (tick 901). -/
def leavingBottom : Game Int :=
  let g := initGame f32Math
  { g with bottomBoxes := ⟨g.bottomBoxes.e0, g.bottomBoxes.e1,
                           { g.bottomBoxes.e2 with color := LightGray, isEmpty := true,
                                                   refillTimer := refillTime }⟩,
           train := { g.train with bodySegments := bodyBottom, cargo := ⟨Black, Black, Black⟩,
                                   cargoCount := 3, currentWaypointIdx := 1 } }

/-- The game on the way from the bottom station to the stop for unloading: bottom box 2
is refilling, the head and the two trailing body segments are as given. -/
def travelling (refill idx : Int) (head target seg1 seg2 : Vector2 Int) : Game Int :=
  let g := leavingBottom
  { g with bottomBoxes := ⟨g.bottomBoxes.e0, g.bottomBoxes.e1,
                           { g.bottomBoxes.e2 with refillTimer := refill }⟩,
           train := { g.train with headPos := head, bodySegments := [head, seg1, seg2],
                                   currentWaypointIdx := idx, targetPos := target } }

/-- Tick 947: head at `(265, 495)`, moving left. -/
def atTick947 : Game Int :=
  travelling 134 2 ⟨f32OfInt 265, f32OfInt 495⟩ ⟨f32OfInt 250, f32OfInt 495⟩
    ⟨206404656075357597186792148752371288084429406208,
     353474695058587201095662654084381509075712606208⟩
    ⟨224000640935285712927437003460686865573945016320,
     354779397543058657249750801883205816389640126464⟩

/-- Tick 992: head at `(250, 375)`, moving up. -/
def atTick992 : Game Int :=
  travelling 89 3 ⟨f32OfInt 250, f32OfInt 375⟩ ⟨f32OfInt 250, f32OfInt 105⟩
    ⟨178715384427874597528374554272219888063738806272,
     285275117966685109257808991187120081253794054144⟩
    ⟨180235896711706248223498881954074282231517413376,
     301445444933125519741896860812152084828010840064⟩

/-- Tick 1037: head at `(250, 240)`, moving up. -/
def atTick1037 : Game Int :=
  travelling 44 3 ⟨f32OfInt 250, f32OfInt 240⟩ ⟨f32OfInt 250, f32OfInt 105⟩
    ⟨178407769168178069157403663627101569600582582272,
     188937161837178827809951064295821946271559581696⟩
    ⟨178420563785174296443629886512341004085333327872,
     205147255562147086846633117730976856006039961600⟩

/-- A top box that received a unit. -/
def loadedTop (b : Box Int) : Box Int := { b with color := Black, isEmpty := false }

/-- The top boxes after `n` units were unloaded. -/
def topsAfter : Nat → Arr3 (Box Int)
  | 0 => (initGame f32Math).topBoxes
  | 1 => ⟨loadedTop (initTopBox f32Math 0), initTopBox f32Math 1, initTopBox f32Math 2⟩
  | _ => ⟨loadedTop (initTopBox f32Math 0), loadedTop (initTopBox f32Math 1), initTopBox f32Math 2⟩

/-- The game during the first stop for unloading. -/
def emptyingAt (timer count : Int) (cargo : Arr3 Color) (tops : Arr3 (Box Int)) : Game Int :=
  let g := initGame f32Math
  { g with topBoxes := tops,
           train := { g.train with headPos := ⟨f32OfInt 250, f32OfInt 105⟩,
                                   bodySegments := bodyTop, cargo := cargo,
                                   cargoCount := count, currentWaypointIdx := 4,
                                   targetPos := ⟨f32OfInt 400, f32OfInt 105⟩,
                                   isMoving := false, isEmptying := true,
                                   stationTimer := timer } }

end Checkpoints

/-! ## Vocabulary of the transfer claims -/

section TransferVocabulary
variable {F : Type}

/-- Index `j` is the lowest-indexed top box that is empty. -/
def lowestEmptyTop (g : Game F) (j : Fin 3) : Prop :=
  (g.topBoxes.get j).isEmpty = true ∧ ∀ i : Fin 3, i < j → (g.topBoxes.get i).isEmpty = false

/-- Index `k` is the lowest-indexed cargo slot that holds a unit. -/
def lowestOccupied (g : Game F) (k : Fin 3) : Prop :=
  g.train.cargo.get k ≠ Blank ∧ ∀ i : Fin 3, i < k → g.train.cargo.get i = Blank

/-- Every top box is empty and light gray. -/
def topsCleared (g : Game F) : Prop :=
  ∀ i : Fin 3, (g.topBoxes.get i).isEmpty = true ∧ (g.topBoxes.get i).color = LightGray

/-- The game right after the third unload transfer (tick 1982). -/
def leavingTop : Game Int :=
  let g := initGame f32Math
  { g with train := { g.train with headPos := ⟨f32OfInt 250, f32OfInt 105⟩,
                                   bodySegments := bodyTop, currentWaypointIdx := 4,
                                   targetPos := ⟨f32OfInt 400, f32OfInt 105⟩ } }

end TransferVocabulary

section FillVocabulary
variable {F : Type}

/-- Bottom box `i` can donate: it is non-empty and cargo slot `i` is `Blank`. -/
def eligible (g : Game F) (i : Fin 3) : Prop :=
  (g.bottomBoxes.get i).isEmpty = false ∧ g.train.cargo.get i = Blank

end FillVocabulary

section NamedCheckpoints

/-- Tick 300: the first dwell at the bottom station is about to expire. -/
def beforeFill1 : Game Int := fillingAt 1 0 ⟨Blank, Blank, Blank⟩

/-- Tick 900: the third dwell at the bottom station is about to expire. -/
def beforeFill3 : Game Int := fillingAt 1 2 ⟨Black, Black, Blank⟩

/-- Tick 1082: the train has just stopped for unloading. -/
def arrivedTop : Game Int := emptyingAt 300 3 ⟨Black, Black, Black⟩ (topsAfter 0)

/-- Tick 1381: the first dwell of the unloading stop is about to expire. -/
def beforeUnload1 : Game Int := emptyingAt 1 3 ⟨Black, Black, Black⟩ (topsAfter 0)

/-- Tick 1981: the third dwell of the unloading stop is about to expire. -/
def beforeUnload3 : Game Int := emptyingAt 1 1 ⟨Blank, Blank, Black⟩ (topsAfter 2)

end NamedCheckpoints

section Dwell
variable {F : Type}

/-- The game after `k` ticks that only run the refill loop and count the dwell timer down. -/
def dwell (k : Nat) (g : Game F) : Game F :=
  { g with bottomBoxes := (refillBottomBoxes^[k]) g.bottomBoxes,
           train := { g.train with stationTimer := g.train.stationTimer - k } }

/-- A box as the refill loop leaves it when its timer runs out. -/
def refilled (b : Box F) : Box F :=
  { b with color := Black, isEmpty := false, refillTimer := 0 }

/-- The train has just entered filling and every bottom box is empty, with a refill timer
in the range `1 .. refillTime`. -/
def enteredFillingAllEmpty (g : Game F) : Prop :=
  g.train.isFilling = true ∧ g.train.isMoving = false ∧
  g.train.stationTimer = stationDelay ∧ g.train.cargoCount = 0 ∧
  (∀ i : Fin 3, g.train.cargo.get i = Blank) ∧
  ∀ i : Fin 3, (g.bottomBoxes.get i).isEmpty = true ∧
    1 ≤ (g.bottomBoxes.get i).refillTimer ∧ (g.bottomBoxes.get i).refillTimer ≤ refillTime

/-- A game that has just entered filling with every bottom box emptied on the same tick
(refill timers at `refillTime`). -/
def stalledStart : Game Int :=
  let g := initGame f32Math
  let emptied (b : Box Int) : Box Int :=
    { b with color := LightGray, isEmpty := true, refillTimer := refillTime }
  { g with bottomBoxes := ⟨emptied g.bottomBoxes.e0, emptied g.bottomBoxes.e1,
                           emptied g.bottomBoxes.e2⟩,
           train := { g.train with currentWaypointIdx := 1, isMoving := false,
                                   isFilling := true, stationTimer := stationDelay } }

/-- What `stalledStart` has become after 299 ticks: the boxes have refilled. -/
def stalledLate : Game Int :=
  let g := initGame f32Math
  { g with train := { g.train with currentWaypointIdx := 1, isMoving := false,
                                   isFilling := true, stationTimer := 1 } }

/-- A filling game whose dwell timer expires on the next tick while every bottom box is
still empty. -/
def stalledExpiry : Game Int :=
  { stalledStart with train := { stalledStart.train with stationTimer := 1 } }

end Dwell

section RefillCheckpoint

/-- Tick 480: bottom box 0, emptied by the first fill transfer on tick 301, has one tick
of its refill time left. -/
def refillDue : Game Int :=
  let g := fillingAt 121 1 ⟨Black, Blank, Blank⟩
  { g with bottomBoxes := ⟨{ g.bottomBoxes.e0 with color := LightGray, isEmpty := true,
                                                    refillTimer := 1 },
                           g.bottomBoxes.e1, g.bottomBoxes.e2⟩ }

end RefillCheckpoint
section FrameVocabulary
variable {F : Type}

/-- The motion part of the train is the same in both states. -/
def sameMotion (t t' : Train F) : Prop :=
  t'.headPos = t.headPos ∧ t'.bodySegments = t.bodySegments ∧ t'.path = t.path ∧
  t'.currentWaypointIdx = t.currentWaypointIdx ∧ t'.targetPos = t.targetPos

end FrameVocabulary
section FillingCheckpoints

/-- Tick 1: the train has just entered filling at the bottom station. -/
def afterTick1 : Game Int := fillingAt 300 0 ⟨Blank, Blank, Blank⟩

/-- A bottom box right after it gave its unit to the train. -/
def emptied (b : Box Int) : Box Int :=
  { b with color := LightGray, isEmpty := true, refillTimer := refillTime }

/-- Tick 301: right after the first fill transfer. -/
def afterFill1 : Game Int :=
  let g := fillingAt 300 1 ⟨Black, Blank, Blank⟩
  { g with bottomBoxes := ⟨emptied g.bottomBoxes.e0, g.bottomBoxes.e1, g.bottomBoxes.e2⟩ }

/-- Tick 600: the second dwell at the bottom station is about to expire. -/
def beforeFill2 : Game Int := fillingAt 1 1 ⟨Black, Blank, Blank⟩

/-- Tick 601: right after the second fill transfer. -/
def afterFill2 : Game Int :=
  let g := fillingAt 300 2 ⟨Black, Black, Blank⟩
  { g with bottomBoxes := ⟨g.bottomBoxes.e0, emptied g.bottomBoxes.e1, g.bottomBoxes.e2⟩ }

end FillingCheckpoints

section ExpiryVocabulary
variable {F : Type}

/-- The value of `filledOne` if the dwell timer expires on this tick while filling. -/
def filledOne (g : Game F) : Bool :=
  (fillLoop (afterRefill g).bottomBoxes
    { (afterRefill g).train with stationTimer := wrap64 ((afterRefill g).train.stationTimer - 1) }
    idx3).2.2

/-- Index `i` is the lowest-indexed cargo slot that is `Blank`. -/
def lowestBlank (g : Game F) (i : Fin 3) : Prop :=
  g.train.cargo.get i = Blank ∧ ∀ j : Fin 3, j < i → g.train.cargo.get j ≠ Blank

end ExpiryVocabulary
section StartVocabulary
variable {F : Type}

/-- The train has left the start-up configuration (index 0 with an empty train). -/
def started (g : Game F) : Prop :=
  ¬ (g.train.currentWaypointIdx = 0 ∧ g.train.cargoCount = 0)

end StartVocabulary
section LastTravelTick

/-- Tick 1081: head at `(250, 108)`, one step before waypoint 3; bottom box 2 has just
been refilled. -/
def atTick1081 : Game Int :=
  let g := initGame f32Math
  { g with train := { g.train with headPos := ⟨f32OfInt 250, f32OfInt 108⟩,
                                   bodySegments :=
                                     [⟨f32OfInt 250, f32OfInt 108⟩,
                                      ⟨178406005144387951012409069493136643314174394368,
                                       94738814118585475660104190312155267270298304512⟩,
                                      ⟨178406092256673882772655716117036145846836527104,
                                       110948907843553734696786243747310177004778684416⟩],
                                   cargo := ⟨Black, Black, Black⟩, cargoCount := 3,
                                   currentWaypointIdx := 3,
                                   targetPos := ⟨f32OfInt 250, f32OfInt 105⟩ } }

end LastTravelTick

section RefillVocabulary
variable {F : Type}

/-- State `k` ticks after a fill transfer emptied a box into `b`: the box has only been
through the refill loop, a stopped train still has at least `300 - k` on its dwell timer,
and a train that is not filling carries three units. -/
def sinceEmptied (rm : Raymath F) (i : Fin 3) (b : Box F) (k : Nat) (g : Game F) : Prop :=
  Reachable rm g ∧ g.bottomBoxes.get i = (refillBox^[k]) b ∧
  (g.train.isMoving = false → 300 ≤ g.train.stationTimer + k) ∧
  (g.train.isFilling = false → g.train.cargoCount = 3)

end RefillVocabulary

/-! ## Basic facts -/

section Basic
variable {F : Type}

theorem wrap64_small {x : Int} (h1 : -9223372036854775808 ≤ x) (h2 : x < 9223372036854775808) :
    wrap64 x = x := by
  unfold wrap64; omega

@[simp] theorem Arr3.get_zero {α : Type} (a : Arr3 α) : a.get 0 = a.e0 := rfl
@[simp] theorem Arr3.get_one {α : Type} (a : Arr3 α) : a.get 1 = a.e1 := rfl
@[simp] theorem Arr3.get_two {α : Type} (a : Arr3 α) : a.get 2 = a.e2 := rfl
@[simp] theorem Arr3.set_zero {α : Type} (a : Arr3 α) (v : α) : a.set 0 v = ⟨v, a.e1, a.e2⟩ := rfl
@[simp] theorem Arr3.set_one {α : Type} (a : Arr3 α) (v : α) : a.set 1 v = ⟨a.e0, v, a.e2⟩ := rfl
@[simp] theorem Arr3.set_two {α : Type} (a : Arr3 α) (v : α) : a.set 2 v = ⟨a.e0, a.e1, v⟩ := rfl

theorem forall_fin3 {p : Fin 3 → Prop} : (∀ i, p i) ↔ p 0 ∧ p 1 ∧ p 2 := by
  constructor
  · intro h; exact ⟨h 0, h 1, h 2⟩
  · rintro ⟨h0, h1, h2⟩ i
    match i with
    | 0 => exact h0
    | 1 => exact h1
    | 2 => exact h2

theorem refillBottomBoxes_eq (bs : Arr3 (Box F)) :
    refillBottomBoxes bs = ⟨refillBox bs.e0, refillBox bs.e1, refillBox bs.e2⟩ := rfl

theorem black_ne_blank : Black ≠ Blank := by decide
theorem lightGray_ne_blank : LightGray ≠ Blank := by decide
theorem black_ne_lightGray : Black ≠ LightGray := by decide

theorem inv_init (rm : Raymath F) : Inv rm 0 (initGame rm) := by
  refine ⟨rfl, rfl, rfl, rfl, ?_, ?_, ?_, ?_⟩
  · exact Or.inl ⟨rfl, rfl, rfl⟩
  · exact Or.inl ⟨rfl, rfl, rfl⟩
  · exact Or.inl ⟨rfl, rfl, rfl⟩
  · refine Or.inl ⟨⟨rfl, rfl, rfl⟩, rfl, rfl, rfl, ?_, ?_, Or.inl rfl⟩
    · exact ⟨⟨rfl, rfl, rfl⟩, ⟨rfl, rfl, rfl⟩, ⟨rfl, rfl, rfl⟩⟩
    · exact ⟨⟨rfl, rfl, rfl⟩, ⟨rfl, rfl, rfl⟩, ⟨rfl, rfl, rfl⟩⟩

end Basic

/-! ## Preservation of the invariant -/

section Preservation
variable {F : Type}

theorem refill_full {b : Box F} (h : boxFull b) : refillBox b = b := by
  simp [refillBox, h.1]

theorem refill_ok {b : Box F} (h : bottomOK b) : bottomOK (refillBox b) := by
  rcases h with h | ⟨h1, h2, h3, h4⟩
  · rw [refill_full h]; exact Or.inl h
  · have hw : wrap64 (b.refillTimer - 1) = b.refillTimer - 1 :=
      wrap64_small (by omega) (by simp only [refillTime] at h4; omega)
    simp only [refillTime] at h4
    by_cases hz : b.refillTimer - 1 ≤ 0
    · left; simp [refillBox, h1, hw, hz, boxFull]
    · right; simp [refillBox, h1, hw, hz, boxRefilling, h2, refillTime]; omega

theorem refill_still_empty {b : Box F} (h : bottomOK b) (he : (refillBox b).isEmpty = true) :
    b.isEmpty = true ∧ (refillBox b).refillTimer = b.refillTimer - 1 := by
  rcases h with h | ⟨h1, h2, h3, h4⟩
  · rw [refill_full h] at he; rw [h.1] at he; cases he
  · have hw : wrap64 (b.refillTimer - 1) = b.refillTimer - 1 :=
      wrap64_small (by omega) (by simp only [refillTime] at h4; omega)
    by_cases hz : b.refillTimer - 1 ≤ 0
    · simp [refillBox, h1, hw, hz] at he
    · simp [refillBox, h1, hw, hz]

theorem refill_get (bs : Arr3 (Box F)) (i : Fin 3) :
    (refillBottomBoxes bs).get i = refillBox (bs.get i) := by
  match i with
  | 0 => rfl
  | 1 => rfl
  | 2 => rfl

theorem bottomOK_get {bs : Arr3 (Box F)} (h0 : bottomOK bs.e0) (h1 : bottomOK bs.e1)
    (h2 : bottomOK bs.e2) (i : Fin 3) : bottomOK (bs.get i) := by
  match i with
  | 0 => exact h0
  | 1 => exact h1
  | 2 => exact h2

theorem allBottomFull_refill {g : Game F} (h : allBottomFull g) :
    allBottomFull (afterRefill g) := by
  obtain ⟨f0, f1, f2⟩ := h
  exact ⟨by simpa [afterRefill, refillBottomBoxes_eq, refill_full f0] using f0,
         by simpa [afterRefill, refillBottomBoxes_eq, refill_full f1] using f1,
         by simpa [afterRefill, refillBottomBoxes_eq, refill_full f2] using f2⟩

theorem fillingWith_refill {g : Game F} {c : Nat} (h : fillingWith c g) :
    fillingWith c (afterRefill g) := by
  obtain ⟨hf, ht1, ht2, hc, hcg, htop, hbot, hi⟩ := h
  refine ⟨hf, ht1, ht2, hc, hcg, htop, ?_, hi⟩
  intro i hi
  show boxFull ((refillBottomBoxes g.bottomBoxes).get i)
  rw [refill_get, refill_full (hbot i hi)]
  exact hbot i hi

theorem emptyingWith_refill {g : Game F} {c : Nat} (h : emptyingWith c g) :
    emptyingWith c (afterRefill g) := by
  obtain ⟨hf, ht1, ht2, hc, hcg, hbot, htop, hi⟩ := h
  exact ⟨hf, ht1, ht2, hc, hcg, allBottomFull_refill hbot, htop, hi⟩

theorem inv_refill {rm : Raymath F} {g : Game F} (h : Inv rm 0 g) : Inv rm 1 (afterRefill g) := by
  obtain ⟨hpath, hrail, hbody, htarget, hb0, hb1, hb2, hph⟩ := h
  refine ⟨hpath, hrail, hbody, htarget, refill_ok hb0, refill_ok hb1, refill_ok hb2, ?_⟩
  rcases hph with h | h | h | h | h | h | h | h
  · obtain ⟨hf, ht, hc, hcg, htop, hbot, hi⟩ := h
    exact Or.inl ⟨hf, ht, hc, hcg, htop, allBottomFull_refill hbot, hi⟩
  · exact Or.inr (Or.inl h)
  · exact Or.inr (Or.inr (Or.inl (fillingWith_refill h)))
  · exact Or.inr (Or.inr (Or.inr (Or.inl (fillingWith_refill h))))
  · exact Or.inr (Or.inr (Or.inr (Or.inr (Or.inl (fillingWith_refill h)))))
  · obtain ⟨hf, ht1, ht2, hc, hcg, htop, hbot, hi⟩ := h
    refine Or.inr (Or.inr (Or.inr (Or.inr (Or.inr (Or.inl
      ⟨hf, ht1, ht2, hc, hcg, htop, ?_, hi⟩)))))
    intro i he
    have he' : (refillBox (g.bottomBoxes.get i)).isEmpty = true := by
      rw [← refill_get]; exact he
    obtain ⟨e1, e2⟩ := refill_still_empty (bottomOK_get hb0 hb1 hb2 i) he'
    have := hbot i e1
    show ((refillBottomBoxes g.bottomBoxes).get i).refillTimer + 120 + 1 ≤ g.train.stationTimer
    rw [refill_get, e2]; omega
  · exact Or.inr (Or.inr (Or.inr (Or.inr (Or.inr (Or.inr (Or.inl (emptyingWith_refill h)))))))
  · exact Or.inr (Or.inr (Or.inr (Or.inr (Or.inr (Or.inr (Or.inr (emptyingWith_refill h)))))))

theorem phase_of_filling {g : Game F} {c : Nat} (d : Int) (hc : c < 3) (h : fillingWith c g) :
    phaseInv d g := by
  interval_cases c
  · exact Or.inr (Or.inr (Or.inl h))
  · exact Or.inr (Or.inr (Or.inr (Or.inl h)))
  · exact Or.inr (Or.inr (Or.inr (Or.inr (Or.inl h))))

theorem wrap64_one : wrap64 1 = 1 := by decide
theorem wrap64_two : wrap64 2 = 2 := by decide
theorem wrap64_three : wrap64 3 = 3 := by decide

theorem bottomOK_taken (r : Rectangle F) : bottomOK (⟨r, LightGray, true, refillTime⟩ : Box F) :=
  Or.inr ⟨rfl, rfl, by simp [refillTime], by simp⟩

theorem station_filling {rm : Raymath F} {g : Game F} {c : Nat} (hc : c < 3)
    (h : Inv rm 1 g) (hp : fillingWith c g) : Inv rm 0 (stationStep g) := by
  obtain ⟨hpath, hrail, hbody, htarget, hb0, hb1, hb2, -⟩ := h
  obtain ⟨⟨hmv, hfl, hem⟩, ht1, ht2, hcount, hcargo, htops, hbot, hidx⟩ := hp
  obtain ⟨tops, ⟨b0, b1, b2⟩, ⟨head, body, cargo, count, path, idx, target, mv, fl, em, timer⟩, rp⟩ := g
  simp only [stationDelay, forall_fin3, Arr3.get_zero, Arr3.get_one, Arr3.get_two, allTopEmpty] at *
  subst hmv hfl hem hcount hcargo
  have hw : wrap64 (timer - 1) = timer - 1 := wrap64_small (by omega) (by omega)
  by_cases hexp : timer - 1 ≤ 0
  · have ht : timer - 1 = 0 := by omega
    interval_cases c
    · simp at hbot
      obtain ⟨⟨e0, c0, r0⟩, f1, f2⟩ := hbot
      refine ⟨?_, ?_, ?_, ?_, ?_, ?_, ?_, phase_of_filling 0 (c := 1) (by decide)
        ⟨⟨?_, ?_, ?_⟩, ?_, ?_, ?_, ?_, ?_, ?_, ?_⟩⟩
      all_goals simp [stationStep, hw, hexp, fillStep, fillLoop, idx3, fillPattern, e0, c0,
        wrap64_one, bottomOK_taken, stationDelay, allTopEmpty, forall_fin3]
      all_goals first | assumption | exact ⟨f1, f2⟩
    · simp [fillPattern] at hbot
      obtain ⟨⟨e0, c0, r0⟩, f2⟩ := hbot
      refine ⟨?_, ?_, ?_, ?_, ?_, ?_, ?_, phase_of_filling 0 (c := 2) (by decide)
        ⟨⟨?_, ?_, ?_⟩, ?_, ?_, ?_, ?_, ?_, ?_, ?_⟩⟩
      all_goals simp [stationStep, hw, hexp, fillStep, fillLoop, idx3, fillPattern, e0, c0,
        wrap64_two, bottomOK_taken, stationDelay, allTopEmpty, forall_fin3, black_ne_blank]
      all_goals first | assumption
    · simp [fillPattern] at hbot
      obtain ⟨e0, c0, r0⟩ := hbot
      refine ⟨?_, ?_, ?_, ?_, ?_, ?_, ?_, Or.inr (Or.inl
        ⟨⟨?_, ?_, ?_⟩, ?_, ?_, ?_, ?_, ?_⟩)⟩
      all_goals simp [stationStep, hw, hexp, fillStep, fillLoop, idx3, fillPattern, e0, c0,
        wrap64_three, bottomOK_taken, stationDelay, allTopEmpty, forall_fin3, black_ne_blank]
      all_goals first | assumption | omega
  · refine ⟨?_, ?_, ?_, ?_, ?_, ?_, ?_, phase_of_filling 0 hc
        ⟨⟨?_, ?_, ?_⟩, ?_, ?_, ?_, ?_, ?_, ?_, ?_⟩⟩
    all_goals simp [stationStep, hw, hexp, stationDelay, allTopEmpty, forall_fin3]
    all_goals first | assumption | omega | simpa using hbot

theorem boxFull_of_deadline {b : Box F} {t : Int} (h : bottomOK b)
    (hd : b.isEmpty = true → b.refillTimer + 120 + 1 ≤ t) (ht : t ≤ 1) : boxFull b := by
  rcases h with h | ⟨h1, -, h3, -⟩
  · exact h
  · have := hd h1; omega

theorem station_emptyingFull {rm : Raymath F} {g : Game F}
    (h : Inv rm 1 g) (hp : emptyingFull 1 g) : Inv rm 0 (stationStep g) := by
  obtain ⟨hpath, hrail, hbody, htarget, hb0, hb1, hb2, -⟩ := h
  obtain ⟨⟨hmv, hfl, hem⟩, ht1, ht2, hcount, hcargo, htops, hbot, hidx⟩ := hp
  obtain ⟨⟨t0, t1, t2⟩, ⟨b0, b1, b2⟩, ⟨head, body, cargo, count, path, idx, target, mv, fl, em, timer⟩, rp⟩ := g
  simp only [stationDelay, forall_fin3, Arr3.get_zero, Arr3.get_one, Arr3.get_two, allTopEmpty] at *
  subst hmv hfl hem hcount hcargo
  have hw : wrap64 (timer - 1) = timer - 1 := wrap64_small (by omega) (by omega)
  obtain ⟨d0, d1, d2⟩ := hbot
  by_cases hexp : timer - 1 ≤ 0
  · have ht : timer - 1 = 0 := by omega
    have f0 := boxFull_of_deadline hb0 d0 (by omega)
    have f1 := boxFull_of_deadline hb1 d1 (by omega)
    have f2 := boxFull_of_deadline hb2 d2 (by omega)
    obtain ⟨⟨a0, a1, a2⟩, tt1, tt2⟩ := htops
    refine ⟨?_, ?_, ?_, ?_, ?_, ?_, ?_, Or.inr (Or.inr (Or.inr (Or.inr (Or.inr (Or.inr (Or.inl
        ⟨⟨?_, ?_, ?_⟩, ?_, ?_, ?_, ?_, ?_, ?_, ?_⟩))))))⟩
    all_goals simp [stationStep, hw, hexp, emptyStep, emptyLoop, idx3, emptyPattern, a0, a1, a2, wrap64_two,
        stationDelay, allTopEmpty, allBottomFull, forall_fin3, black_ne_blank, topLoaded]
    all_goals first | assumption | omega | exact ⟨f0, f1, f2⟩ | exact ⟨tt1, tt2⟩
  · refine ⟨?_, ?_, ?_, ?_, ?_, ?_, ?_, Or.inr (Or.inr (Or.inr (Or.inr (Or.inr (Or.inl
        ⟨⟨?_, ?_, ?_⟩, ?_, ?_, ?_, ?_, ?_, ?_, ?_⟩)))))⟩
    all_goals simp [stationStep, hw, hexp, stationDelay, allTopEmpty, forall_fin3, emptyPattern]
    any_goals first | assumption | omega
    refine ⟨fun e => ?_, fun e => ?_, fun e => ?_⟩
    · have := d0 e; omega
    · have := d1 e; omega
    · have := d2 e; omega

theorem wrap64_zero : wrap64 0 = 0 := by decide

theorem station_emptyingWith {rm : Raymath F} {g : Game F} {c : Nat} (hc : c = 1 ∨ c = 2)
    (h : Inv rm 1 g) (hp : emptyingWith c g) : Inv rm 0 (stationStep g) := by
  obtain ⟨hpath, hrail, hbody, htarget, hb0, hb1, hb2, -⟩ := h
  obtain ⟨⟨hmv, hfl, hem⟩, ht1, ht2, hcount, hcargo, hbot, htops, hidx⟩ := hp
  obtain ⟨⟨t0, t1, t2⟩, ⟨b0, b1, b2⟩, ⟨head, body, cargo, count, path, idx, target, mv, fl, em, timer⟩, rp⟩ := g
  simp only [stationDelay, forall_fin3, Arr3.get_zero, Arr3.get_one, Arr3.get_two, allBottomFull] at *
  subst hmv hfl hem hcount hcargo
  have hw : wrap64 (timer - 1) = timer - 1 := wrap64_small (by omega) (by omega)
  by_cases hexp : timer - 1 ≤ 0
  · have ht : timer - 1 = 0 := by omega
    rcases hc with rfl | rfl
    · simp at htops
      obtain ⟨⟨l0, l1, l2⟩, ⟨m0, m1, m2⟩, ⟨a0, a1, a2⟩⟩ := htops
      refine ⟨?_, ?_, ?_, ?_, ?_, ?_, ?_, Or.inl
        ⟨⟨?_, ?_, ?_⟩, ?_, ?_, ?_, ?_, ?_, ?_⟩⟩
      all_goals simp [stationStep, hw, hexp, emptyStep, emptyLoop, idx3, emptyPattern, fillPattern,
        a0, a1, a2, l0, l1, l2, m0, m1, m2, wrap64_zero, resetTopBoxes,
        stationDelay, allTopEmpty, allBottomFull, forall_fin3, black_ne_blank, topLoaded, topEmpty]
      all_goals first | assumption | omega
    · simp at htops
      obtain ⟨⟨l0, l1, l2⟩, ⟨a0, a1, a2⟩, tt2⟩ := htops
      refine ⟨?_, ?_, ?_, ?_, ?_, ?_, ?_, Or.inr (Or.inr (Or.inr (Or.inr (Or.inr (Or.inr (Or.inr
        ⟨⟨?_, ?_, ?_⟩, ?_, ?_, ?_, ?_, ?_, ?_, ?_⟩))))))⟩
      all_goals simp [stationStep, hw, hexp, emptyStep, emptyLoop, idx3, emptyPattern,
        a0, a1, a2, l0, l1, l2, wrap64_one,
        stationDelay, allTopEmpty, allBottomFull, forall_fin3, black_ne_blank, topLoaded]
      all_goals assumption
  · have key : emptyingWith c (stationStep (⟨⟨t0, t1, t2⟩, ⟨b0, b1, b2⟩, ⟨head, body, emptyPattern c, c,
        path, idx, target, false, false, true, timer⟩, rp⟩ : Game F)) := by
      refine ⟨⟨?_, ?_, ?_⟩, ?_, ?_, ?_, ?_, ?_, ?_, ?_⟩
      all_goals simp [stationStep, hw, hexp, stationDelay, allBottomFull, forall_fin3]
      all_goals first | assumption | omega | simpa using htops
    refine ⟨?_, ?_, ?_, ?_, ?_, ?_, ?_, ?_⟩
    · simpa [stationStep, hw, hexp] using hpath
    · simpa [stationStep, hw, hexp] using hrail
    · simpa [stationStep, hw, hexp] using hbody
    · simpa [stationStep, hw, hexp] using htarget
    · simpa [stationStep, hw, hexp] using hb0
    · simpa [stationStep, hw, hexp] using hb1
    · simpa [stationStep, hw, hexp] using hb2
    · rcases hc with rfl | rfl
      · exact Or.inr (Or.inr (Or.inr (Or.inr (Or.inr (Or.inr (Or.inr key))))))
      · exact Or.inr (Or.inr (Or.inr (Or.inr (Or.inr (Or.inr (Or.inl key))))))


theorem inv_station {rm : Raymath F} {g : Game F} (h : Inv rm 1 g)
    (hm : g.train.isMoving = false) : Inv rm 0 (stationStep g) := by
  rcases h.phase with hp | hp | hp | hp | hp | hp | hp | hp
  · rw [hp.1.1] at hm; cases hm
  · rw [hp.1.1] at hm; cases hm
  · exact station_filling (by decide) h hp
  · exact station_filling (by decide) h hp
  · exact station_filling (by decide) h hp
  · exact station_emptyingFull h hp
  · exact station_emptyingWith (Or.inr rfl) h hp
  · exact station_emptyingWith (Or.inl rfl) h hp

theorem followChain_length (rm : Raymath F) (prev : Vector2 F) (l : List (Vector2 F)) :
    (followChain rm prev l).length = l.length := by
  induction l generalizing prev with
  | nil => rfl
  | cons a l ih => simp [followChain, ih]

theorem moveBody_length (rm : Raymath F) (head : Vector2 F) (l : List (Vector2 F)) :
    (moveBody rm head l).length = l.length := by
  cases l with
  | nil => rfl
  | cons a l => simp [moveBody, followChain_length]

theorem initRailPoints_length (rm : Raymath F) : (initRailPoints rm).length = 9 := rfl

theorem next_waypoint {k : Int} (h0 : 0 ≤ k) (h1 : k < 9) :
    Int.tmod (wrap64 (k + 1)) 9 = (k + 1) % 9 := by
  rw [wrap64_small (by omega) (by omega), Int.tmod_eq_emod (by omega) (by omega)]

theorem moveHead_open {rm : Raymath F} {t : Train F} (ho : legOpen rm t = true) :
    moveHead rm t = some { t with headPos := stepHead rm t } := by
  unfold legOpen at ho
  simp [moveHead, ho, stepHead]

theorem moveHead_closed {rm : Raymath F} {t : Train F} (ho : legOpen rm t = false)
    (hp : t.path = initRailPoints rm) (h0 : 0 ≤ t.currentWaypointIdx)
    (h1 : t.currentWaypointIdx < 9) :
    ∃ p, t.path[((t.currentWaypointIdx + 1) % 9).toNat]? = some p ∧
      moveHead rm t = some (stationCheck
        { t with headPos := t.targetPos,
                 currentWaypointIdx := (t.currentWaypointIdx + 1) % 9,
                 targetPos := p }) := by
  unfold legOpen at ho
  have hlen : t.path.length = 9 := by rw [hp]; rfl
  have hlt : ((t.currentWaypointIdx + 1) % 9).toNat < t.path.length := by omega
  refine ⟨t.path[((t.currentWaypointIdx + 1) % 9).toNat], List.getElem?_eq_getElem hlt, ?_⟩
  have hnn : ¬ (t.currentWaypointIdx + 1) % 9 < 0 := by omega
  simp [moveHead, ho, hlen, next_waypoint h0 h1, hnn, List.getElem?_eq_getElem hlt]

theorem moveTrain_open {rm : Raymath F} {t : Train F} (ho : legOpen rm t = true) :
    moveTrain rm t = some { t with headPos := stepHead rm t,
                                   bodySegments := moveBody rm (stepHead rm t) t.bodySegments } := by
  simp [moveTrain, moveHead_open ho]

theorem moveTrain_closed {rm : Raymath F} {t : Train F} (ho : legOpen rm t = false)
    (hp : t.path = initRailPoints rm) (h0 : 0 ≤ t.currentWaypointIdx)
    (h1 : t.currentWaypointIdx < 9) :
    ∃ p, t.path[((t.currentWaypointIdx + 1) % 9).toNat]? = some p ∧
      moveTrain rm t = some { arrive t p with
        bodySegments := moveBody rm (arrive t p).headPos (arrive t p).bodySegments } := by
  obtain ⟨p, hp1, hp2⟩ := moveHead_closed ho hp h0 h1
  exact ⟨p, hp1, by simp [moveTrain, hp2, arrive]⟩

theorem bottomOK_deadline {b : Box F} (h : bottomOK b) :
    b.isEmpty = true → b.refillTimer + 120 ≤ 300 := by
  intro he
  rcases h with h | ⟨-, -, -, h4⟩
  · rw [h.1] at he; cases he
  · simp only [refillTime] at h4; omega

theorem inv_move {rm : Raymath F} {g : Game F} (h : Inv rm 1 g)
    (hm : g.train.isMoving = true) :
    ∃ t, moveTrain rm g.train = some t ∧ Inv rm 0 { g with train := t } := by
  obtain ⟨hpath, hrail, hbody, htarget, hb0, hb1, hb2, hph⟩ := h
  obtain ⟨⟨t0, t1, t2⟩, ⟨b0, b1, b2⟩, ⟨head, body, cargo, count, path, idx, target, mv, fl, em, timer⟩, rp⟩ := g
  simp only at hm hpath hrail hbody htarget hb0 hb1 hb2
  subst hm
  cases ho : legOpen rm (⟨head, body, cargo, count, path, idx, target, true, fl, em, timer⟩ : Train F)
  · have hidx : 0 ≤ idx ∧ idx < 9 := by
      rcases hph with hp | hp | hp | hp | hp | hp | hp | hp
      · have := hp.2.2.2.2.2.2; simp only at this; omega
      · have := hp.2.2.2.2.2; simp only at this; omega
      all_goals (have hflag := hp.1.1; simp at hflag)
    obtain ⟨p, hp1, hp2⟩ := moveTrain_closed ho hpath hidx.1 hidx.2
    refine ⟨_, hp2, ?_⟩
    simp only at hp1
    rcases hph with hp | hp | hp | hp | hp | hp | hp | hp
    · obtain ⟨⟨-, hfl, hem⟩, ht, hc, hcg, htop, hbot, hi⟩ := hp
      simp only [allTopEmpty, allBottomFull] at hfl hem ht hc hcg htop hbot hi
      subst hfl hem ht hc hcg
      rcases hi with rfl | rfl | rfl | rfl | rfl
      · refine ⟨?_, ?_, ?_, ?_, ?_, ?_, ?_, Or.inr (Or.inr (Or.inl
          ⟨⟨?_, ?_, ?_⟩, ?_, ?_, ?_, ?_, ?_, ?_, ?_⟩))⟩
        all_goals simp [arrive, stationCheck, moveBody_length, stationDelay, allTopEmpty,
          forall_fin3]
        all_goals assumption
      · refine ⟨?_, ?_, ?_, ?_, ?_, ?_, ?_, Or.inl ⟨⟨?_, ?_, ?_⟩, ?_, ?_, ?_, ?_, ?_, ?_⟩⟩
        all_goals simp [arrive, stationCheck, moveBody_length, stationDelay, allTopEmpty,
          allBottomFull, forall_fin3]
        all_goals assumption
      · refine ⟨?_, ?_, ?_, ?_, ?_, ?_, ?_, Or.inl ⟨⟨?_, ?_, ?_⟩, ?_, ?_, ?_, ?_, ?_, ?_⟩⟩
        all_goals simp [arrive, stationCheck, moveBody_length, stationDelay, allTopEmpty,
          allBottomFull, forall_fin3]
        all_goals assumption
      · refine ⟨?_, ?_, ?_, ?_, ?_, ?_, ?_, Or.inl ⟨⟨?_, ?_, ?_⟩, ?_, ?_, ?_, ?_, ?_, ?_⟩⟩
        all_goals simp [arrive, stationCheck, moveBody_length, stationDelay, allTopEmpty,
          allBottomFull, forall_fin3]
        all_goals assumption
      · refine ⟨?_, ?_, ?_, ?_, ?_, ?_, ?_, Or.inr (Or.inr (Or.inl
          ⟨⟨?_, ?_, ?_⟩, ?_, ?_, ?_, ?_, ?_, ?_, ?_⟩))⟩
        all_goals simp [arrive, stationCheck, moveBody_length, stationDelay, allTopEmpty,
          forall_fin3]
        all_goals assumption
    · obtain ⟨⟨-, hfl, hem⟩, ht, hc, hcg, htop, hi⟩ := hp
      simp only [allTopEmpty] at hfl hem ht hc hcg htop hi
      subst hfl hem ht hc hcg
      rcases hi with rfl | rfl | rfl | rfl | rfl
      · refine ⟨?_, ?_, ?_, ?_, ?_, ?_, ?_, Or.inr (Or.inl ⟨⟨?_, ?_, ?_⟩, ?_, ?_, ?_, ?_, ?_⟩)⟩
        all_goals simp [arrive, stationCheck, moveBody_length, stationDelay, allTopEmpty,
          forall_fin3]
        all_goals assumption
      · refine ⟨?_, ?_, ?_, ?_, ?_, ?_, ?_, Or.inr (Or.inl ⟨⟨?_, ?_, ?_⟩, ?_, ?_, ?_, ?_, ?_⟩)⟩
        all_goals simp [arrive, stationCheck, moveBody_length, stationDelay, allTopEmpty,
          forall_fin3]
        all_goals assumption
      · refine ⟨?_, ?_, ?_, ?_, ?_, ?_, ?_, Or.inr (Or.inl ⟨⟨?_, ?_, ?_⟩, ?_, ?_, ?_, ?_, ?_⟩)⟩
        all_goals simp [arrive, stationCheck, moveBody_length, stationDelay, allTopEmpty,
          forall_fin3]
        all_goals assumption
      · refine ⟨?_, ?_, ?_, ?_, ?_, ?_, ?_, Or.inr (Or.inl ⟨⟨?_, ?_, ?_⟩, ?_, ?_, ?_, ?_, ?_⟩)⟩
        all_goals simp [arrive, stationCheck, moveBody_length, stationDelay, allTopEmpty,
          forall_fin3]
        all_goals assumption
      · refine ⟨?_, ?_, ?_, ?_, ?_, ?_, ?_, Or.inr (Or.inr (Or.inr (Or.inr (Or.inr (Or.inl
          ⟨⟨?_, ?_, ?_⟩, ?_, ?_, ?_, ?_, ?_, ?_, ?_⟩)))))⟩
        all_goals simp [arrive, stationCheck, moveBody_length, stationDelay, allTopEmpty,
          forall_fin3, emptyPattern, fillPattern]
        any_goals assumption
        exact ⟨bottomOK_deadline hb0, bottomOK_deadline hb1, bottomOK_deadline hb2⟩
    all_goals (have hflag := hp.1.1; simp at hflag)
  · refine ⟨_, moveTrain_open ho, ⟨hpath, hrail, ?_, htarget, hb0, hb1, hb2, ?_⟩⟩
    · simpa [moveBody_length] using hbody
    · rcases hph with hp | hp | hp | hp | hp | hp | hp | hp
      · exact Or.inl hp
      · exact Or.inr (Or.inl hp)
      all_goals (have hflag := hp.1.1; simp at hflag)

theorem inv_step {rm : Raymath F} {g : Game F} (h : Inv rm 0 g) :
    ∃ g', updateGame rm g = some g' ∧ Inv rm 0 g' := by
  have h1 := inv_refill h
  cases hm : (afterRefill g).train.isMoving
  · exact ⟨stationStep (afterRefill g), by simp [updateGame, hm], inv_station h1 hm⟩
  · obtain ⟨t, ht1, ht2⟩ := inv_move h1 hm
    exact ⟨_, by simp [updateGame, hm, ht1], ht2⟩

theorem inv_reachable {rm : Raymath F} {g : Game F} (h : Reachable rm g) : Inv rm 0 g := by
  induction h with
  | init => exact inv_init rm
  | tick _ hstep ih =>
    obtain ⟨g2, h1, h2⟩ := inv_step ih
    rw [h1] at hstep
    cases hstep
    exact h2

end Preservation

/-! ## The first lap of the concrete game -/

section FirstLap
variable {F : Type}

theorem run_add (rm : Raymath F) (m n : Nat) (g : Game F) :
    run rm (m + n) g = (run rm m g).bind (run rm n) := by
  induction m generalizing g with
  | zero => simp [run]
  | succ m ih =>
    rw [Nat.succ_add]
    simp only [run]
    cases updateGame rm g with
    | none => rfl
    | some g1 => exact ih g1

theorem reachable_run {rm : Raymath F} {g g' : Game F} (n : Nat) (h : Reachable rm g)
    (hr : run rm n g = some g') : Reachable rm g' := by
  induction n generalizing g with
  | zero => simp [run] at hr; rw [← hr]; exact h
  | succ n ih =>
    simp only [run] at hr
    cases hu : updateGame rm g with
    | none => rw [hu] at hr; cases hr
    | some g1 => rw [hu] at hr; exact ih (Reachable.tick h hu) hr

set_option maxRecDepth 100000 in
theorem run_to_300 :
    run f32Math 300 (initGame f32Math) = some (fillingAt 1 0 ⟨Blank, Blank, Blank⟩) := by
  decide!

set_option maxRecDepth 100000 in
theorem run_to_600 :
    run f32Math 300 (fillingAt 1 0 ⟨Blank, Blank, Blank⟩) =
      some (fillingAt 1 1 ⟨Black, Blank, Blank⟩) := by
  decide!

set_option maxRecDepth 100000 in
theorem run_to_900 :
    run f32Math 300 (fillingAt 1 1 ⟨Black, Blank, Blank⟩) =
      some (fillingAt 1 2 ⟨Black, Black, Blank⟩) := by
  decide!

set_option maxRecDepth 100000 in
theorem run_to_901 :
    run f32Math 1 (fillingAt 1 2 ⟨Black, Black, Blank⟩) = some leavingBottom := by
  decide!

set_option maxRecDepth 100000 in
theorem run_to_947 : run f32Math 46 leavingBottom = some atTick947 := by
  decide!

set_option maxRecDepth 100000 in
theorem run_to_992 : run f32Math 45 atTick947 = some atTick992 := by
  decide!

set_option maxRecDepth 100000 in
theorem run_to_1037 : run f32Math 45 atTick992 = some atTick1037 := by
  decide!

set_option maxRecDepth 100000 in
theorem run_to_1082 :
    run f32Math 45 atTick1037 =
      some (emptyingAt 300 3 ⟨Black, Black, Black⟩ (topsAfter 0)) := by
  decide!

set_option maxRecDepth 100000 in
theorem run_to_1381 :
    run f32Math 299 (emptyingAt 300 3 ⟨Black, Black, Black⟩ (topsAfter 0)) =
      some (emptyingAt 1 3 ⟨Black, Black, Black⟩ (topsAfter 0)) := by
  decide!

set_option maxRecDepth 100000 in
theorem run_to_1681 :
    run f32Math 300 (emptyingAt 1 3 ⟨Black, Black, Black⟩ (topsAfter 0)) =
      some (emptyingAt 1 2 ⟨Blank, Black, Black⟩ (topsAfter 1)) := by
  decide!

set_option maxRecDepth 100000 in
theorem run_to_1981 :
    run f32Math 300 (emptyingAt 1 2 ⟨Blank, Black, Black⟩ (topsAfter 1)) =
      some (emptyingAt 1 1 ⟨Blank, Blank, Black⟩ (topsAfter 2)) := by
  decide!

theorem reach_300 : Reachable f32Math (fillingAt 1 0 ⟨Blank, Blank, Blank⟩) :=
  reachable_run 300 (Reachable.init) run_to_300

theorem reach_600 : Reachable f32Math (fillingAt 1 1 ⟨Black, Blank, Blank⟩) :=
  reachable_run 300 reach_300 run_to_600

theorem reach_900 : Reachable f32Math (fillingAt 1 2 ⟨Black, Black, Blank⟩) :=
  reachable_run 300 reach_600 run_to_900

theorem reach_901 : Reachable f32Math leavingBottom :=
  reachable_run 1 reach_900 run_to_901

theorem reach_947 : Reachable f32Math atTick947 :=
  reachable_run 46 reach_901 run_to_947

theorem reach_992 : Reachable f32Math atTick992 :=
  reachable_run 45 reach_947 run_to_992

theorem reach_1037 : Reachable f32Math atTick1037 :=
  reachable_run 45 reach_992 run_to_1037

theorem reach_1082 : Reachable f32Math (emptyingAt 300 3 ⟨Black, Black, Black⟩ (topsAfter 0)) :=
  reachable_run 45 reach_1037 run_to_1082

theorem reach_1381 : Reachable f32Math (emptyingAt 1 3 ⟨Black, Black, Black⟩ (topsAfter 0)) :=
  reachable_run 299 reach_1082 run_to_1381

theorem reach_1681 : Reachable f32Math (emptyingAt 1 2 ⟨Blank, Black, Black⟩ (topsAfter 1)) :=
  reachable_run 300 reach_1381 run_to_1681

theorem reach_1981 : Reachable f32Math (emptyingAt 1 1 ⟨Blank, Blank, Black⟩ (topsAfter 2)) :=
  reachable_run 300 reach_1681 run_to_1981

end FirstLap

/-! ## The claims -/

section Claims
variable {F : Type}

theorem reach_beforeFill1 : Reachable f32Math beforeFill1 := reach_300
theorem reach_beforeFill3 : Reachable f32Math beforeFill3 := reach_900
theorem reach_arrivedTop : Reachable f32Math arrivedTop := reach_1082
theorem reach_beforeUnload1 : Reachable f32Math beforeUnload1 := reach_1381
theorem reach_beforeUnload3 : Reachable f32Math beforeUnload3 := reach_1981

theorem flags_of_phase {d : Int} {g : Game F} (h : phaseInv d g) : exactlyOneFlag g.train := by
  rcases h with h | h | h | h | h | h | h | h
  · exact Or.inl h.1
  · exact Or.inl h.1
  · exact Or.inr (Or.inl h.1)
  · exact Or.inr (Or.inl h.1)
  · exact Or.inr (Or.inl h.1)
  · exact Or.inr (Or.inr h.1)
  · exact Or.inr (Or.inr h.1)
  · exact Or.inr (Or.inr h.1)

theorem count_of_phase {d : Int} {g : Game F} (h : phaseInv d g) :
    g.train.cargoCount = nonBlankCount g.train.cargo ∧
    0 ≤ g.train.cargoCount ∧ g.train.cargoCount ≤ 3 := by
  rcases h with h | h | h | h | h | h | h | h
  · obtain ⟨-, -, hc, hcg, -⟩ := h; rw [hc, hcg]; decide
  · obtain ⟨-, -, hc, hcg, -⟩ := h; rw [hc, hcg]; decide
  · obtain ⟨-, -, -, hc, hcg, -⟩ := h; rw [hc, hcg]; decide
  · obtain ⟨-, -, -, hc, hcg, -⟩ := h; rw [hc, hcg]; decide
  · obtain ⟨-, -, -, hc, hcg, -⟩ := h; rw [hc, hcg]; decide
  · obtain ⟨-, -, -, hc, hcg, -⟩ := h; rw [hc, hcg]; decide
  · obtain ⟨-, -, -, hc, hcg, -⟩ := h; rw [hc, hcg]; decide
  · obtain ⟨-, -, -, hc, hcg, -⟩ := h; rw [hc, hcg]; decide

/-- C1: in every state reachable from `initGame` by `updateGame` ticks exactly one of
`isMoving`, `isFilling`, `isEmptying` is true; in particular `isFilling` and `isEmptying`
are never both true. -/
theorem C1_exactly_one_flag (rm : Raymath F) (g : Game F) (h : Reachable rm g) :
    exactlyOneFlag g.train ∧ ¬ (g.train.isFilling = true ∧ g.train.isEmptying = true) := by
  have h1 := flags_of_phase (inv_reachable h).phase
  refine ⟨h1, ?_⟩
  rintro ⟨hf, he⟩
  rcases h1 with ⟨-, a, -⟩ | ⟨-, -, a⟩ | ⟨-, a, -⟩
  · rw [a] at hf; cases hf
  · rw [a] at he; cases he
  · rw [a] at hf; cases hf

/-- C2: in every reachable state `cargoCount` is the number of cargo slots different from
`Blank`, hence between 0 and 3. -/
theorem C2_cargoCount_counts_slots (rm : Raymath F) (g : Game F) (h : Reachable rm g) :
    g.train.cargoCount = nonBlankCount g.train.cargo ∧
    0 ≤ g.train.cargoCount ∧ g.train.cargoCount ≤ 3 :=
  count_of_phase (inv_reachable h).phase

theorem C1_exactly_one_flag_witness :
    exactlyOneFlag arrivedTop.train ∧
    ¬ (arrivedTop.train.isFilling = true ∧
       arrivedTop.train.isEmptying = true) :=
  C1_exactly_one_flag f32Math arrivedTop reach_arrivedTop

theorem C2_cargoCount_counts_slots_witness :
    beforeFill3.train.cargoCount =
      nonBlankCount beforeFill3.train.cargo ∧
    0 ≤ beforeFill3.train.cargoCount ∧
    beforeFill3.train.cargoCount ≤ 3 :=
  C2_cargoCount_counts_slots f32Math beforeFill3 reach_beforeFill3

theorem updateGame_stopped (rm : Raymath F) {g : Game F} (h : g.train.isMoving = false) :
    updateGame rm g = some (stationStep (afterRefill g)) := by
  have : (afterRefill g).train.isMoving = false := h
  simp [updateGame, this]

set_option maxRecDepth 100000 in
theorem run_to_1982 :
    updateGame f32Math beforeUnload3 = some leavingTop := by
  decide!

/-- C3 (as stated) fails at the last unload transfer of a stop: before tick 1982 of the
concrete game top box 2 is the lowest empty top box and cargo slot 2 the lowest occupied
slot, and after the tick top box 2 is empty again, because the tick that unloads the last
unit also resets all top boxes. -/
theorem C3_counterexample :
    Reachable f32Math beforeUnload3 ∧
    beforeUnload3.train.isEmptying = true ∧
    beforeUnload3.train.stationTimer - 1 ≤ 0 ∧
    lowestEmptyTop beforeUnload3 2 ∧
    lowestOccupied beforeUnload3 2 ∧
    updateGame f32Math beforeUnload3 = some leavingTop ∧
    (leavingTop.topBoxes.get 2).isEmpty = true := by
  refine ⟨reach_beforeUnload3, rfl, by decide, ⟨rfl, ?_⟩, ⟨by decide, ?_⟩, run_to_1982, rfl⟩
  · intro i hi
    match i with
    | 0 => rfl
    | 1 => rfl
    | 2 => exact absurd hi (by decide)
  · intro i hi
    match i with
    | 0 => rfl
    | 1 => rfl
    | 2 => exact absurd hi (by decide)

theorem lt_one_fin3 {i : Fin 3} (h : i < 1) : i = 0 := by
  match i with
  | 0 => rfl
  | 1 => exact absurd h (by decide)
  | 2 => exact absurd h (by decide)

theorem lt_two_fin3 {i : Fin 3} (h : i < 2) : i = 0 ∨ i = 1 := by
  match i with
  | 0 => exact Or.inl rfl
  | 1 => exact Or.inr rfl
  | 2 => exact absurd h (by decide)

/-- C3 (amended): in every reachable state in which the train is emptying and the dwell
timer expires on this tick, the lowest-indexed empty top box and the lowest-indexed
occupied cargo slot have the same index `k`; after the tick cargo slot `k` is `Blank` and
`cargoCount` has decreased by exactly one; if more than one unit was on board, top box `k`
is non-empty and carries the colour the slot held; if it was the last unit, the same tick
ends the stop and resets every top box to empty. -/
theorem C3_unload_transfer (rm : Raymath F) (g : Game F) (h : Reachable rm g)
    (he : g.train.isEmptying = true) (ht : g.train.stationTimer - 1 ≤ 0) :
    ∃ g' k, updateGame rm g = some g' ∧ lowestEmptyTop g k ∧ lowestOccupied g k ∧
      g'.train.cargo.get k = Blank ∧ g'.train.cargoCount = g.train.cargoCount - 1 ∧
      (1 < g.train.cargoCount →
        (g'.topBoxes.get k).isEmpty = false ∧
        (g'.topBoxes.get k).color = g.train.cargo.get k) ∧
      (g.train.cargoCount = 1 → topsCleared g' ∧ g'.train.isEmptying = false) := by
  have hinv := inv_reachable h
  rcases hinv.phase with hp | hp | hp | hp | hp | hp | hp | hp
  · rw [hp.1.2.2] at he; cases he
  · rw [hp.1.2.2] at he; cases he
  · rw [hp.1.2.2] at he; cases he
  · rw [hp.1.2.2] at he; cases he
  · rw [hp.1.2.2] at he; cases he
  · obtain ⟨⟨hmv, hfl, hem⟩, ht1, ht2, hcount, hcargo, htops, hbot, hidx⟩ := hp
    refine ⟨_, 0, updateGame_stopped rm hmv, ?_⟩
    obtain ⟨⟨t0, t1, t2⟩, ⟨b0, b1, b2⟩, ⟨head, body, cargo, count, path, idx, target, mv, fl, em, timer⟩, rp⟩ := g
    simp only [allTopEmpty, topEmpty] at *
    subst hmv hfl hem hcount hcargo
    obtain ⟨⟨a0, a1, a2⟩, -, -⟩ := htops
    have hw : wrap64 (timer - 1) = timer - 1 := wrap64_small (by omega) (by omega)
    simp [lowestEmptyTop, lowestOccupied, topsCleared, afterRefill, stationStep, hw, ht,
      emptyStep, emptyLoop, idx3, emptyPattern, a0, black_ne_blank, wrap64_two]
  · obtain ⟨⟨hmv, hfl, hem⟩, ht1, ht2, hcount, hcargo, hbot, htops, hidx⟩ := hp
    refine ⟨_, 1, updateGame_stopped rm hmv, ?_⟩
    obtain ⟨⟨t0, t1, t2⟩, ⟨b0, b1, b2⟩, ⟨head, body, cargo, count, path, idx, target, mv, fl, em, timer⟩, rp⟩ := g
    simp only [forall_fin3, Arr3.get_zero, Arr3.get_one, Arr3.get_two] at *
    subst hmv hfl hem hcount hcargo
    simp [topLoaded, topEmpty] at htops
    obtain ⟨⟨l0, -, -⟩, ⟨a0, -, -⟩, -⟩ := htops
    have hw : wrap64 (timer - 1) = timer - 1 := wrap64_small (by omega) (by omega)
    refine ⟨⟨a0, fun i hi => by rw [lt_one_fin3 hi]; exact l0⟩,
      ⟨by simp [emptyPattern, black_ne_blank], fun i hi => by rw [lt_one_fin3 hi]; rfl⟩, ?_⟩
    simp [topsCleared, afterRefill, stationStep, hw, ht,
      emptyStep, emptyLoop, idx3, emptyPattern, a0, l0, black_ne_blank, wrap64_one]
  · obtain ⟨⟨hmv, hfl, hem⟩, ht1, ht2, hcount, hcargo, hbot, htops, hidx⟩ := hp
    refine ⟨_, 2, updateGame_stopped rm hmv, ?_⟩
    obtain ⟨⟨t0, t1, t2⟩, ⟨b0, b1, b2⟩, ⟨head, body, cargo, count, path, idx, target, mv, fl, em, timer⟩, rp⟩ := g
    simp only [forall_fin3, Arr3.get_zero, Arr3.get_one, Arr3.get_two] at *
    subst hmv hfl hem hcount hcargo
    simp [topLoaded, topEmpty] at htops
    obtain ⟨⟨l0, -, -⟩, ⟨m0, -, -⟩, ⟨a0, -, -⟩⟩ := htops
    have hw : wrap64 (timer - 1) = timer - 1 := wrap64_small (by omega) (by omega)
    refine ⟨⟨a0, fun i hi => by rcases lt_two_fin3 hi with rfl | rfl; exact l0; exact m0⟩,
      ⟨by simp [emptyPattern, black_ne_blank],
       fun i hi => by rcases lt_two_fin3 hi with rfl | rfl <;> rfl⟩, ?_⟩
    simp [topsCleared, afterRefill, stationStep, hw, ht, forall_fin3, resetTopBoxes,
      emptyStep, emptyLoop, idx3, emptyPattern, a0, l0, m0, black_ne_blank, wrap64_zero]

set_option maxRecDepth 100000 in
theorem C3_unload_transfer_witness :
    ∃ g' k, updateGame f32Math beforeUnload1 = some g' ∧
      lowestEmptyTop beforeUnload1 k ∧
      lowestOccupied beforeUnload1 k ∧
      g'.train.cargo.get k = Blank ∧
      g'.train.cargoCount = beforeUnload1.train.cargoCount - 1 ∧
      (1 < beforeUnload1.train.cargoCount →
        (g'.topBoxes.get k).isEmpty = false ∧
        (g'.topBoxes.get k).color =
          beforeUnload1.train.cargo.get k) ∧
      (beforeUnload1.train.cargoCount = 1 →
        topsCleared g' ∧ g'.train.isEmptying = false) :=
  C3_unload_transfer f32Math beforeUnload1 reach_beforeUnload1 rfl (by decide)

theorem fin3_cases (i : Fin 3) : i = 0 ∨ i = 1 ∨ i = 2 := by
  match i with
  | 0 => exact Or.inl rfl
  | 1 => exact Or.inr (Or.inl rfl)
  | 2 => exact Or.inr (Or.inr rfl)

theorem fillStep_bottom (g : Game F) :
    (fillStep g).bottomBoxes = (fillLoop g.bottomBoxes g.train idx3).1 := by
  unfold fillStep
  split
  rename_i heq
  rw [heq]
  split <;> rfl

theorem fillStep_cargo (g : Game F) :
    (fillStep g).train.cargo = (fillLoop g.bottomBoxes g.train idx3).2.1.cargo := by
  unfold fillStep
  split
  rename_i heq
  rw [heq]
  split <;> rfl

theorem fillStep_count (g : Game F) :
    (fillStep g).train.cargoCount = (fillLoop g.bottomBoxes g.train idx3).2.1.cargoCount := by
  unfold fillStep
  split
  rename_i heq
  rw [heq]
  split <;> rfl

theorem fillLoop_pick (bs : Arr3 (Box F)) (t : Train F) (i : Fin 3)
    (hi : (bs.get i).isEmpty = false ∧ t.cargo.get i = Blank)
    (hlow : ∀ j : Fin 3, j < i → ¬ ((bs.get j).isEmpty = false ∧ t.cargo.get j = Blank)) :
    fillLoop bs t idx3 =
      (bs.set i { bs.get i with color := LightGray, isEmpty := true, refillTimer := refillTime },
       { t with cargo := t.cargo.set i (bs.get i).color,
                cargoCount := wrap64 (t.cargoCount + 1) }, true) := by
  rcases fin3_cases i with rfl | rfl | rfl
  · have a0 : bs.e0.isEmpty = false ∧ t.cargo.e0 = Blank := hi
    simp [fillLoop, idx3, a0]
  · have a0 : ¬ (bs.e0.isEmpty = false ∧ t.cargo.e0 = Blank) := hlow 0 (by decide)
    have a1 : bs.e1.isEmpty = false ∧ t.cargo.e1 = Blank := hi
    simp [fillLoop, idx3, a0, a1]
  · have a0 : ¬ (bs.e0.isEmpty = false ∧ t.cargo.e0 = Blank) := hlow 0 (by decide)
    have a1 : ¬ (bs.e1.isEmpty = false ∧ t.cargo.e1 = Blank) := hlow 1 (by decide)
    have a2 : bs.e2.isEmpty = false ∧ t.cargo.e2 = Blank := hi
    simp [fillLoop, idx3, a0, a1, a2]

theorem stationStep_fill {g : Game F} (hf : g.train.isFilling = true)
    (ht : wrap64 (g.train.stationTimer - 1) ≤ 0) :
    stationStep g =
      fillStep { g with train := { g.train with stationTimer := wrap64 (g.train.stationTimer - 1) } } := by
  simp [stationStep, ht, hf]

/-- C4: for every state in which the train is filling (stopped, `isFilling` set) and the
dwell timer expires on this tick, if after the refill step of the tick `i` is the lowest
index whose bottom box is non-empty with cargo slot `i` `Blank`, then `updateGame` sets
`cargo[i]` to that box's colour, marks the box empty with colour `LightGray` and
`refillTimer = refillTime`, increments `cargoCount` (the 64-bit `++`, which is `+ 1` below
the largest `int`), and leaves every other cargo slot and every other bottom box as the
refill step left it. -/
theorem C4_fill_transfer (rm : Raymath F) (g : Game F) (i : Fin 3)
    (hm : g.train.isMoving = false) (hf : g.train.isFilling = true)
    (ht : wrap64 (g.train.stationTimer - 1) ≤ 0)
    (hi : eligible (afterRefill g) i) (hlow : ∀ j : Fin 3, j < i → ¬ eligible (afterRefill g) j) :
    ∃ g', updateGame rm g = some g' ∧
      g'.train.cargo.get i = ((afterRefill g).bottomBoxes.get i).color ∧
      (g'.bottomBoxes.get i).isEmpty = true ∧
      (g'.bottomBoxes.get i).color = LightGray ∧
      (g'.bottomBoxes.get i).refillTimer = refillTime ∧
      g'.train.cargoCount = wrap64 (g.train.cargoCount + 1) ∧
      (g.train.cargoCount < 9223372036854775807 → -9223372036854775808 ≤ g.train.cargoCount →
        g'.train.cargoCount = g.train.cargoCount + 1) ∧
      ∀ j : Fin 3, j ≠ i →
        g'.train.cargo.get j = g.train.cargo.get j ∧
        g'.bottomBoxes.get j = (afterRefill g).bottomBoxes.get j := by
  refine ⟨_, updateGame_stopped rm hm, ?_⟩
  have hf2 : (afterRefill g).train.isFilling = true := hf
  have ht2 : wrap64 ((afterRefill g).train.stationTimer - 1) ≤ 0 := ht
  rw [stationStep_fill hf2 ht2, fillStep_bottom, fillStep_cargo, fillStep_count]
  have hp := fillLoop_pick (afterRefill g).bottomBoxes
    { (afterRefill g).train with stationTimer := wrap64 ((afterRefill g).train.stationTimer - 1) }
    i hi hlow
  simp only at hp ⊢
  rw [hp]
  have hwc : g.train.cargoCount < 9223372036854775807 → -9223372036854775808 ≤ g.train.cargoCount →
      wrap64 (g.train.cargoCount + 1) = g.train.cargoCount + 1 :=
    fun h1 h2 => wrap64_small (by omega) (by omega)
  rcases fin3_cases i with rfl | rfl | rfl
  · refine ⟨rfl, rfl, rfl, rfl, rfl, hwc, ?_⟩
    intro j hj
    rcases fin3_cases j with rfl | rfl | rfl
    · exact absurd rfl hj
    · exact ⟨rfl, rfl⟩
    · exact ⟨rfl, rfl⟩
  · refine ⟨rfl, rfl, rfl, rfl, rfl, hwc, ?_⟩
    intro j hj
    rcases fin3_cases j with rfl | rfl | rfl
    · exact ⟨rfl, rfl⟩
    · exact absurd rfl hj
    · exact ⟨rfl, rfl⟩
  · refine ⟨rfl, rfl, rfl, rfl, rfl, hwc, ?_⟩
    intro j hj
    rcases fin3_cases j with rfl | rfl | rfl
    · exact ⟨rfl, rfl⟩
    · exact ⟨rfl, rfl⟩
    · exact absurd rfl hj

theorem C4_fill_transfer_witness :
    ∃ g', updateGame f32Math beforeFill1 = some g' ∧
      g'.train.cargo.get 0 = ((afterRefill beforeFill1).bottomBoxes.get 0).color ∧
      (g'.bottomBoxes.get 0).isEmpty = true ∧
      (g'.bottomBoxes.get 0).color = LightGray ∧
      (g'.bottomBoxes.get 0).refillTimer = refillTime ∧
      g'.train.cargoCount = wrap64 (beforeFill1.train.cargoCount + 1) ∧
      (beforeFill1.train.cargoCount < 9223372036854775807 →
        -9223372036854775808 ≤ beforeFill1.train.cargoCount →
        g'.train.cargoCount = beforeFill1.train.cargoCount + 1) ∧
      ∀ j : Fin 3, j ≠ 0 →
        g'.train.cargo.get j = beforeFill1.train.cargo.get j ∧
        g'.bottomBoxes.get j = (afterRefill beforeFill1).bottomBoxes.get j :=
  C4_fill_transfer f32Math beforeFill1 0 rfl rfl (by decide) ⟨rfl, rfl⟩
    (fun j hj => absurd hj (Fin.not_lt_zero j))

/-- C5: for every reachable state in which the train is emptying, if the `updateGame` tick
ends the emptying state, then after the tick `cargoCount = 0`, every cargo slot is
`Blank`, `isMoving` is true and all three top boxes are empty with colour `LightGray`. -/
theorem C5_emptying_ends_clean (rm : Raymath F) (g : Game F) (h : Reachable rm g)
    (he : g.train.isEmptying = true) :
    ∃ g', updateGame rm g = some g' ∧
      (g'.train.isEmptying = false →
        g'.train.cargoCount = 0 ∧ (∀ i : Fin 3, g'.train.cargo.get i = Blank) ∧
        g'.train.isMoving = true ∧ topsCleared g') := by
  have hinv := inv_reachable h
  rcases hinv.phase with hp | hp | hp | hp | hp | hp | hp | hp
  · rw [hp.1.2.2] at he; cases he
  · rw [hp.1.2.2] at he; cases he
  · rw [hp.1.2.2] at he; cases he
  · rw [hp.1.2.2] at he; cases he
  · rw [hp.1.2.2] at he; cases he
  · obtain ⟨⟨hmv, hfl, hem⟩, ht1, ht2, hcount, hcargo, htops, hbot, hidx⟩ := hp
    refine ⟨_, updateGame_stopped rm hmv, ?_⟩
    obtain ⟨⟨t0, t1, t2⟩, ⟨b0, b1, b2⟩, ⟨head, body, cargo, count, path, idx, target, mv, fl, em, timer⟩, rp⟩ := g
    simp only [allTopEmpty, topEmpty, stationDelay] at *
    subst hmv hfl hem hcount hcargo
    obtain ⟨⟨a0, a1, a2⟩, -, -⟩ := htops
    have hw : wrap64 (timer - 1) = timer - 1 := wrap64_small (by omega) (by omega)
    by_cases hx : timer - 1 ≤ 0
    · simp [afterRefill, stationStep, hw, hx, emptyStep, emptyLoop, idx3, emptyPattern, a0,
        black_ne_blank, wrap64_two]
    · simp [afterRefill, stationStep, hw, hx]
  · obtain ⟨⟨hmv, hfl, hem⟩, ht1, ht2, hcount, hcargo, hbot, htops, hidx⟩ := hp
    refine ⟨_, updateGame_stopped rm hmv, ?_⟩
    obtain ⟨⟨t0, t1, t2⟩, ⟨b0, b1, b2⟩, ⟨head, body, cargo, count, path, idx, target, mv, fl, em, timer⟩, rp⟩ := g
    simp only [forall_fin3, Arr3.get_zero, Arr3.get_one, Arr3.get_two, stationDelay] at *
    subst hmv hfl hem hcount hcargo
    simp [topLoaded, topEmpty] at htops
    obtain ⟨⟨l0, -, -⟩, ⟨a0, -, -⟩, -⟩ := htops
    have hw : wrap64 (timer - 1) = timer - 1 := wrap64_small (by omega) (by omega)
    by_cases hx : timer - 1 ≤ 0
    · simp [afterRefill, stationStep, hw, hx, emptyStep, emptyLoop, idx3, emptyPattern, a0, l0,
        black_ne_blank, wrap64_one]
    · simp [afterRefill, stationStep, hw, hx]
  · obtain ⟨⟨hmv, hfl, hem⟩, ht1, ht2, hcount, hcargo, hbot, htops, hidx⟩ := hp
    refine ⟨_, updateGame_stopped rm hmv, ?_⟩
    obtain ⟨⟨t0, t1, t2⟩, ⟨b0, b1, b2⟩, ⟨head, body, cargo, count, path, idx, target, mv, fl, em, timer⟩, rp⟩ := g
    simp only [forall_fin3, Arr3.get_zero, Arr3.get_one, Arr3.get_two, stationDelay] at *
    subst hmv hfl hem hcount hcargo
    simp [topLoaded, topEmpty] at htops
    obtain ⟨⟨l0, -, -⟩, ⟨m0, -, -⟩, ⟨a0, -, -⟩⟩ := htops
    have hw : wrap64 (timer - 1) = timer - 1 := wrap64_small (by omega) (by omega)
    by_cases hx : timer - 1 ≤ 0
    · simp [afterRefill, stationStep, hw, hx, emptyStep, emptyLoop, idx3, emptyPattern, a0, l0,
        m0, black_ne_blank, wrap64_zero, topsCleared, forall_fin3, resetTopBoxes]
    · simp [afterRefill, stationStep, hw, hx]

theorem C5_emptying_ends_clean_witness :
    ∃ g', updateGame f32Math beforeUnload3 = some g' ∧
      (g'.train.isEmptying = false →
        g'.train.cargoCount = 0 ∧ (∀ i : Fin 3, g'.train.cargo.get i = Blank) ∧
        g'.train.isMoving = true ∧ topsCleared g') :=
  C5_emptying_ends_clean f32Math beforeUnload3 reach_beforeUnload3 rfl

theorem updateGame_dwell (rm : Raymath F) {g : Game F} (hm : g.train.isMoving = false)
    (h1 : 1 < g.train.stationTimer) (h2 : g.train.stationTimer < 9223372036854775808) :
    updateGame rm g = some (dwell 1 g) := by
  rw [updateGame_stopped rm hm]
  have hw : wrap64 (g.train.stationTimer - 1) = g.train.stationTimer - 1 :=
    wrap64_small (by omega) (by omega)
  have hx : ¬ g.train.stationTimer - 1 ≤ 0 := by omega
  simp [stationStep, afterRefill, hw, hx, dwell]

theorem dwell_dwell (k : Nat) (g : Game F) : dwell k (dwell 1 g) = dwell (k + 1) g := by
  simp only [dwell, Function.iterate_succ_apply, Function.iterate_zero, id_eq]
  congr 2
  push_cast
  omega

theorem run_dwell (rm : Raymath F) (k : Nat) (g : Game F) (hm : g.train.isMoving = false)
    (h1 : (k : Int) < g.train.stationTimer) (h2 : g.train.stationTimer < 9223372036854775808) :
    run rm k g = some (dwell k g) := by
  induction k generalizing g with
  | zero => simp [run, dwell]
  | succ k ih =>
    have hk : 1 < g.train.stationTimer := by push_cast at h1; omega
    simp only [run, updateGame_dwell rm hm hk h2]
    rw [ih (dwell 1 g) hm (by simp only [dwell]; push_cast at h1 ⊢; omega)
      (by simp only [dwell]; push_cast; omega), dwell_dwell]

theorem refill_iterate (k : Nat) (bs : Arr3 (Box F)) :
    (refillBottomBoxes^[k]) bs = ⟨(refillBox^[k]) bs.e0, (refillBox^[k]) bs.e1, (refillBox^[k]) bs.e2⟩ := by
  induction k generalizing bs with
  | zero => rfl
  | succ k ih => simp only [Function.iterate_succ_apply, ih, refillBottomBoxes_eq]

theorem refillBox_full_iterate (k : Nat) {b : Box F} (h : b.isEmpty = false) :
    (refillBox^[k]) b = b := by
  induction k with
  | zero => rfl
  | succ k ih =>
    rw [Function.iterate_succ_apply]
    have : refillBox b = b := by simp [refillBox, h]
    rw [this, ih]

theorem refillBox_iterate (k : Nat) {b : Box F} (he : b.isEmpty = true)
    (h1 : 1 ≤ b.refillTimer) (h2 : b.refillTimer ≤ refillTime) :
    (refillBox^[k]) b =
      if b.refillTimer ≤ k then refilled b else { b with refillTimer := b.refillTimer - k } := by
  induction k generalizing b with
  | zero =>
    have : ¬ b.refillTimer ≤ ((0 : Nat) : Int) := by push_cast; omega
    rw [if_neg this]
    simp
  | succ k ih =>
    simp only [refillTime] at h2
    rw [Function.iterate_succ_apply]
    have hw : wrap64 (b.refillTimer - 1) = b.refillTimer - 1 :=
      wrap64_small (by omega) (by omega)
    by_cases hz : b.refillTimer - 1 ≤ 0
    · have hb : refillBox b = refilled b := by simp [refillBox, he, hw, hz, refilled]
      have hle : b.refillTimer ≤ ((k + 1 : Nat) : Int) := by push_cast; omega
      rw [hb, refillBox_full_iterate k (by simp [refilled]), if_pos hle]
    · have hb : refillBox b = { b with refillTimer := b.refillTimer - 1 } := by
        simp [refillBox, he, hw, hz]
      rw [hb, ih (by simpa using he) (by simp only; omega) (by simp only [refillTime]; omega)]
      by_cases hk : b.refillTimer ≤ ((k + 1 : Nat) : Int)
      · have : b.refillTimer - 1 ≤ (k : Int) := by push_cast at hk; omega
        rw [if_pos hk]
        simp [this, refilled]
      · have : ¬ b.refillTimer - 1 ≤ (k : Int) := by push_cast at hk; omega
        simp only [hk, this, if_false]
        congr 1
        push_cast
        omega

set_option maxRecDepth 100000 in
theorem run_stalled : run f32Math 299 stalledStart = some stalledLate := by
  decide!

/-- C6 (as stated) fails: `stalledStart` has just entered filling with all three bottom
boxes empty (refill timers 180); its dwell timer first expires on tick 300, and by then
the boxes have refilled, so the expiry tick finds bottom box 0 eligible, transfers one
unit (`cargoCount = 1`) and the train stays filling instead of returning to moving. -/
theorem C6_counterexample :
    enteredFillingAllEmpty stalledStart ∧
    run f32Math 299 stalledStart = some stalledLate ∧
    stalledLate.train.stationTimer = 1 ∧
    eligible (afterRefill stalledLate) 0 ∧
    (updateGame f32Math stalledLate).map
        (fun g => (g.train.cargoCount, g.train.isMoving, g.train.isFilling)) =
      some (1, false, true) := by
  refine ⟨⟨rfl, rfl, rfl, rfl, ?_, ?_⟩, run_stalled, rfl, ⟨rfl, rfl⟩, by decide⟩
  · rw [forall_fin3]; exact ⟨rfl, rfl, rfl⟩
  · rw [forall_fin3]
    exact ⟨⟨rfl, by decide, by decide⟩, ⟨rfl, by decide, by decide⟩, ⟨rfl, by decide, by decide⟩⟩

theorem fillLoop_none (bs : Arr3 (Box F)) (t : Train F)
    (h : ∀ j : Fin 3, ¬ ((bs.get j).isEmpty = false ∧ t.cargo.get j = Blank)) :
    fillLoop bs t idx3 = (bs, t, false) := by
  have a0 : ¬ (bs.e0.isEmpty = false ∧ t.cargo.e0 = Blank) := h 0
  have a1 : ¬ (bs.e1.isEmpty = false ∧ t.cargo.e1 = Blank) := h 1
  have a2 : ¬ (bs.e2.isEmpty = false ∧ t.cargo.e2 = Blank) := h 2
  simp [fillLoop, idx3, a0, a1, a2]

theorem entered_filling_run (rm : Raymath F) (g : Game F) (h : enteredFillingAllEmpty g) :
    (∀ k : Nat, k ≤ 299 → ∃ gk, run rm k g = some gk ∧ gk.train.isFilling = true ∧
        gk.train.isMoving = false ∧ gk.train.cargoCount = 0 ∧
        gk.train.stationTimer = stationDelay - k) ∧
    ∃ g1 g2, run rm 299 g = some g1 ∧ updateGame rm g1 = some g2 ∧
      eligible (afterRefill g1) 0 ∧ g2.train.cargoCount = 1 ∧ g2.train.cargo.get 0 = Black ∧
      g2.train.isFilling = true ∧ g2.train.isMoving = false ∧
      g2.train.stationTimer = stationDelay := by
  obtain ⟨hf, hm, ht, hc, hcg, hb⟩ := h
  simp only [stationDelay] at ht ⊢
  constructor
  · intro k hk
    refine ⟨dwell k g, run_dwell rm k g hm (by rw [ht]; omega) (by rw [ht]; decide), hf, hm, hc, ?_⟩
    simp only [dwell, ht]
  · have hr := run_dwell rm 299 g hm (by rw [ht]; decide) (by rw [ht]; decide)
    refine ⟨dwell 299 g, _, hr, updateGame_stopped rm hm, ?_⟩
    obtain ⟨⟨t0, t1, t2⟩, ⟨b0, b1, b2⟩, ⟨head, body, ⟨c0, c1, c2⟩, count, path, idx, target, mv, fl, em, timer⟩, rp⟩ := g
    simp only [forall_fin3, Arr3.get_zero, Arr3.get_one, Arr3.get_two, refillTime] at *
    subst hf hm ht hc
    obtain ⟨rfl, rfl, rfl⟩ := hcg
    obtain ⟨⟨e0, l0, u0⟩, ⟨e1, l1, u1⟩, ⟨e2, l2, u2⟩⟩ := hb
    have r0 : (refillBox^[299]) b0 = refilled b0 := by
      rw [refillBox_iterate 299 e0 l0 (by simp only [refillTime]; omega), if_pos (by push_cast; omega)]
    have r1 : (refillBox^[299]) b1 = refilled b1 := by
      rw [refillBox_iterate 299 e1 l1 (by simp only [refillTime]; omega), if_pos (by push_cast; omega)]
    have r2 : (refillBox^[299]) b2 = refilled b2 := by
      rw [refillBox_iterate 299 e2 l2 (by simp only [refillTime]; omega), if_pos (by push_cast; omega)]
    simp [dwell, refill_iterate, r0, r1, r2, eligible, afterRefill, refillBottomBoxes_eq,
      refillBox, refilled, stationStep, wrap64_zero, wrap64_one, fillStep, fillLoop, idx3,
      stationDelay]

theorem fill_fallback (rm : Raymath F) (g : Game F) (hm : g.train.isMoving = false)
    (hf : g.train.isFilling = true) (ht : wrap64 (g.train.stationTimer - 1) ≤ 0)
    (hn : ∀ i : Fin 3, ¬ eligible (afterRefill g) i) :
    ∃ g', updateGame rm g = some g' ∧ g'.train.isMoving = true ∧ g'.train.isFilling = false ∧
      g'.train.cargoCount = g.train.cargoCount ∧ g'.train.cargo = g.train.cargo := by
  refine ⟨_, updateGame_stopped rm hm, ?_⟩
  have hf2 : (afterRefill g).train.isFilling = true := hf
  have ht2 : wrap64 ((afterRefill g).train.stationTimer - 1) ≤ 0 := ht
  rw [stationStep_fill hf2 ht2]
  have hp := fillLoop_none (afterRefill g).bottomBoxes
    { (afterRefill g).train with stationTimer := wrap64 ((afterRefill g).train.stationTimer - 1) } hn
  simp only at hp
  simp only [fillStep, hp]
  simp [afterRefill]

/-- C6 (amended): a state that has just entered filling with all three bottom boxes empty
(refill timers in `1 .. refillTime`) stays filling with `cargoCount = 0` for 299 ticks;
on tick 300 the dwell timer expires for the first time, and because every box has
refilled by then bottom box 0 is eligible: one unit is transferred (`cargoCount = 1`,
`cargo[0]` black) and the train stays filling with the timer reset.  The fallback exists
for the expiry tick itself: whenever the dwell timer expires during filling and no bottom
box is eligible after the refill step, the train returns to moving with `cargoCount` and
the cargo unchanged. -/
theorem C6_stall_fallback (rm : Raymath F) :
    (∀ g : Game F, enteredFillingAllEmpty g →
      (∀ k : Nat, k ≤ 299 → ∃ gk, run rm k g = some gk ∧ gk.train.isFilling = true ∧
          gk.train.isMoving = false ∧ gk.train.cargoCount = 0 ∧
          gk.train.stationTimer = stationDelay - k) ∧
      ∃ g1 g2, run rm 299 g = some g1 ∧ updateGame rm g1 = some g2 ∧
        eligible (afterRefill g1) 0 ∧ g2.train.cargoCount = 1 ∧
        g2.train.cargo.get 0 = Black ∧ g2.train.isFilling = true ∧
        g2.train.isMoving = false ∧ g2.train.stationTimer = stationDelay) ∧
    (∀ g : Game F, g.train.isMoving = false → g.train.isFilling = true →
      wrap64 (g.train.stationTimer - 1) ≤ 0 → (∀ i : Fin 3, ¬ eligible (afterRefill g) i) →
      ∃ g', updateGame rm g = some g' ∧ g'.train.isMoving = true ∧
        g'.train.isFilling = false ∧ g'.train.cargoCount = g.train.cargoCount ∧
        g'.train.cargo = g.train.cargo) :=
  ⟨entered_filling_run rm, fill_fallback rm⟩

theorem stalledStart_entered : enteredFillingAllEmpty stalledStart := by
  refine ⟨rfl, rfl, rfl, rfl, ?_, ?_⟩
  · rw [forall_fin3]; exact ⟨rfl, rfl, rfl⟩
  · rw [forall_fin3]
    exact ⟨⟨rfl, by decide, by decide⟩, ⟨rfl, by decide, by decide⟩, ⟨rfl, by decide, by decide⟩⟩

theorem stalledExpiry_none (i : Fin 3) : ¬ eligible (afterRefill stalledExpiry) i := by
  rcases fin3_cases i with rfl | rfl | rfl <;> exact fun h => absurd h.1 (by decide)

theorem C6_stall_fallback_witness :
    (∃ g1 g2, run f32Math 299 stalledStart = some g1 ∧ updateGame f32Math g1 = some g2 ∧
        eligible (afterRefill g1) 0 ∧ g2.train.cargoCount = 1 ∧
        g2.train.cargo.get 0 = Black ∧ g2.train.isFilling = true ∧
        g2.train.isMoving = false ∧ g2.train.stationTimer = stationDelay) ∧
    (∃ g', updateGame f32Math stalledExpiry = some g' ∧ g'.train.isMoving = true ∧
        g'.train.isFilling = false ∧ g'.train.cargoCount = stalledExpiry.train.cargoCount ∧
        g'.train.cargo = stalledExpiry.train.cargo) :=
  ⟨((C6_stall_fallback f32Math).1 stalledStart stalledStart_entered).2,
   (C6_stall_fallback f32Math).2 stalledExpiry rfl rfl (by decide) stalledExpiry_none⟩

set_option maxRecDepth 100000 in
theorem run_to_480 : run f32Math 180 beforeFill1 = some refillDue := by
  decide!

theorem reach_refillDue : Reachable f32Math refillDue :=
  reachable_run 180 reach_beforeFill1 run_to_480

theorem bottomOK_of_inv {rm : Raymath F} {d : Int} {g : Game F} (h : Inv rm d g) (i : Fin 3) :
    bottomOK (g.bottomBoxes.get i) :=
  bottomOK_get h.bottom0 h.bottom1 h.bottom2 i

/-- C7: in every reachable state and for every bottom box, `refillTimer ≠ 0` implies
`isEmpty`; and when the box is empty and its decremented timer is zero or below, the
refill step of the tick sets `isEmpty` to false, the colour to `Black` and the timer
to 0. -/
theorem C7_refill_timer (rm : Raymath F) (g : Game F) (h : Reachable rm g) (i : Fin 3) :
    ((g.bottomBoxes.get i).refillTimer ≠ 0 → (g.bottomBoxes.get i).isEmpty = true) ∧
    ((g.bottomBoxes.get i).isEmpty = true → (g.bottomBoxes.get i).refillTimer - 1 ≤ 0 →
      ((afterRefill g).bottomBoxes.get i).isEmpty = false ∧
      ((afterRefill g).bottomBoxes.get i).color = Black ∧
      ((afterRefill g).bottomBoxes.get i).refillTimer = 0) := by
  have hb := bottomOK_of_inv (inv_reachable h) i
  have hr : (afterRefill g).bottomBoxes.get i = refillBox (g.bottomBoxes.get i) :=
    refill_get g.bottomBoxes i
  rw [hr]
  rcases hb with ⟨e, c, t⟩ | ⟨e, c, t1, t2⟩
  · refine ⟨fun hne => absurd t hne, fun he => ?_⟩
    rw [e] at he; cases he
  · refine ⟨fun _ => e, fun _ hz => ?_⟩
    simp only [refillTime] at t2
    have hw : wrap64 ((g.bottomBoxes.get i).refillTimer - 1) = (g.bottomBoxes.get i).refillTimer - 1 :=
      wrap64_small (by omega) (by omega)
    simp [refillBox, e, hw, hz]

theorem C7_refill_timer_witness :
    ((refillDue.bottomBoxes.get 0).refillTimer ≠ 0 → (refillDue.bottomBoxes.get 0).isEmpty = true) ∧
    ((refillDue.bottomBoxes.get 0).isEmpty = true → (refillDue.bottomBoxes.get 0).refillTimer - 1 ≤ 0 →
      ((afterRefill refillDue).bottomBoxes.get 0).isEmpty = false ∧
      ((afterRefill refillDue).bottomBoxes.get 0).color = Black ∧
      ((afterRefill refillDue).bottomBoxes.get 0).refillTimer = 0) :=
  C7_refill_timer f32Math refillDue reach_refillDue 0

theorem fillLoop_motion (bs : Arr3 (Box F)) (t : Train F) (l : List (Fin 3)) :
    sameMotion t (fillLoop bs t l).2.1 ∧
    (fillLoop bs t l).2.1.isMoving = t.isMoving ∧ (fillLoop bs t l).2.1.isFilling = t.isFilling ∧
    (fillLoop bs t l).2.1.isEmptying = t.isEmptying ∧
    (fillLoop bs t l).2.1.stationTimer = t.stationTimer := by
  induction l with
  | nil => exact ⟨⟨rfl, rfl, rfl, rfl, rfl⟩, rfl, rfl, rfl, rfl⟩
  | cons i rest ih =>
    unfold fillLoop
    split
    · exact ⟨⟨rfl, rfl, rfl, rfl, rfl⟩, rfl, rfl, rfl, rfl⟩
    · exact ih

theorem emptyLoop_motion (tops : Arr3 (Box F)) (t : Train F) (l : List (Fin 3)) :
    sameMotion t (emptyLoop tops t l).2.1 ∧
    (emptyLoop tops t l).2.1.isMoving = t.isMoving ∧
    (emptyLoop tops t l).2.1.isFilling = t.isFilling ∧
    (emptyLoop tops t l).2.1.isEmptying = t.isEmptying ∧
    (emptyLoop tops t l).2.1.stationTimer = t.stationTimer := by
  induction l with
  | nil => exact ⟨⟨rfl, rfl, rfl, rfl, rfl⟩, rfl, rfl, rfl, rfl⟩
  | cons i rest ih =>
    unfold emptyLoop
    split
    · exact ⟨⟨rfl, rfl, rfl, rfl, rfl⟩, rfl, rfl, rfl, rfl⟩
    · exact ih

theorem fillStep_motion (g : Game F) :
    sameMotion g.train (fillStep g).train ∧ (fillStep g).topBoxes = g.topBoxes ∧
    (fillStep g).railPoints = g.railPoints := by
  have h := (fillLoop_motion g.bottomBoxes g.train idx3).1
  unfold fillStep
  split
  rename_i bs t filledOne heq
  rw [heq] at h
  split <;> exact ⟨h, rfl, rfl⟩

theorem emptyStep_motion (g : Game F) :
    sameMotion g.train (emptyStep g).train ∧ (emptyStep g).bottomBoxes = g.bottomBoxes ∧
    (emptyStep g).railPoints = g.railPoints := by
  have h := (emptyLoop_motion g.topBoxes g.train idx3).1
  unfold emptyStep
  split
  rename_i tops t emptiedOne heq
  rw [heq] at h
  split <;> exact ⟨h, rfl, rfl⟩

theorem stationStep_motion (g : Game F) :
    sameMotion g.train (stationStep g).train ∧ (stationStep g).railPoints = g.railPoints := by
  unfold stationStep
  simp only
  split
  · split
    · exact ⟨(fillStep_motion _).1, (fillStep_motion _).2.2⟩
    · split
      · exact ⟨(emptyStep_motion _).1, (emptyStep_motion _).2.2⟩
      · exact ⟨⟨rfl, rfl, rfl, rfl, rfl⟩, rfl⟩
  · exact ⟨⟨rfl, rfl, rfl, rfl, rfl⟩, rfl⟩

theorem stationCheck_spec (t : Train F) (hf : t.isFilling = false) (he : t.isEmptying = false) :
    ((stationCheck t).isFilling = true ↔
      (t.currentWaypointIdx = 1 ∨ t.currentWaypointIdx = 8) ∧ t.cargoCount = 0) ∧
    ((stationCheck t).isEmptying = true ↔
      (t.currentWaypointIdx = 4 ∨ t.currentWaypointIdx = 5) ∧ 0 < t.cargoCount) ∧
    ((stationCheck t).isFilling = true ∨ (stationCheck t).isEmptying = true →
      (stationCheck t).isMoving = false ∧ (stationCheck t).stationTimer = stationDelay) ∧
    (¬ ((stationCheck t).isFilling = true ∨ (stationCheck t).isEmptying = true) →
      (stationCheck t).isMoving = t.isMoving ∧ (stationCheck t).stationTimer = t.stationTimer) ∧
    sameMotion t (stationCheck t) ∧ (stationCheck t).cargo = t.cargo ∧
    (stationCheck t).cargoCount = t.cargoCount := by
  obtain ⟨head, body, cargo, count, path, idx, target, mv, fl, em, timer⟩ := t
  simp only at hf he
  subst hf he
  by_cases h1 : idx = 1 ∨ idx = 8
  · have h2 : ¬ (idx = 4 ∨ idx = 5) := by omega
    by_cases hc : count = 0
    · simp [stationCheck, h1, h2, hc, sameMotion]
    · simp [stationCheck, h1, h2, hc, sameMotion]
  · by_cases h2 : idx = 4 ∨ idx = 5
    · by_cases hc : 0 < count
      · simp [stationCheck, h1, h2, hc, sameMotion]
      · simp [stationCheck, h1, h2, hc, sameMotion]
    · simp [stationCheck, h1, h2, sameMotion]

theorem updateGame_moving (rm : Raymath F) {g : Game F} {t : Train F}
    (hm : g.train.isMoving = true) (ht : moveTrain rm g.train = some t) :
    updateGame rm g = some { afterRefill g with train := t } := by
  have h1 : (afterRefill g).train.isMoving = true := hm
  have h2 : moveTrain rm (afterRefill g).train = some t := ht
  simp [updateGame, h1, h2]

theorem idx_range_of_phase {d : Int} {g : Game F} (h : phaseInv d g) :
    0 ≤ g.train.currentWaypointIdx ∧ g.train.currentWaypointIdx < 9 := by
  rcases h with h | h | h | h | h | h | h | h
  · have := h.2.2.2.2.2.2; omega
  · have := h.2.2.2.2.2; omega
  · have := h.2.2.2.2.2.2.2; omega
  · have := h.2.2.2.2.2.2.2; omega
  · have := h.2.2.2.2.2.2.2; omega
  · have := h.2.2.2.2.2.2.2; omega
  · have := h.2.2.2.2.2.2.2; omega
  · have := h.2.2.2.2.2.2.2; omega

theorem moving_flags_of_phase {d : Int} {g : Game F} (h : phaseInv d g)
    (hm : g.train.isMoving = true) : g.train.isFilling = false ∧ g.train.isEmptying = false := by
  rcases flags_of_phase h with ⟨-, a, b⟩ | ⟨a, -, -⟩ | ⟨a, -, -⟩
  · exact ⟨a, b⟩
  · rw [a] at hm; cases hm
  · rw [a] at hm; cases hm

/-- C8: in every reachable state `0 ≤ currentWaypointIdx < len(path) = 9`, and the tick
changes the index only when the train is moving and the head is within `trainSpeed` of
`targetPos`: on such a tick the new index is `(old + 1) mod 9` (different from the old
one), `headPos` becomes the old `targetPos` and `targetPos` becomes `path[new index]`; on
every other tick the index and `targetPos` are unchanged. -/
theorem C8_waypoint_index (rm : Raymath F) (g : Game F) (h : Reachable rm g) :
    0 ≤ g.train.currentWaypointIdx ∧ g.train.currentWaypointIdx < g.train.path.length ∧
    g.train.path.length = 9 ∧
    ∃ g', updateGame rm g = some g' ∧
      (g.train.isMoving = true ∧ legOpen rm g.train = false →
        g'.train.currentWaypointIdx = (g.train.currentWaypointIdx + 1) % 9 ∧
        g'.train.currentWaypointIdx ≠ g.train.currentWaypointIdx ∧
        g'.train.headPos = g.train.targetPos ∧
        g'.train.path[g'.train.currentWaypointIdx.toNat]? = some g'.train.targetPos) ∧
      (¬ (g.train.isMoving = true ∧ legOpen rm g.train = false) →
        g'.train.currentWaypointIdx = g.train.currentWaypointIdx ∧
        g'.train.targetPos = g.train.targetPos) := by
  have hinv := inv_reachable h
  have hr := idx_range_of_phase hinv.phase
  have hlen : g.train.path.length = 9 := by rw [hinv.path_eq]; rfl
  refine ⟨hr.1, by rw [hlen]; exact_mod_cast hr.2, hlen, ?_⟩
  cases hm : g.train.isMoving
  · refine ⟨_, updateGame_stopped rm hm, fun hc => absurd hc.1 (by simp), fun _ => ?_⟩
    have hs := (stationStep_motion (afterRefill g)).1
    exact ⟨hs.2.2.2.1, hs.2.2.2.2⟩
  · cases ho : legOpen rm g.train
    · obtain ⟨p, hp1, hp2⟩ := moveTrain_closed ho hinv.path_eq hr.1 hr.2
      have hfl := moving_flags_of_phase hinv.phase hm
      have hsp := stationCheck_spec
        { g.train with headPos := g.train.targetPos,
                       currentWaypointIdx := (g.train.currentWaypointIdx + 1) % 9,
                       targetPos := p } hfl.1 hfl.2
      obtain ⟨hh, -, hpath, hidx, htgt⟩ := hsp.2.2.2.2.1
      refine ⟨_, updateGame_moving rm hm hp2, fun _ => ?_, fun hc => absurd ⟨rfl, rfl⟩ hc⟩
      refine ⟨hidx, ?_, hh, ?_⟩
      · show (arrive g.train p).currentWaypointIdx ≠ _
        unfold arrive
        rw [hidx]
        simp only
        omega
      · show (arrive g.train p).path[(arrive g.train p).currentWaypointIdx.toNat]? =
          some (arrive g.train p).targetPos
        unfold arrive
        rw [hidx, hpath, htgt]
        exact hp1
    · refine ⟨_, updateGame_moving rm hm (moveTrain_open ho), fun hc => ?_, fun _ => ⟨rfl, rfl⟩⟩
      have := hc.2
      simp at this

theorem C8_waypoint_index_witness :
    0 ≤ atTick947.train.currentWaypointIdx ∧
    atTick947.train.currentWaypointIdx < atTick947.train.path.length ∧
    atTick947.train.path.length = 9 ∧
    ∃ g', updateGame f32Math atTick947 = some g' ∧
      (atTick947.train.isMoving = true ∧ legOpen f32Math atTick947.train = false →
        g'.train.currentWaypointIdx = (atTick947.train.currentWaypointIdx + 1) % 9 ∧
        g'.train.currentWaypointIdx ≠ atTick947.train.currentWaypointIdx ∧
        g'.train.headPos = atTick947.train.targetPos ∧
        g'.train.path[g'.train.currentWaypointIdx.toNat]? = some g'.train.targetPos) ∧
      (¬ (atTick947.train.isMoving = true ∧ legOpen f32Math atTick947.train = false) →
        g'.train.currentWaypointIdx = atTick947.train.currentWaypointIdx ∧
        g'.train.targetPos = atTick947.train.targetPos) :=
  C8_waypoint_index f32Math atTick947 reach_947

/-- C9: for every reachable state in which the train is moving, after one tick the train
is filling exactly when the tick completed a leg, the new index is 1 or 8 and
`cargoCount = 0`; it is emptying exactly when the tick completed a leg, the new index is
4 or 5 and `cargoCount > 0`; in both cases `isMoving` is false and
`stationTimer = stationDelay`; otherwise the train is still moving with `stationTimer`
unchanged. -/
theorem C9_station_trigger (rm : Raymath F) (g : Game F) (h : Reachable rm g)
    (hm : g.train.isMoving = true) :
    ∃ g', updateGame rm g = some g' ∧
      (g'.train.isFilling = true ↔
        legOpen rm g.train = false ∧
        (g'.train.currentWaypointIdx = 1 ∨ g'.train.currentWaypointIdx = 8) ∧
        g.train.cargoCount = 0) ∧
      (g'.train.isEmptying = true ↔
        legOpen rm g.train = false ∧
        (g'.train.currentWaypointIdx = 4 ∨ g'.train.currentWaypointIdx = 5) ∧
        0 < g.train.cargoCount) ∧
      (g'.train.isFilling = true ∨ g'.train.isEmptying = true →
        g'.train.isMoving = false ∧ g'.train.stationTimer = stationDelay) ∧
      (¬ (g'.train.isFilling = true ∨ g'.train.isEmptying = true) →
        g'.train.isMoving = true ∧ g'.train.stationTimer = g.train.stationTimer) := by
  have hinv := inv_reachable h
  have hr := idx_range_of_phase hinv.phase
  have hfl := moving_flags_of_phase hinv.phase hm
  cases ho : legOpen rm g.train
  · obtain ⟨p, hp1, hp2⟩ := moveTrain_closed ho hinv.path_eq hr.1 hr.2
    have hsp := stationCheck_spec
      { g.train with headPos := g.train.targetPos,
                     currentWaypointIdx := (g.train.currentWaypointIdx + 1) % 9,
                     targetPos := p } hfl.1 hfl.2
    obtain ⟨s1, s2, s3, s4, ⟨-, -, -, hidx, -⟩, -, -⟩ := hsp
    refine ⟨_, updateGame_moving rm hm hp2, ?_, ?_, s3, ?_⟩
    · show (arrive g.train p).isFilling = true ↔ _
      unfold arrive
      rw [s1, hidx]
      simp
    · show (arrive g.train p).isEmptying = true ↔ _
      unfold arrive
      rw [s2, hidx]
      simp
    · intro hn
      have := s4 hn
      exact ⟨this.1.trans hm, this.2⟩
  · refine ⟨_, updateGame_moving rm hm (moveTrain_open ho), ?_, ?_, ?_, ?_⟩
    · simp [hfl.1]
    · simp [hfl.2]
    · intro hc
      simp [hfl.1, hfl.2] at hc
    · intro _
      exact ⟨hm, rfl⟩

theorem C9_station_trigger_witness :
    ∃ g', updateGame f32Math (initGame f32Math) = some g' ∧
      (g'.train.isFilling = true ↔
        legOpen f32Math (initGame f32Math).train = false ∧
        (g'.train.currentWaypointIdx = 1 ∨ g'.train.currentWaypointIdx = 8) ∧
        (initGame f32Math).train.cargoCount = 0) ∧
      (g'.train.isEmptying = true ↔
        legOpen f32Math (initGame f32Math).train = false ∧
        (g'.train.currentWaypointIdx = 4 ∨ g'.train.currentWaypointIdx = 5) ∧
        0 < (initGame f32Math).train.cargoCount) ∧
      (g'.train.isFilling = true ∨ g'.train.isEmptying = true →
        g'.train.isMoving = false ∧ g'.train.stationTimer = stationDelay) ∧
      (¬ (g'.train.isFilling = true ∨ g'.train.isEmptying = true) →
        g'.train.isMoving = true ∧ g'.train.stationTimer = (initGame f32Math).train.stationTimer) :=
  C9_station_trigger f32Math (initGame f32Math) Reachable.init rfl

set_option maxRecDepth 100000 in
/-- C10 fails on the code: after tick 1082 of the concrete game the train is emptying
while its head is at waypoint 3, the top-left corner `(250, 105)`, not at the top-centre
stay point `path[4] = path[5] = (400, 105)`. -/
theorem C10_stop_away_from_stay_point :
    Reachable f32Math arrivedTop ∧ arrivedTop.train.isEmptying = true ∧
    arrivedTop.train.currentWaypointIdx = 4 ∧
    arrivedTop.train.headPos = ⟨f32OfInt 250, f32OfInt 105⟩ ∧
    arrivedTop.train.path[3]? = some arrivedTop.train.headPos ∧
    arrivedTop.train.path[4]? = some ⟨f32OfInt 400, f32OfInt 105⟩ ∧
    arrivedTop.train.path[5]? = some ⟨f32OfInt 400, f32OfInt 105⟩ ∧
    arrivedTop.train.headPos ≠ ⟨f32OfInt 400, f32OfInt 105⟩ :=
  ⟨reach_arrivedTop, rfl, rfl, rfl, rfl, rfl, rfl, by decide!⟩

/-- C11: the `initGame` state has `currentWaypointIdx = 0`, `headPos = path[0]`,
`targetPos = path[1]`, `cargoCount = 0` and `isMoving = true`; when the head counts as
being at waypoint 1 already (the first leg is not open), one tick gives
`currentWaypointIdx = 1`, `isFilling`, not `isMoving`, not `isEmptying`,
`stationTimer = stationDelay` and `cargoCount` still 0. -/
theorem C11_first_tick (rm : Raymath F) (hclose : legOpen rm (initGame rm).train = false) :
    (initGame rm).train.currentWaypointIdx = 0 ∧
    (initGame rm).train.path[0]? = some (initGame rm).train.headPos ∧
    (initGame rm).train.path[1]? = some (initGame rm).train.targetPos ∧
    (initGame rm).train.cargoCount = 0 ∧ (initGame rm).train.isMoving = true ∧
    ∃ g1, updateGame rm (initGame rm) = some g1 ∧
      g1.train.currentWaypointIdx = 1 ∧ g1.train.isFilling = true ∧
      g1.train.isMoving = false ∧ g1.train.isEmptying = false ∧
      g1.train.stationTimer = stationDelay ∧ g1.train.cargoCount = 0 := by
  refine ⟨rfl, rfl, rfl, rfl, rfl, ?_⟩
  have h0 : (0 : Int) ≤ (initGame rm).train.currentWaypointIdx := le_refl _
  have h9 : (initGame rm).train.currentWaypointIdx < 9 := by
    show (0 : Int) < 9
    decide
  obtain ⟨p, hp1, hp2⟩ := moveTrain_closed hclose rfl h0 h9
  refine ⟨_, updateGame_moving rm rfl hp2, ?_⟩
  simp [arrive, stationCheck, initGame, stationDelay]

set_option maxRecDepth 100000 in
theorem C11_first_tick_witness :
    (initGame f32Math).train.currentWaypointIdx = 0 ∧
    (initGame f32Math).train.path[0]? = some (initGame f32Math).train.headPos ∧
    (initGame f32Math).train.path[1]? = some (initGame f32Math).train.targetPos ∧
    (initGame f32Math).train.cargoCount = 0 ∧ (initGame f32Math).train.isMoving = true ∧
    ∃ g1, updateGame f32Math (initGame f32Math) = some g1 ∧
      g1.train.currentWaypointIdx = 1 ∧ g1.train.isFilling = true ∧
      g1.train.isMoving = false ∧ g1.train.isEmptying = false ∧
      g1.train.stationTimer = stationDelay ∧ g1.train.cargoCount = 0 :=
  C11_first_tick f32Math (by decide!)

theorem exists_lowest {p : Fin 3 → Prop} (h : ∃ i, p i) : ∃ i, p i ∧ ∀ j : Fin 3, j < i → ¬ p j := by
  by_cases h0 : p 0
  · exact ⟨0, h0, fun j hj => absurd hj (Fin.not_lt_zero j)⟩
  · by_cases h1 : p 1
    · refine ⟨1, h1, fun j hj => ?_⟩
      rw [lt_one_fin3 hj]; exact h0
    · obtain ⟨i, hi⟩ := h
      rcases fin3_cases i with rfl | rfl | rfl
      · exact absurd hi h0
      · exact absurd hi h1
      · refine ⟨2, hi, fun j hj => ?_⟩
        rcases lt_two_fin3 hj with rfl | rfl
        · exact h0
        · exact h1

theorem last_fill_leaves (rm : Raymath F) (g : Game F) (hm : g.train.isMoving = false)
    (hf : g.train.isFilling = true) (hc : g.train.cargoCount = 2)
    (ht : wrap64 (g.train.stationTimer - 1) ≤ 0) (he : ∃ i, eligible (afterRefill g) i) :
    ∃ g', updateGame rm g = some g' ∧ g'.train.cargoCount = 3 ∧
      g'.train.isFilling = false ∧ g'.train.isMoving = true ∧
      g'.train.stationTimer = wrap64 (g.train.stationTimer - 1) ∧
      g'.train.stationTimer ≠ stationDelay := by
  obtain ⟨i, hi, hlow⟩ := exists_lowest he
  refine ⟨_, updateGame_stopped rm hm, ?_⟩
  have hf2 : (afterRefill g).train.isFilling = true := hf
  have ht2 : wrap64 ((afterRefill g).train.stationTimer - 1) ≤ 0 := ht
  rw [stationStep_fill hf2 ht2]
  have hp := fillLoop_pick (afterRefill g).bottomBoxes
    { (afterRefill g).train with stationTimer := wrap64 ((afterRefill g).train.stationTimer - 1) }
    i hi hlow
  simp only at hp
  simp only [fillStep, hp]
  have hne : wrap64 (g.train.stationTimer - 1) ≠ stationDelay := by
    simp only [stationDelay]; omega
  simp [hc, wrap64_three, afterRefill, hne]

set_option maxRecDepth 100000 in
theorem run_to_1 : run f32Math 1 (initGame f32Math) = some afterTick1 := by
  decide!

set_option maxRecDepth 100000 in
theorem run_to_301 : run f32Math 1 beforeFill1 = some afterFill1 := by
  decide!

set_option maxRecDepth 100000 in
theorem run_to_601 : run f32Math 1 beforeFill2 = some afterFill2 := by
  decide!

theorem run_chain (rm : Raymath F) {m n : Nat} {g g1 g2 : Game F}
    (h1 : run rm m g = some g1) (h2 : run rm n g1 = some g2) : run rm (m + n) g = some g2 := by
  rw [run_add, h1]; exact h2

theorem filling_dwell (rm : Raymath F) {g : Game F} (hm : g.train.isMoving = false)
    (hf : g.train.isFilling = true) (ht : g.train.stationTimer = stationDelay) (j : Nat)
    (hj : j ≤ 299) : ∃ gj, run rm j g = some gj ∧ gj.train.isFilling = true := by
  simp only [stationDelay] at ht
  exact ⟨dwell j g, run_dwell rm j g hm (by rw [ht]; omega) (by rw [ht]; decide), hf⟩

theorem first_stop_filling (k : Nat) (h1 : 1 ≤ k) (h2 : k ≤ 900) :
    ∃ g, run f32Math k (initGame f32Math) = some g ∧ g.train.isFilling = true := by
  by_cases ha : k ≤ 300
  · obtain ⟨gj, hj, hf⟩ := filling_dwell f32Math (g := afterTick1) rfl rfl rfl (k - 1) (by omega)
    refine ⟨gj, ?_, hf⟩
    have := run_chain f32Math run_to_1 hj
    rwa [show 1 + (k - 1) = k by omega] at this
  · by_cases hb : k ≤ 600
    · obtain ⟨gj, hj, hf⟩ := filling_dwell f32Math (g := afterFill1) rfl rfl rfl (k - 301) (by omega)
      refine ⟨gj, ?_, hf⟩
      have := run_chain f32Math (run_chain f32Math run_to_300 run_to_301) hj
      rwa [show 300 + 1 + (k - 301) = k by omega] at this
    · obtain ⟨gj, hj, hf⟩ := filling_dwell f32Math (g := afterFill2) rfl rfl rfl (k - 601) (by omega)
      refine ⟨gj, ?_, hf⟩
      have := run_chain f32Math
        (run_chain f32Math (run_chain f32Math run_to_300 run_to_600) run_to_601) hj
      rwa [show 300 + 300 + 1 + (k - 601) = k by omega] at this

theorem run_901 : run f32Math 901 (initGame f32Math) = some leavingBottom := by
  have h := run_chain f32Math
    (run_chain f32Math (run_chain f32Math run_to_300 run_to_600) run_to_900) run_to_901
  rwa [show 300 + 300 + 300 + 1 = 901 from rfl] at h

/-- C12: for every state in which the train is filling with `cargoCount = 2`, a tick that
performs a fill transfer (the dwell timer expires and some bottom box is eligible after
the refill step) leaves `cargoCount = 3`, `isFilling = false` and `isMoving = true` on
that same tick, with `stationTimer` only decremented, not reset to `stationDelay`.  In
the concrete game the train is filling after each of the ticks 1 to 900, and after tick
901 it is moving with `cargoCount = 3` and all three cargo slots black. -/
theorem C12_third_fill_leaves (rm : Raymath F) :
    (∀ g : Game F, g.train.isMoving = false → g.train.isFilling = true →
      g.train.cargoCount = 2 → wrap64 (g.train.stationTimer - 1) ≤ 0 →
      (∃ i, eligible (afterRefill g) i) →
      ∃ g', updateGame rm g = some g' ∧ g'.train.cargoCount = 3 ∧
        g'.train.isFilling = false ∧ g'.train.isMoving = true ∧
        g'.train.stationTimer = wrap64 (g.train.stationTimer - 1) ∧
        g'.train.stationTimer ≠ stationDelay) ∧
    (∀ k : Nat, 1 ≤ k → k ≤ 900 →
      ∃ g, run f32Math k (initGame f32Math) = some g ∧ g.train.isFilling = true) ∧
    (∃ g, run f32Math 901 (initGame f32Math) = some g ∧ g.train.isMoving = true ∧
      g.train.cargoCount = 3 ∧ g.train.cargo = ⟨Black, Black, Black⟩) :=
  ⟨last_fill_leaves rm, first_stop_filling, ⟨leavingBottom, run_901, rfl, rfl, rfl⟩⟩

theorem C12_third_fill_leaves_witness :
    ∃ g', updateGame f32Math beforeFill3 = some g' ∧ g'.train.cargoCount = 3 ∧
      g'.train.isFilling = false ∧ g'.train.isMoving = true ∧
      g'.train.stationTimer = wrap64 (beforeFill3.train.stationTimer - 1) ∧
      g'.train.stationTimer ≠ stationDelay :=
  (C12_third_fill_leaves f32Math).1 beforeFill3 rfl rfl rfl (by decide) ⟨2, rfl, rfl⟩

/-- C15: from every reachable state a tick does not panic (`updateGame` returns a state):
`len(path)` is and stays 9, `len(bodySegments)` is and stays 3, `currentWaypointIdx` is a
valid index of `path` before and after the tick and `path[currentWaypointIdx]` is what
the tick reads, and every index of the loops over the three-element arrays is within
`0 .. 2`. -/
theorem C15_no_panic (rm : Raymath F) (g : Game F) (h : Reachable rm g) :
    g.train.path.length = 9 ∧ g.train.bodySegments.length = 3 ∧
    0 ≤ g.train.currentWaypointIdx ∧ g.train.currentWaypointIdx < 9 ∧
    (∀ i ∈ idx3, i.val ≤ 2) ∧
    ∃ g', updateGame rm g = some g' ∧
      g'.train.path.length = 9 ∧ g'.train.bodySegments.length = 3 ∧
      0 ≤ g'.train.currentWaypointIdx ∧ g'.train.currentWaypointIdx < 9 ∧
      g'.train.path[g'.train.currentWaypointIdx.toNat]? = some g'.train.targetPos := by
  have hinv := inv_reachable h
  have hr := idx_range_of_phase hinv.phase
  obtain ⟨g', hstep, hinv'⟩ := inv_step hinv
  have hr' := idx_range_of_phase hinv'.phase
  refine ⟨by rw [hinv.path_eq]; rfl, hinv.body_len, hr.1, hr.2, by decide, g', hstep,
    by rw [hinv'.path_eq]; rfl, hinv'.body_len, hr'.1, hr'.2, hinv'.target_eq⟩

theorem C15_no_panic_witness :
    atTick992.train.path.length = 9 ∧ atTick992.train.bodySegments.length = 3 ∧
    0 ≤ atTick992.train.currentWaypointIdx ∧ atTick992.train.currentWaypointIdx < 9 ∧
    (∀ i ∈ idx3, i.val ≤ 2) ∧
    ∃ g', updateGame f32Math atTick992 = some g' ∧
      g'.train.path.length = 9 ∧ g'.train.bodySegments.length = 3 ∧
      0 ≤ g'.train.currentWaypointIdx ∧ g'.train.currentWaypointIdx < 9 ∧
      g'.train.path[g'.train.currentWaypointIdx.toNat]? = some g'.train.targetPos :=
  C15_no_panic f32Math atTick992 reach_992

theorem filling_cases {d : Int} {g : Game F} (h : phaseInv d g) (hf : g.train.isFilling = true) :
    fillingWith 0 g ∨ fillingWith 1 g ∨ fillingWith 2 g := by
  rcases h with hp | hp | hp | hp | hp | hp | hp | hp
  · rw [hp.1.2.1] at hf; cases hf
  · rw [hp.1.2.1] at hf; cases hf
  · exact Or.inl hp
  · exact Or.inr (Or.inl hp)
  · exact Or.inr (Or.inr hp)
  · rw [hp.1.2.1] at hf; cases hf
  · rw [hp.1.2.1] at hf; cases hf
  · rw [hp.1.2.1] at hf; cases hf

theorem filling_expiry {rm : Raymath F} {g : Game F} {c : Nat} (hc : c < 3)
    (hinv : Inv rm 0 g) (hp : fillingWith c g) :
    ∃ g', updateGame rm g = some g' ∧
      (g'.train.isFilling = false →
        g'.train.cargoCount = 3 ∧ ∀ i : Fin 3, g'.train.cargo.get i ≠ Blank) ∧
      (g.train.stationTimer - 1 ≤ 0 →
        filledOne g = true ∧
        ∃ i, lowestBlank g i ∧ eligible (afterRefill g) i ∧
          ∀ j : Fin 3, j < i → ¬ eligible (afterRefill g) j) := by
  have hp1 := fillingWith_refill hp
  obtain ⟨⟨hmv, hfl, hem⟩, ht1, ht2, hcount, hcargo, htops, hbot, hidx⟩ := hp
  obtain ⟨-, -, -, -, -, -, hbot1, -⟩ := hp1
  refine ⟨_, updateGame_stopped rm hmv, ?_⟩
  have e1 : ∀ i : Fin 3, ((afterRefill g).bottomBoxes.get i) = refillBox (g.bottomBoxes.get i) :=
    fun i => refill_get g.bottomBoxes i
  unfold filledOne eligible lowestBlank
  obtain ⟨⟨t0, t1, t2⟩, ⟨b0, b1, b2⟩, ⟨head, body, cargo, count, path, idx, target, mv, fl, em, timer⟩, rp⟩ := g
  simp only [stationDelay, forall_fin3, Arr3.get_zero, Arr3.get_one, Arr3.get_two, afterRefill,
    refillBottomBoxes_eq] at *
  subst hmv hfl hem hcount hcargo
  have hw : wrap64 (timer - 1) = timer - 1 := wrap64_small (by omega) (by omega)
  generalize refillBox b0 = r0 at *
  generalize refillBox b1 = r1 at *
  generalize refillBox b2 = r2 at *
  by_cases hx : timer - 1 ≤ 0
  · interval_cases c
    · simp [boxFull] at hbot1
      obtain ⟨⟨x0, x1, x2⟩, -, -⟩ := hbot1
      refine ⟨?_, fun _ => ⟨?_, 0, ?_⟩⟩
      · simp [stationStep, hw, hx, fillStep, fillLoop, idx3, fillPattern, x0, wrap64_one]
      · simp [fillLoop, idx3, fillPattern, x0]
      · simp [fillPattern, x0]
    · simp [boxFull] at hbot1
      obtain ⟨⟨x0, x1, x2⟩, -⟩ := hbot1
      refine ⟨?_, fun _ => ⟨?_, 1, ?_⟩⟩
      · simp [stationStep, hw, hx, fillStep, fillLoop, idx3, fillPattern, x0, wrap64_two,
          black_ne_blank]
      · simp [fillLoop, idx3, fillPattern, x0, black_ne_blank]
      · simp [fillPattern, x0, black_ne_blank]
    · simp [boxFull] at hbot1
      obtain ⟨x0, x1, x2⟩ := hbot1
      refine ⟨?_, fun _ => ⟨?_, 2, ?_⟩⟩
      · simp [stationStep, hw, hx, fillStep, fillLoop, idx3, fillPattern, x0, x1, wrap64_three,
          black_ne_blank, forall_fin3]
      · simp [fillLoop, idx3, fillPattern, x0, black_ne_blank]
      · simp [fillPattern, x0, black_ne_blank]
  · refine ⟨?_, fun hh => absurd hh hx⟩
    simp [stationStep, hw, hx]

/-- C16: in every reachable state in which the train is filling, a tick that ends the
filling state leaves `cargoCount = 3` with all three cargo slots non-`Blank`; and whenever
the dwell timer expires during filling, `filledOne` becomes true: the bottom box matching
the lowest `Blank` cargo slot is non-empty after the refill step and is the box the loop
picks, so the fallback for "no eligible box" is never taken. -/
theorem C16_leaves_fully_loaded (rm : Raymath F) (g : Game F) (h : Reachable rm g)
    (hf : g.train.isFilling = true) :
    ∃ g', updateGame rm g = some g' ∧
      (g'.train.isFilling = false →
        g'.train.cargoCount = 3 ∧ ∀ i : Fin 3, g'.train.cargo.get i ≠ Blank) ∧
      (g.train.stationTimer - 1 ≤ 0 →
        filledOne g = true ∧
        ∃ i, lowestBlank g i ∧ eligible (afterRefill g) i ∧
          ∀ j : Fin 3, j < i → ¬ eligible (afterRefill g) j) := by
  have hinv := inv_reachable h
  rcases filling_cases hinv.phase hf with hp | hp | hp
  · exact filling_expiry (by decide) hinv hp
  · exact filling_expiry (by decide) hinv hp
  · exact filling_expiry (by decide) hinv hp

theorem C16_leaves_fully_loaded_witness :
    ∃ g', updateGame f32Math beforeFill3 = some g' ∧
      (g'.train.isFilling = false →
        g'.train.cargoCount = 3 ∧ ∀ i : Fin 3, g'.train.cargo.get i ≠ Blank) ∧
      (beforeFill3.train.stationTimer - 1 ≤ 0 →
        filledOne beforeFill3 = true ∧
        ∃ i, lowestBlank beforeFill3 i ∧ eligible (afterRefill beforeFill3) i ∧
          ∀ j : Fin 3, j < i → ¬ eligible (afterRefill beforeFill3) j) :=
  C16_leaves_fully_loaded f32Math beforeFill3 reach_beforeFill3 rfl

theorem top_of_phase {d : Int} {g : Game F} (h : phaseInv d g) (i : Fin 3) :
    topEmpty (g.topBoxes.get i) ∨ topLoaded (g.topBoxes.get i) := by
  have key : allTopEmpty g → topEmpty (g.topBoxes.get i) := by
    intro ht
    rcases fin3_cases i with rfl | rfl | rfl
    · exact ht.1
    · exact ht.2.1
    · exact ht.2.2
  rcases h with hp | hp | hp | hp | hp | hp | hp | hp
  · exact Or.inl (key hp.2.2.2.2.1)
  · exact Or.inl (key hp.2.2.2.2.1)
  · exact Or.inl (key hp.2.2.2.2.2.1)
  · exact Or.inl (key hp.2.2.2.2.2.1)
  · exact Or.inl (key hp.2.2.2.2.2.1)
  · exact Or.inl (key hp.2.2.2.2.2.1)
  · have := hp.2.2.2.2.2.2.1 i
    by_cases hlt : i.val + 2 < 3
    · exact Or.inr (this.1 hlt)
    · exact Or.inl (this.2 (by omega))
  · have := hp.2.2.2.2.2.2.1 i
    by_cases hlt : i.val + 1 < 3
    · exact Or.inr (this.1 hlt)
    · exact Or.inl (this.2 (by omega))

theorem timer_of_phase {d : Int} {g : Game F} (h : phaseInv d g) :
    (g.train.isMoving = true → g.train.stationTimer = 0) ∧
    (g.train.isFilling = true ∨ g.train.isEmptying = true →
      1 ≤ g.train.stationTimer ∧ g.train.stationTimer ≤ stationDelay) := by
  rcases h with hp | hp | hp | hp | hp | hp | hp | hp
  · obtain ⟨⟨a, b, c⟩, ht, -⟩ := hp
    exact ⟨fun _ => ht, fun hc => by simp [b, c] at hc⟩
  · obtain ⟨⟨a, b, c⟩, ht, -⟩ := hp
    exact ⟨fun _ => ht, fun hc => by simp [b, c] at hc⟩
  all_goals
    obtain ⟨⟨a, b, c⟩, ht1, ht2, -⟩ := hp
    exact ⟨fun hc => by simp [a] at hc, fun _ => ⟨ht1, ht2⟩⟩

theorem cargo_of_phase {d : Int} {g : Game F} (h : phaseInv d g) (i : Fin 3) :
    g.train.cargo.get i = Blank ∨ g.train.cargo.get i = Black := by
  rcases h with hp | hp | hp | hp | hp | hp | hp | hp
  · rw [hp.2.2.2.1]; rcases fin3_cases i with rfl | rfl | rfl <;> simp [fillPattern]
  · rw [hp.2.2.2.1]; rcases fin3_cases i with rfl | rfl | rfl <;> simp [fillPattern]
  · rw [hp.2.2.2.2.1]; rcases fin3_cases i with rfl | rfl | rfl <;> simp [fillPattern]
  · rw [hp.2.2.2.2.1]; rcases fin3_cases i with rfl | rfl | rfl <;> simp [fillPattern]
  · rw [hp.2.2.2.2.1]; rcases fin3_cases i with rfl | rfl | rfl <;> simp [fillPattern]
  · rw [hp.2.2.2.2.1]; rcases fin3_cases i with rfl | rfl | rfl <;> simp [emptyPattern]
  · rw [hp.2.2.2.2.1]; rcases fin3_cases i with rfl | rfl | rfl <;> simp [emptyPattern]
  · rw [hp.2.2.2.2.1]; rcases fin3_cases i with rfl | rfl | rfl <;> simp [emptyPattern]

/-- C17: in every reachable state `0 ≤ stationTimer ≤ stationDelay` and every bottom box
has `0 ≤ refillTimer ≤ refillTime`; `stationTimer` is 0 whenever the train is moving and
at least 1 whenever it is filling or emptying; every empty bottom box has
`refillTimer ≥ 1`; and every top box has `refillTimer = 0`. -/
theorem C17_timers_in_range (rm : Raymath F) (g : Game F) (h : Reachable rm g) :
    0 ≤ g.train.stationTimer ∧ g.train.stationTimer ≤ stationDelay ∧
    (∀ i : Fin 3, 0 ≤ (g.bottomBoxes.get i).refillTimer ∧
      (g.bottomBoxes.get i).refillTimer ≤ refillTime) ∧
    (g.train.isMoving = true → g.train.stationTimer = 0) ∧
    (g.train.isFilling = true ∨ g.train.isEmptying = true → 1 ≤ g.train.stationTimer) ∧
    (∀ i : Fin 3, (g.bottomBoxes.get i).isEmpty = true → 1 ≤ (g.bottomBoxes.get i).refillTimer) ∧
    (∀ i : Fin 3, (g.topBoxes.get i).refillTimer = 0) := by
  have hinv := inv_reachable h
  have ht := timer_of_phase hinv.phase
  have hb := fun i => bottomOK_of_inv hinv i
  have hrange : 0 ≤ g.train.stationTimer ∧ g.train.stationTimer ≤ stationDelay := by
    rcases flags_of_phase hinv.phase with ⟨a, -, -⟩ | ⟨-, a, -⟩ | ⟨-, -, a⟩
    · rw [ht.1 a]; decide
    · have := ht.2 (Or.inl a); exact ⟨by omega, this.2⟩
    · have := ht.2 (Or.inr a); exact ⟨by omega, this.2⟩
  refine ⟨hrange.1, hrange.2, fun i => ?_, ht.1, fun hc => (ht.2 hc).1, fun i he => ?_, fun i => ?_⟩
  · rcases hb i with ⟨-, -, t⟩ | ⟨-, -, t1, t2⟩
    · rw [t]; decide
    · exact ⟨by omega, t2⟩
  · rcases hb i with ⟨e, -, -⟩ | ⟨-, -, t1, -⟩
    · rw [e] at he; cases he
    · exact t1
  · rcases top_of_phase hinv.phase i with ⟨-, -, t⟩ | ⟨-, -, t⟩ <;> exact t

theorem C17_timers_in_range_witness :
    0 ≤ atTick1037.train.stationTimer ∧ atTick1037.train.stationTimer ≤ stationDelay ∧
    (∀ i : Fin 3, 0 ≤ (atTick1037.bottomBoxes.get i).refillTimer ∧
      (atTick1037.bottomBoxes.get i).refillTimer ≤ refillTime) ∧
    (atTick1037.train.isMoving = true → atTick1037.train.stationTimer = 0) ∧
    (atTick1037.train.isFilling = true ∨ atTick1037.train.isEmptying = true →
      1 ≤ atTick1037.train.stationTimer) ∧
    (∀ i : Fin 3, (atTick1037.bottomBoxes.get i).isEmpty = true →
      1 ≤ (atTick1037.bottomBoxes.get i).refillTimer) ∧
    (∀ i : Fin 3, (atTick1037.topBoxes.get i).refillTimer = 0) :=
  C17_timers_in_range f32Math atTick1037 reach_1037

/-- C19: in every reachable state each bottom box has `isEmpty = false` exactly when its
colour is `Black` and `isEmpty = true` exactly when its colour is `LightGray`; each empty
top box is `LightGray` and each non-empty top box is `Black`; and every cargo slot is
`Blank` or `Black`. -/
theorem C19_colour_agrees_with_flags (rm : Raymath F) (g : Game F) (h : Reachable rm g) :
    (∀ i : Fin 3,
      ((g.bottomBoxes.get i).isEmpty = false ↔ (g.bottomBoxes.get i).color = Black) ∧
      ((g.bottomBoxes.get i).isEmpty = true ↔ (g.bottomBoxes.get i).color = LightGray)) ∧
    (∀ i : Fin 3,
      ((g.topBoxes.get i).isEmpty = true → (g.topBoxes.get i).color = LightGray) ∧
      ((g.topBoxes.get i).isEmpty = false → (g.topBoxes.get i).color = Black)) ∧
    (∀ i : Fin 3, g.train.cargo.get i = Blank ∨ g.train.cargo.get i = Black) := by
  have hinv := inv_reachable h
  refine ⟨fun i => ?_, fun i => ?_, fun i => cargo_of_phase hinv.phase i⟩
  · rcases bottomOK_of_inv hinv i with ⟨e, c, -⟩ | ⟨e, c, -, -⟩
    · rw [e, c]; simp [black_ne_lightGray]
    · rw [e, c]; simp [black_ne_lightGray.symm]
  · rcases top_of_phase hinv.phase i with ⟨e, c, -⟩ | ⟨e, c, -⟩
    · rw [e, c]; simp
    · rw [e, c]; simp

theorem C19_colour_agrees_with_flags_witness :
    (∀ i : Fin 3,
      ((leavingBottom.bottomBoxes.get i).isEmpty = false ↔
        (leavingBottom.bottomBoxes.get i).color = Black) ∧
      ((leavingBottom.bottomBoxes.get i).isEmpty = true ↔
        (leavingBottom.bottomBoxes.get i).color = LightGray)) ∧
    (∀ i : Fin 3,
      ((leavingBottom.topBoxes.get i).isEmpty = true →
        (leavingBottom.topBoxes.get i).color = LightGray) ∧
      ((leavingBottom.topBoxes.get i).isEmpty = false →
        (leavingBottom.topBoxes.get i).color = Black)) ∧
    (∀ i : Fin 3, leavingBottom.train.cargo.get i = Blank ∨
      leavingBottom.train.cargo.get i = Black) :=
  C19_colour_agrees_with_flags f32Math leavingBottom reach_901

theorem fillStep_flags (g : Game F) :
    ((fillStep g).train.isFilling = true → g.train.isFilling = true) ∧
    (fillStep g).train.isEmptying = g.train.isEmptying := by
  have h := fillLoop_motion g.bottomBoxes g.train idx3
  unfold fillStep
  split
  rename_i bs t filledOne heq
  rw [heq] at h
  split
  · exact ⟨fun hc => by simp at hc, h.2.2.2.1⟩
  · exact ⟨fun hc => by rw [← h.2.2.1]; exact hc, h.2.2.2.1⟩

theorem emptyStep_flags (g : Game F) :
    (emptyStep g).train.isFilling = g.train.isFilling ∧
    ((emptyStep g).train.isEmptying = true → g.train.isEmptying = true) := by
  have h := emptyLoop_motion g.topBoxes g.train idx3
  unfold emptyStep
  split
  rename_i tops t emptiedOne heq
  rw [heq] at h
  split
  · exact ⟨h.2.2.1, fun hc => by simp at hc⟩
  · exact ⟨h.2.2.1, fun hc => by rw [← h.2.2.2.1]; exact hc⟩

theorem stationStep_flags (g : Game F) :
    ((stationStep g).train.isFilling = true → g.train.isFilling = true) ∧
    ((stationStep g).train.isEmptying = true → g.train.isEmptying = true) := by
  unfold stationStep
  simp only
  split
  · split
    · have := fillStep_flags
        { g with train := { g.train with stationTimer := wrap64 (g.train.stationTimer - 1) } }
      exact ⟨this.1, fun hc => by rw [this.2] at hc; exact hc⟩
    · split
      · have := emptyStep_flags
          { g with train := { g.train with stationTimer := wrap64 (g.train.stationTimer - 1) } }
        exact ⟨fun hc => by rw [this.1] at hc; exact hc, this.2⟩
      · exact ⟨fun hc => hc, fun hc => hc⟩
  · exact ⟨fun hc => hc, fun hc => hc⟩

theorem moving_tick_trigger (rm : Raymath F) (g : Game F) (h : Reachable rm g)
    (hm : g.train.isMoving = true) :
    ∃ g', updateGame rm g = some g' ∧
      (g'.train.isFilling = true ↔
        legOpen rm g.train = false ∧
        (g'.train.currentWaypointIdx = 1 ∨ g'.train.currentWaypointIdx = 8) ∧
        g.train.cargoCount = 0) ∧
      (g'.train.isEmptying = true ↔
        legOpen rm g.train = false ∧
        (g'.train.currentWaypointIdx = 4 ∨ g'.train.currentWaypointIdx = 5) ∧
        0 < g.train.cargoCount) ∧
      (g'.train.isFilling = true ∨ g'.train.isEmptying = true →
        g'.train.isMoving = false ∧ g'.train.stationTimer = stationDelay) ∧
      (¬ (g'.train.isFilling = true ∨ g'.train.isEmptying = true) →
        g'.train.isMoving = true ∧ g'.train.stationTimer = g.train.stationTimer) := by
  have hinv := inv_reachable h
  have hr := idx_range_of_phase hinv.phase
  have hfl := moving_flags_of_phase hinv.phase hm
  cases ho : legOpen rm g.train
  · obtain ⟨p, hp1, hp2⟩ := moveTrain_closed ho hinv.path_eq hr.1 hr.2
    have hsp := stationCheck_spec
      { g.train with headPos := g.train.targetPos,
                     currentWaypointIdx := (g.train.currentWaypointIdx + 1) % 9,
                     targetPos := p } hfl.1 hfl.2
    obtain ⟨s1, s2, s3, s4, ⟨-, -, -, hidx, -⟩, -, -⟩ := hsp
    refine ⟨_, updateGame_moving rm hm hp2, ?_, ?_, s3, ?_⟩
    · show (arrive g.train p).isFilling = true ↔ _
      unfold arrive
      rw [s1, hidx]
      simp
    · show (arrive g.train p).isEmptying = true ↔ _
      unfold arrive
      rw [s2, hidx]
      simp
    · intro hn
      have := s4 hn
      exact ⟨this.1.trans hm, this.2⟩
  · refine ⟨_, updateGame_moving rm hm (moveTrain_open ho), ?_, ?_, ?_, ?_⟩
    · simp [hfl.1]
    · simp [hfl.2]
    · intro hc
      simp [hfl.1, hfl.2] at hc
    · intro _
      exact ⟨hm, rfl⟩

theorem moving_tick_frame (rm : Raymath F) (g : Game F) (h : Reachable rm g)
    (hm : g.train.isMoving = true) :
    ∃ g', updateGame rm g = some g' ∧ g'.train.cargoCount = g.train.cargoCount ∧
      g'.train.cargo = g.train.cargo ∧ g'.topBoxes = g.topBoxes ∧
      (g'.train.currentWaypointIdx = g.train.currentWaypointIdx ∨
        g'.train.currentWaypointIdx = (g.train.currentWaypointIdx + 1) % 9) := by
  have hinv := inv_reachable h
  have hr := idx_range_of_phase hinv.phase
  have hfl := moving_flags_of_phase hinv.phase hm
  cases ho : legOpen rm g.train
  · obtain ⟨p, hp1, hp2⟩ := moveTrain_closed ho hinv.path_eq hr.1 hr.2
    have hsp := stationCheck_spec
      { g.train with headPos := g.train.targetPos,
                     currentWaypointIdx := (g.train.currentWaypointIdx + 1) % 9,
                     targetPos := p } hfl.1 hfl.2
    obtain ⟨-, -, -, -, ⟨-, -, -, hidx, -⟩, hcg, hcnt⟩ := hsp
    exact ⟨_, updateGame_moving rm hm hp2, hcnt, hcg, rfl, Or.inr hidx⟩
  · exact ⟨_, updateGame_moving rm hm (moveTrain_open ho), rfl, rfl, rfl, Or.inl rfl⟩

theorem stopped_idx_of_phase {d : Int} {g : Game F} (h : phaseInv d g)
    (hm : g.train.isMoving = false) : g.train.currentWaypointIdx ≠ 0 := by
  rcases h with hp | hp | hp | hp | hp | hp | hp | hp
  · rw [hp.1.1] at hm; cases hm
  · rw [hp.1.1] at hm; cases hm
  · have := hp.2.2.2.2.2.2.2; omega
  · have := hp.2.2.2.2.2.2.2; omega
  · have := hp.2.2.2.2.2.2.2; omega
  · have := hp.2.2.2.2.2.2.2; omega
  · have := hp.2.2.2.2.2.2.2; omega
  · have := hp.2.2.2.2.2.2.2; omega

theorem moving_idx_of_phase {d : Int} {g : Game F} (h : phaseInv d g)
    (hm : g.train.isMoving = true) :
    (g.train.cargoCount = 0 ∧
      (g.train.currentWaypointIdx = 0 ∨ g.train.currentWaypointIdx = 4 ∨
       g.train.currentWaypointIdx = 5 ∨ g.train.currentWaypointIdx = 6 ∨
       g.train.currentWaypointIdx = 7)) ∨
    (g.train.cargoCount = 3 ∧
      (g.train.currentWaypointIdx = 8 ∨ g.train.currentWaypointIdx = 0 ∨
       g.train.currentWaypointIdx = 1 ∨ g.train.currentWaypointIdx = 2 ∨
       g.train.currentWaypointIdx = 3)) := by
  rcases h with hp | hp | hp | hp | hp | hp | hp | hp
  · exact Or.inl ⟨hp.2.2.1, hp.2.2.2.2.2.2⟩
  · exact Or.inr ⟨hp.2.2.1, hp.2.2.2.2.2⟩
  all_goals (have hflag := hp.1.1; rw [hm] at hflag; cases hflag)

theorem started_step {rm : Raymath F} {g g' : Game F} (h : Reachable rm g) (hs : started g)
    (hu : updateGame rm g = some g') : started g' := by
  have hinv := inv_reachable h
  intro hc
  cases hm : g.train.isMoving
  · rw [updateGame_stopped rm hm] at hu
    cases hu
    have hmot := (stationStep_motion (afterRefill g)).1
    have hidx : g.train.currentWaypointIdx = 0 := by
      rw [← hc.1]; exact hmot.2.2.2.1.symm
    exact stopped_idx_of_phase hinv.phase hm hidx
  · obtain ⟨g2, hu2, hcnt, -, -, hidx⟩ := moving_tick_frame rm g h hm
    rw [hu] at hu2
    cases hu2
    rcases hidx with hidx | hidx
    · exact hs ⟨by rw [← hidx]; exact hc.1, by rw [← hcnt]; exact hc.2⟩
    · have hr := idx_range_of_phase hinv.phase
      have h8 : g.train.currentWaypointIdx = 8 := by
        have := hc.1; rw [hidx] at this; omega
      rcases moving_idx_of_phase hinv.phase hm with ⟨-, hi⟩ | ⟨h3, -⟩
      · omega
      · have := hc.2; rw [hcnt, h3] at this; cases this

theorem run_succ_last (rm : Raymath F) {n : Nat} {g g' : Game F}
    (h : run rm (n + 1) g = some g') :
    ∃ g1, run rm n g = some g1 ∧ updateGame rm g1 = some g' := by
  rw [run_add] at h
  cases hr : run rm n g with
  | none => rw [hr] at h; cases h
  | some g1 =>
    rw [hr] at h
    refine ⟨g1, rfl, ?_⟩
    simp only [Option.bind, run] at h
    cases hu : updateGame rm g1 with
    | none => rw [hu] at h; cases h
    | some g2 => rw [hu] at h; exact h

theorem started_after_first (rm : Raymath F) (hclose : legOpen rm (initGame rm).train = false)
    (n : Nat) (g : Game F) (hn : 1 ≤ n) (hr : run rm n (initGame rm) = some g) : started g := by
  induction n generalizing g with
  | zero => omega
  | succ n ih =>
    obtain ⟨g1, hr1, hu⟩ := run_succ_last rm hr
    cases n with
    | zero =>
      simp only [run] at hr1
      cases hr1
      have h0 : (0 : Int) ≤ (initGame rm).train.currentWaypointIdx := le_refl _
      have h9 : (initGame rm).train.currentWaypointIdx < 9 := by
        show (0 : Int) < 9
        decide
      obtain ⟨p, hp1, hp2⟩ := moveTrain_closed hclose rfl h0 h9
      rw [updateGame_moving rm rfl hp2] at hu
      cases hu
      intro hc
      have := hc.1
      simp [arrive, stationCheck, initGame] at this
    | succ m =>
      exact started_step (reachable_run (m + 1) Reachable.init hr1) (ih g1 (by omega) hr1) hu

theorem entering_stations (rm : Raymath F) {g g' : Game F} (h : Reachable rm g)
    (hu : updateGame rm g = some g') :
    (g.train.isEmptying = false → g'.train.isEmptying = true →
      g'.train.currentWaypointIdx = 4) ∧
    (started g → g.train.isFilling = false → g'.train.isFilling = true →
      g'.train.currentWaypointIdx = 8) := by
  have hinv := inv_reachable h
  cases hm : g.train.isMoving
  · rw [updateGame_stopped rm hm] at hu
    cases hu
    have hfl := stationStep_flags (afterRefill g)
    refine ⟨fun h1 h2 => ?_, fun _ h1 h2 => ?_⟩
    · have : g.train.isEmptying = true := hfl.2 h2
      rw [h1] at this; cases this
    · have : g.train.isFilling = true := hfl.1 h2
      rw [h1] at this; cases this
  · obtain ⟨g2, hu2, hfill, hempt, -, -⟩ := moving_tick_trigger rm g h hm
    obtain ⟨g3, hu3, -, -, -, hidx⟩ := moving_tick_frame rm g h hm
    rw [hu] at hu2 hu3
    cases hu2
    cases hu3
    have hr := idx_range_of_phase hinv.phase
    have hmi := moving_idx_of_phase hinv.phase hm
    refine ⟨fun _ h2 => ?_, fun hs _ h2 => ?_⟩
    · obtain ⟨ho, hi, hc⟩ := hempt.1 h2
      rcases hi with hi | hi
      · exact hi
      · rcases hmi with ⟨h0, -⟩ | ⟨-, hi3⟩
        · omega
        · rcases hidx with hidx | hidx <;> omega
    · obtain ⟨ho, hi, hc⟩ := hfill.1 h2
      rcases hi with hi | hi
      · rcases hmi with ⟨-, hi0⟩ | ⟨h3, -⟩
        · have hne : g.train.currentWaypointIdx ≠ 0 := fun h0 => hs ⟨h0, hc⟩
          rcases hidx with hidx | hidx <;> omega
        · omega
      · exact hi

/-- C20: when the first leg is already complete at start-up (the head starts at waypoint
1's position), the first tick enters filling with `currentWaypointIdx = 1`; on every
later tick of the run the train enters filling only with `currentWaypointIdx = 8`; and on
every tick it enters emptying only with `currentWaypointIdx = 4`, never 5. -/
theorem C20_live_station_indices (rm : Raymath F)
    (hclose : legOpen rm (initGame rm).train = false) :
    (∃ g1, updateGame rm (initGame rm) = some g1 ∧ g1.train.isFilling = true ∧
      g1.train.currentWaypointIdx = 1) ∧
    ∀ (n : Nat) (g g' : Game F), run rm n (initGame rm) = some g → updateGame rm g = some g' →
      (g.train.isEmptying = false → g'.train.isEmptying = true →
        g'.train.currentWaypointIdx = 4 ∧ g'.train.currentWaypointIdx ≠ 5) ∧
      (1 ≤ n → g.train.isFilling = false → g'.train.isFilling = true →
        g'.train.currentWaypointIdx = 8 ∧ g'.train.currentWaypointIdx ≠ 1) := by
  constructor
  · have h0 : (0 : Int) ≤ (initGame rm).train.currentWaypointIdx := le_refl _
    have h9 : (initGame rm).train.currentWaypointIdx < 9 := by
      show (0 : Int) < 9
      decide
    obtain ⟨p, hp1, hp2⟩ := moveTrain_closed hclose rfl h0 h9
    refine ⟨_, updateGame_moving rm rfl hp2, ?_⟩
    simp [arrive, stationCheck, initGame]
  · intro n g g' hr hu
    have hreach := reachable_run n Reachable.init hr
    have he := entering_stations rm hreach hu
    refine ⟨fun h1 h2 => ?_, fun hn h1 h2 => ?_⟩
    · have := he.1 h1 h2
      exact ⟨this, by omega⟩
    · have := he.2 (started_after_first rm hclose n g hn hr) h1 h2
      exact ⟨this, by omega⟩

set_option maxRecDepth 100000 in
theorem run_to_1081 : run f32Math 44 atTick1037 = some atTick1081 := by
  decide!

set_option maxRecDepth 100000 in
theorem tick_1082 : updateGame f32Math atTick1081 = some arrivedTop := by
  decide!

theorem run_1081 : run f32Math 1081 (initGame f32Math) = some atTick1081 := by
  have h := run_chain f32Math (run_chain f32Math (run_chain f32Math (run_chain f32Math
    run_901 run_to_947) run_to_992) run_to_1037) run_to_1081
  rwa [show 901 + 46 + 45 + 45 + 44 = 1081 from rfl] at h

set_option maxRecDepth 100000 in
theorem C20_live_station_indices_witness :
    (∃ g1, updateGame f32Math (initGame f32Math) = some g1 ∧ g1.train.isFilling = true ∧
      g1.train.currentWaypointIdx = 1) ∧
    (atTick1081.train.isEmptying = false → arrivedTop.train.isEmptying = true →
      arrivedTop.train.currentWaypointIdx = 4 ∧ arrivedTop.train.currentWaypointIdx ≠ 5) ∧
    (1 ≤ 1081 → atTick1081.train.isFilling = false → arrivedTop.train.isFilling = true →
      arrivedTop.train.currentWaypointIdx = 8 ∧ arrivedTop.train.currentWaypointIdx ≠ 1) :=
  ⟨(C20_live_station_indices f32Math (by decide!)).1,
   (C20_live_station_indices f32Math (by decide!)).2 1081 atTick1081 arrivedTop run_1081 tick_1082⟩

theorem Arr3.get_set_ne {α : Type} (a : Arr3 α) (i j : Fin 3) (v : α) (h : j ≠ i) :
    (a.set i v).get j = a.get j := by
  rcases fin3_cases i with rfl | rfl | rfl <;> rcases fin3_cases j with rfl | rfl | rfl <;>
    first | rfl | exact absurd rfl h

theorem emptyLoop_pick (tops : Arr3 (Box F)) (t : Train F) (i : Fin 3)
    (hi : (tops.get i).isEmpty = true ∧ t.cargo.get i ≠ Blank)
    (hlow : ∀ j : Fin 3, j < i → ¬ ((tops.get j).isEmpty = true ∧ t.cargo.get j ≠ Blank)) :
    emptyLoop tops t idx3 =
      (tops.set i { tops.get i with color := t.cargo.get i, isEmpty := false },
       { t with cargo := t.cargo.set i Blank, cargoCount := wrap64 (t.cargoCount - 1) },
       true) := by
  rcases fin3_cases i with rfl | rfl | rfl
  · have a0 : tops.e0.isEmpty = true ∧ ¬ t.cargo.e0 = Blank := hi
    simp [emptyLoop, idx3, a0]
  · have a0 : ¬ (tops.e0.isEmpty = true ∧ ¬ t.cargo.e0 = Blank) := hlow 0 (by decide)
    have a1 : tops.e1.isEmpty = true ∧ ¬ t.cargo.e1 = Blank := hi
    simp [emptyLoop, idx3, a0, a1]
  · have a0 : ¬ (tops.e0.isEmpty = true ∧ ¬ t.cargo.e0 = Blank) := hlow 0 (by decide)
    have a1 : ¬ (tops.e1.isEmpty = true ∧ ¬ t.cargo.e1 = Blank) := hlow 1 (by decide)
    have a2 : tops.e2.isEmpty = true ∧ ¬ t.cargo.e2 = Blank := hi
    simp [emptyLoop, idx3, a0, a1, a2]

theorem emptyLoop_none (tops : Arr3 (Box F)) (t : Train F)
    (h : ∀ j : Fin 3, ¬ ((tops.get j).isEmpty = true ∧ t.cargo.get j ≠ Blank)) :
    emptyLoop tops t idx3 = (tops, t, false) := by
  have a0 : ¬ (tops.e0.isEmpty = true ∧ ¬ t.cargo.e0 = Blank) := h 0
  have a1 : ¬ (tops.e1.isEmpty = true ∧ ¬ t.cargo.e1 = Blank) := h 1
  have a2 : ¬ (tops.e2.isEmpty = true ∧ ¬ t.cargo.e2 = Blank) := h 2
  simp [emptyLoop, idx3, a0, a1, a2]

/-- What one transfer attempt did to the train: either one slot `i` was rewritten and the
count stepped once, after which the train moves again or the dwell timer was reset; or
nothing was transferred. -/
theorem fillStep_spec (g : Game F) :
    (∃ i, (fillStep g).train.cargo = g.train.cargo.set i (g.bottomBoxes.get i).color ∧
      (fillStep g).train.cargoCount = wrap64 (g.train.cargoCount + 1) ∧
      ((fillStep g).train.isMoving = true ∨
        ((fillStep g).train.isMoving = g.train.isMoving ∧
         (fillStep g).train.stationTimer = stationDelay))) ∨
    ((fillStep g).train.cargo = g.train.cargo ∧
      (fillStep g).train.cargoCount = g.train.cargoCount) := by
  by_cases he : ∃ i, (g.bottomBoxes.get i).isEmpty = false ∧ g.train.cargo.get i = Blank
  · obtain ⟨i, hi, hlow⟩ := exists_lowest he
    left
    refine ⟨i, ?_⟩
    have hp := fillLoop_pick g.bottomBoxes g.train i hi hlow
    simp only [fillStep, hp]
    by_cases h3 : wrap64 (g.train.cargoCount + 1) = 3
    · simp [h3]
    · simp [h3]
  · right
    have hp := fillLoop_none g.bottomBoxes g.train (fun j hj => he ⟨j, hj⟩)
    simp only [fillStep, hp]
    simp

theorem emptyStep_spec (g : Game F) :
    (∃ i, (emptyStep g).train.cargo = g.train.cargo.set i Blank ∧
      (emptyStep g).train.cargoCount = wrap64 (g.train.cargoCount - 1) ∧
      ((emptyStep g).train.isMoving = true ∨
        ((emptyStep g).train.isMoving = g.train.isMoving ∧
         (emptyStep g).train.stationTimer = stationDelay))) ∨
    ((emptyStep g).train.cargo = g.train.cargo ∧
      (emptyStep g).train.cargoCount = g.train.cargoCount) := by
  by_cases he : ∃ i, (g.topBoxes.get i).isEmpty = true ∧ g.train.cargo.get i ≠ Blank
  · obtain ⟨i, hi, hlow⟩ := exists_lowest he
    left
    refine ⟨i, ?_⟩
    have hp := emptyLoop_pick g.topBoxes g.train i hi hlow
    simp only [emptyStep, hp]
    by_cases h3 : wrap64 (g.train.cargoCount - 1) = 0
    · simp [h3]
    · simp [h3]
  · right
    have hp := emptyLoop_none g.topBoxes g.train (fun j hj => he ⟨j, hj⟩)
    simp only [emptyStep, hp]
    simp

theorem stationStep_dwell {g : Game F} (ht : 0 < wrap64 (g.train.stationTimer - 1)) :
    stationStep g =
      { g with train := { g.train with stationTimer := wrap64 (g.train.stationTimer - 1) } } := by
  have : ¬ wrap64 (g.train.stationTimer - 1) ≤ 0 := by omega
  simp [stationStep, this]

/-- The effect of a stopped tick on cargo and count. -/
theorem stationStep_spec (g : Game F) :
    ((stationStep g).train.cargo = g.train.cargo ∧
      (stationStep g).train.cargoCount = g.train.cargoCount) ∨
    (wrap64 (g.train.stationTimer - 1) ≤ 0 ∧
      ∃ i v, (stationStep g).train.cargo = g.train.cargo.set i v ∧
        ((stationStep g).train.cargoCount = wrap64 (g.train.cargoCount + 1) ∨
         (stationStep g).train.cargoCount = wrap64 (g.train.cargoCount - 1)) ∧
        ((stationStep g).train.isMoving = true ∨
          ((stationStep g).train.isMoving = g.train.isMoving ∧
           (stationStep g).train.stationTimer = stationDelay))) := by
  by_cases ht : wrap64 (g.train.stationTimer - 1) ≤ 0
  · by_cases hf : g.train.isFilling = true
    · have hs : stationStep g = fillStep
          { g with train := { g.train with stationTimer := wrap64 (g.train.stationTimer - 1) } } := by
        simp [stationStep, ht, hf]
      rw [hs]
      rcases fillStep_spec
          { g with train := { g.train with stationTimer := wrap64 (g.train.stationTimer - 1) } }
        with ⟨i, h1, h2, h3⟩ | h
      · exact Or.inr ⟨ht, i, _, h1, Or.inl h2, h3⟩
      · exact Or.inl h
    · by_cases he : g.train.isEmptying = true
      · have hs : stationStep g = emptyStep
            { g with train := { g.train with stationTimer := wrap64 (g.train.stationTimer - 1) } } := by
          simp [stationStep, ht, hf, he]
        rw [hs]
        rcases emptyStep_spec
            { g with train := { g.train with stationTimer := wrap64 (g.train.stationTimer - 1) } }
          with ⟨i, h1, h2, h3⟩ | h
        · exact Or.inr ⟨ht, i, _, h1, Or.inr h2, h3⟩
        · exact Or.inl h
      · left
        simp [stationStep, ht, hf, he]
  · left
    simp [stationStep, ht]

theorem stationCheck_cargo (t : Train F) :
    (stationCheck t).cargo = t.cargo ∧ (stationCheck t).cargoCount = t.cargoCount := by
  unfold stationCheck
  simp only
  split <;> split <;> (try split) <;> (try split) <;> exact ⟨rfl, rfl⟩

theorem moveTrain_cargo {rm : Raymath F} {t t' : Train F} (h : moveTrain rm t = some t') :
    t'.cargo = t.cargo ∧ t'.cargoCount = t.cargoCount := by
  unfold moveTrain at h
  cases hh : moveHead rm t with
  | none => rw [hh] at h; cases h
  | some t1 =>
    rw [hh] at h
    simp only [Option.some.injEq] at h
    subst h
    unfold moveHead at hh
    simp only at hh
    split at hh
    · cases hh; exact ⟨rfl, rfl⟩
    · split at hh
      · cases hh
      · split at hh
        · cases hh
        · split at hh
          · cases hh
          · cases hh
            exact stationCheck_cargo _

/-- C18: for every state in which the train is not moving, the tick leaves `headPos`,
`bodySegments`, `path`, `currentWaypointIdx` and `targetPos` unchanged, and if in
addition the decremented dwell timer is positive the tick changes nothing except
decrementing `stationTimer` and applying the bottom-box refill step; for every state in
which the train is moving, a tick leaves `cargo`, `cargoCount` and all top boxes
unchanged. -/
theorem C18_frame_of_a_tick (rm : Raymath F) (g : Game F) :
    (g.train.isMoving = false →
      ∃ g', updateGame rm g = some g' ∧ sameMotion g.train g'.train ∧
        (0 < wrap64 (g.train.stationTimer - 1) →
          g' = { afterRefill g with
                 train := { g.train with stationTimer := wrap64 (g.train.stationTimer - 1) } })) ∧
    (g.train.isMoving = true →
      ∀ g', updateGame rm g = some g' →
        g'.train.cargo = g.train.cargo ∧ g'.train.cargoCount = g.train.cargoCount ∧
        g'.topBoxes = g.topBoxes) := by
  constructor
  · intro hm
    refine ⟨_, updateGame_stopped rm hm, (stationStep_motion (afterRefill g)).1, fun ht => ?_⟩
    exact stationStep_dwell (g := afterRefill g) ht
  · intro hm g' hu
    have h1 : (afterRefill g).train.isMoving = true := hm
    simp only [updateGame, h1, if_true] at hu
    cases ht : moveTrain rm (afterRefill g).train with
    | none => rw [ht] at hu; cases hu
    | some t =>
      rw [ht] at hu
      simp only [Option.some.injEq] at hu
      subst hu
      have := moveTrain_cargo ht
      exact ⟨this.1, this.2, rfl⟩

theorem C18_frame_of_a_tick_witness :
    (∃ g', updateGame f32Math arrivedTop = some g' ∧ sameMotion arrivedTop.train g'.train ∧
        (0 < wrap64 (arrivedTop.train.stationTimer - 1) →
          g' = { afterRefill arrivedTop with
                 train := { arrivedTop.train with
                            stationTimer := wrap64 (arrivedTop.train.stationTimer - 1) } })) ∧
    (updateGame f32Math atTick1081 = some arrivedTop →
        arrivedTop.train.cargo = atTick1081.train.cargo ∧
        arrivedTop.train.cargoCount = atTick1081.train.cargoCount ∧
        arrivedTop.topBoxes = atTick1081.topBoxes) :=
  ⟨(C18_frame_of_a_tick f32Math arrivedTop).1 rfl,
   (C18_frame_of_a_tick f32Math atTick1081).2 rfl arrivedTop⟩

theorem tick_cargo (rm : Raymath F) {g g' : Game F} (hu : updateGame rm g = some g') :
    (∃ i : Fin 3, ∀ j : Fin 3, j ≠ i → g'.train.cargo.get j = g.train.cargo.get j) ∧
    (g'.train.cargoCount = g.train.cargoCount ∨
      g'.train.cargoCount = wrap64 (g.train.cargoCount + 1) ∨
      g'.train.cargoCount = wrap64 (g.train.cargoCount - 1)) ∧
    (g'.train.cargo ≠ g.train.cargo →
      g.train.isMoving = false ∧ wrap64 (g.train.stationTimer - 1) ≤ 0) ∧
    (g'.train.cargoCount ≠ g.train.cargoCount → g'.train.isMoving = false →
      g'.train.stationTimer = stationDelay) := by
  cases hm : g.train.isMoving
  · rw [updateGame_stopped rm hm] at hu
    cases hu
    rcases stationStep_spec (afterRefill g) with ⟨h1, h2⟩ | ⟨ht, i, v, h1, h2, h3⟩
    · exact ⟨⟨0, fun j _ => by rw [h1]; rfl⟩, Or.inl h2, fun hc => absurd h1 hc,
        fun hc => absurd h2 hc⟩
    · refine ⟨⟨i, fun j hj => ?_⟩, ?_, fun _ => ⟨rfl, ht⟩, fun _ hmv => ?_⟩
      · rw [h1]; exact Arr3.get_set_ne _ i j v hj
      · rcases h2 with h2 | h2
        · exact Or.inr (Or.inl h2)
        · exact Or.inr (Or.inr h2)
      · rcases h3 with h3 | h3
        · rw [hmv] at h3; cases h3
        · exact h3.2
  · have h1 : (afterRefill g).train.isMoving = true := hm
    simp only [updateGame, h1, if_true] at hu
    cases ht : moveTrain rm (afterRefill g).train with
    | none => rw [ht] at hu; cases hu
    | some t =>
      rw [ht] at hu
      simp only [Option.some.injEq] at hu
      subst hu
      have := moveTrain_cargo ht
      exact ⟨⟨0, fun j _ => by rw [this.1]; rfl⟩, Or.inl this.2, fun hc => absurd this.1 hc,
        fun hc => absurd this.2 hc⟩

theorem dwell_window (rm : Raymath F) (g : Game F) (hm : g.train.isMoving = false)
    (ht : g.train.stationTimer = stationDelay) (k : Nat) (hk : k ≤ 299) :
    ∃ gk, run rm k g = some gk ∧ gk.train.cargo = g.train.cargo ∧
      gk.train.cargoCount = g.train.cargoCount ∧ gk.train.isMoving = false ∧
      gk.train.stationTimer = stationDelay - k := by
  simp only [stationDelay] at ht ⊢
  refine ⟨dwell k g, run_dwell rm k g hm (by rw [ht]; omega) (by rw [ht]; decide), rfl, rfl, hm, ?_⟩
  simp only [dwell, ht]

theorem updateGame_of_run_one (rm : Raymath F) {g g' : Game F} (h : run rm 1 g = some g') :
    updateGame rm g = some g' := by
  simp only [run] at h
  cases hu : updateGame rm g with
  | none => rw [hu] at h; cases h
  | some g2 => rw [hu] at h; exact h

theorem filling_expiry_count {g : Game F} {c : Nat} (hc : c < 3)
    (hp : fillingWith c g) (ht : g.train.stationTimer - 1 ≤ 0) :
    (stationStep (afterRefill g)).train.cargoCount = g.train.cargoCount + 1 := by
  have hp1 := fillingWith_refill hp
  obtain ⟨⟨hmv, hfl, hem⟩, ht1, ht2, hcount, hcargo, htops, hbot, hidx⟩ := hp
  obtain ⟨-, -, -, -, -, -, hbot1, -⟩ := hp1
  obtain ⟨⟨t0, t1, t2⟩, ⟨b0, b1, b2⟩, ⟨head, body, cargo, count, path, idx, target, mv, fl, em, timer⟩, rp⟩ := g
  simp only [stationDelay, forall_fin3, Arr3.get_zero, Arr3.get_one, Arr3.get_two, afterRefill,
    refillBottomBoxes_eq] at *
  subst hmv hfl hem hcount hcargo
  have hw : wrap64 (timer - 1) = timer - 1 := wrap64_small (by omega) (by omega)
  generalize refillBox b0 = r0 at *
  generalize refillBox b1 = r1 at *
  generalize refillBox b2 = r2 at *
  interval_cases c
  · simp [boxFull] at hbot1
    obtain ⟨⟨x0, x1, x2⟩, -, -⟩ := hbot1
    simp [stationStep, hw, ht, fillStep, fillLoop, idx3, fillPattern, x0, wrap64_one]
  · simp [boxFull] at hbot1
    obtain ⟨⟨x0, x1, x2⟩, -⟩ := hbot1
    simp [stationStep, hw, ht, fillStep, fillLoop, idx3, fillPattern, x0, wrap64_two,
      black_ne_blank]
  · simp [boxFull] at hbot1
    obtain ⟨x0, x1, x2⟩ := hbot1
    simp [stationStep, hw, ht, fillStep, fillLoop, idx3, fillPattern, x0, wrap64_three,
      black_ne_blank]

theorem expiry_transfers (rm : Raymath F) (g : Game F) (h : Reachable rm g)
    (hm : g.train.isMoving = false) (ht : g.train.stationTimer - 1 ≤ 0) :
    ∃ g', updateGame rm g = some g' ∧
      (g'.train.cargoCount = g.train.cargoCount + 1 ∨
       g'.train.cargoCount = g.train.cargoCount - 1) := by
  have hinv := inv_reachable h
  refine ⟨_, updateGame_stopped rm hm, ?_⟩
  rcases hinv.phase with hp | hp | hp | hp | hp | hp | hp | hp
  · rw [hp.1.1] at hm; cases hm
  · rw [hp.1.1] at hm; cases hm
  · exact Or.inl (filling_expiry_count (by decide) hp ht)
  · exact Or.inl (filling_expiry_count (by decide) hp ht)
  · exact Or.inl (filling_expiry_count (by decide) hp ht)
  · right
    obtain ⟨⟨hmv, hfl, hem⟩, ht1, ht2, hcount, hcargo, htops, hbot, hidx⟩ := hp
    obtain ⟨⟨t0, t1, t2⟩, ⟨b0, b1, b2⟩, ⟨head, body, cargo, count, path, idx, target, mv, fl, em, timer⟩, rp⟩ := g
    simp only [allTopEmpty, topEmpty, stationDelay] at *
    subst hmv hfl hem hcount hcargo
    obtain ⟨⟨a0, a1, a2⟩, -, -⟩ := htops
    have hw : wrap64 (timer - 1) = timer - 1 := wrap64_small (by omega) (by omega)
    simp [afterRefill, stationStep, hw, ht, emptyStep, emptyLoop, idx3, emptyPattern, a0,
      black_ne_blank, wrap64_two]
  · right
    obtain ⟨⟨hmv, hfl, hem⟩, ht1, ht2, hcount, hcargo, hbot, htops, hidx⟩ := hp
    obtain ⟨⟨t0, t1, t2⟩, ⟨b0, b1, b2⟩, ⟨head, body, cargo, count, path, idx, target, mv, fl, em, timer⟩, rp⟩ := g
    simp only [forall_fin3, Arr3.get_zero, Arr3.get_one, Arr3.get_two, stationDelay] at *
    subst hmv hfl hem hcount hcargo
    simp [topLoaded, topEmpty] at htops
    obtain ⟨⟨l0, -, -⟩, ⟨a0, -, -⟩, -⟩ := htops
    have hw : wrap64 (timer - 1) = timer - 1 := wrap64_small (by omega) (by omega)
    simp [afterRefill, stationStep, hw, ht, emptyStep, emptyLoop, idx3, emptyPattern, a0, l0,
      black_ne_blank, wrap64_one]
  · right
    obtain ⟨⟨hmv, hfl, hem⟩, ht1, ht2, hcount, hcargo, hbot, htops, hidx⟩ := hp
    obtain ⟨⟨t0, t1, t2⟩, ⟨b0, b1, b2⟩, ⟨head, body, cargo, count, path, idx, target, mv, fl, em, timer⟩, rp⟩ := g
    simp only [forall_fin3, Arr3.get_zero, Arr3.get_one, Arr3.get_two, stationDelay] at *
    subst hmv hfl hem hcount hcargo
    simp [topLoaded, topEmpty] at htops
    obtain ⟨⟨l0, -, -⟩, ⟨m0, -, -⟩, ⟨a0, -, -⟩⟩ := htops
    have hw : wrap64 (timer - 1) = timer - 1 := wrap64_small (by omega) (by omega)
    simp [afterRefill, stationStep, hw, ht, emptyStep, emptyLoop, idx3, emptyPattern, a0, l0,
      m0, black_ne_blank, wrap64_zero]

/-- C14: for every state, one tick changes at most one cargo slot and changes
`cargoCount` by at most one step (unchanged, one 64-bit `++` or one `--`); it changes a
cargo slot only if the train is not moving and the dwell timer expires on that tick; and
when a transfer does not end the stop, `stationTimer` is reset to `stationDelay`.  From
such a reset the next 299 ticks only count the timer down, cargo and count untouched, so
the next expiry is exactly 300 ticks after the transfer; and in every reachable state a
dwell expiry does transfer one unit. -/
theorem C14_one_unit_per_expiry (rm : Raymath F) :
    (∀ g g' : Game F, updateGame rm g = some g' →
      (∃ i : Fin 3, ∀ j : Fin 3, j ≠ i → g'.train.cargo.get j = g.train.cargo.get j) ∧
      (g'.train.cargoCount = g.train.cargoCount ∨
        g'.train.cargoCount = wrap64 (g.train.cargoCount + 1) ∨
        g'.train.cargoCount = wrap64 (g.train.cargoCount - 1)) ∧
      (g'.train.cargo ≠ g.train.cargo →
        g.train.isMoving = false ∧ wrap64 (g.train.stationTimer - 1) ≤ 0) ∧
      (g'.train.cargoCount ≠ g.train.cargoCount → g'.train.isMoving = false →
        g'.train.stationTimer = stationDelay)) ∧
    (∀ g : Game F, g.train.isMoving = false → g.train.stationTimer = stationDelay →
      ∀ k : Nat, k ≤ 299 →
        ∃ gk, run rm k g = some gk ∧ gk.train.cargo = g.train.cargo ∧
          gk.train.cargoCount = g.train.cargoCount ∧ gk.train.isMoving = false ∧
          gk.train.stationTimer = stationDelay - k) ∧
    (∀ g : Game F, Reachable rm g → g.train.isMoving = false →
      g.train.stationTimer - 1 ≤ 0 →
      ∃ g', updateGame rm g = some g' ∧
        (g'.train.cargoCount = g.train.cargoCount + 1 ∨
         g'.train.cargoCount = g.train.cargoCount - 1)) :=
  ⟨fun _ _ hu => tick_cargo rm hu, dwell_window rm, expiry_transfers rm⟩

theorem C14_one_unit_per_expiry_witness :
    ((∃ i : Fin 3, ∀ j : Fin 3, j ≠ i →
        afterFill1.train.cargo.get j = beforeFill1.train.cargo.get j) ∧
      (afterFill1.train.cargoCount = beforeFill1.train.cargoCount ∨
        afterFill1.train.cargoCount = wrap64 (beforeFill1.train.cargoCount + 1) ∨
        afterFill1.train.cargoCount = wrap64 (beforeFill1.train.cargoCount - 1)) ∧
      (afterFill1.train.cargo ≠ beforeFill1.train.cargo →
        beforeFill1.train.isMoving = false ∧ wrap64 (beforeFill1.train.stationTimer - 1) ≤ 0) ∧
      (afterFill1.train.cargoCount ≠ beforeFill1.train.cargoCount →
        afterFill1.train.isMoving = false → afterFill1.train.stationTimer = stationDelay)) ∧
    (∃ gk, run f32Math 299 afterFill1 = some gk ∧ gk.train.cargo = afterFill1.train.cargo ∧
      gk.train.cargoCount = afterFill1.train.cargoCount ∧ gk.train.isMoving = false ∧
      gk.train.stationTimer = stationDelay - (299 : Nat)) ∧
    (∃ g', updateGame f32Math beforeFill1 = some g' ∧
      (g'.train.cargoCount = beforeFill1.train.cargoCount + 1 ∨
       g'.train.cargoCount = beforeFill1.train.cargoCount - 1)) :=
  ⟨(C14_one_unit_per_expiry f32Math).1 beforeFill1 afterFill1
      (updateGame_of_run_one f32Math run_to_301),
   (C14_one_unit_per_expiry f32Math).2.1 afterFill1 rfl rfl 299 (le_refl _),
   (C14_one_unit_per_expiry f32Math).2.2 beforeFill1 reach_beforeFill1 rfl (by decide)⟩
theorem moving_tick_bottom (rm : Raymath F) {g g' : Game F} (hu : updateGame rm g = some g')
    (hm : g.train.isMoving = true) : g'.bottomBoxes = refillBottomBoxes g.bottomBoxes := by
  have h1 : (afterRefill g).train.isMoving = true := hm
  simp only [updateGame, h1, if_true] at hu
  cases ht : moveTrain rm (afterRefill g).train with
  | none => rw [ht] at hu; cases hu
  | some t => rw [ht] at hu; cases hu; rfl

theorem emptyStep_bottom (g : Game F) : (emptyStep g).bottomBoxes = g.bottomBoxes := by
  unfold emptyStep
  split
  split <;> rfl

/-- What the filling arm did to bottom box `i`: nothing, or it emptied the box, after which
the train leaves with three units or stays with the dwell timer reset. -/
theorem fillStep_emptied (g : Game F) (i : Fin 3) :
    (fillStep g).bottomBoxes.get i = g.bottomBoxes.get i ∨
    ((fillStep g).bottomBoxes.get i =
        { g.bottomBoxes.get i with color := LightGray, isEmpty := true,
                                   refillTimer := refillTime } ∧
      (((fillStep g).train.isMoving = true ∧ (fillStep g).train.cargoCount = 3) ∨
       ((fillStep g).train.isMoving = g.train.isMoving ∧
        (fillStep g).train.isFilling = g.train.isFilling ∧
        (fillStep g).train.stationTimer = stationDelay))) := by
  by_cases he : ∃ j, (g.bottomBoxes.get j).isEmpty = false ∧ g.train.cargo.get j = Blank
  · obtain ⟨j, hj, hlow⟩ := exists_lowest he
    have hp := fillLoop_pick g.bottomBoxes g.train j hj hlow
    by_cases hij : i = j
    · subst hij
      right
      simp only [fillStep, hp]
      by_cases h3 : wrap64 (g.train.cargoCount + 1) = 3
      · rcases fin3_cases i with rfl | rfl | rfl <;> simp [h3]
      · rcases fin3_cases i with rfl | rfl | rfl <;> simp [h3]
    · left
      rw [fillStep_bottom, hp]
      exact Arr3.get_set_ne _ _ _ _ hij
  · left
    have hp := fillLoop_none g.bottomBoxes g.train (fun j hj => he ⟨j, hj⟩)
    rw [fillStep_bottom, hp]

/-- What a stopped tick did to bottom box `i` after the refill loop. -/
theorem stationStep_emptied (g : Game F) (i : Fin 3) :
    (stationStep g).bottomBoxes.get i = g.bottomBoxes.get i ∨
    (g.train.isFilling = true ∧
      (stationStep g).bottomBoxes.get i =
        { g.bottomBoxes.get i with color := LightGray, isEmpty := true,
                                   refillTimer := refillTime } ∧
      (((stationStep g).train.isMoving = true ∧ (stationStep g).train.cargoCount = 3) ∨
       ((stationStep g).train.isMoving = g.train.isMoving ∧
        (stationStep g).train.isFilling = true ∧
        (stationStep g).train.stationTimer = stationDelay))) := by
  by_cases ht : wrap64 (g.train.stationTimer - 1) ≤ 0
  · by_cases hf : g.train.isFilling = true
    · rw [stationStep_fill hf ht]
      rcases fillStep_emptied
          { g with train := { g.train with stationTimer := wrap64 (g.train.stationTimer - 1) } } i
        with h | ⟨h1, h2⟩
      · exact Or.inl h
      · refine Or.inr ⟨hf, h1, ?_⟩
        rcases h2 with h2 | ⟨a, b, c⟩
        · exact Or.inl h2
        · exact Or.inr ⟨a, b.trans hf, c⟩
    · left
      by_cases he : g.train.isEmptying = true
      · have hs : stationStep g = emptyStep
            { g with train := { g.train with stationTimer := wrap64 (g.train.stationTimer - 1) } } := by
          simp [stationStep, ht, hf, he]
        rw [hs, emptyStep_bottom]
      · simp [stationStep, ht, hf, he]
  · left
    simp [stationStep, ht]

/-- Shape of a tick that empties a bottom box. -/
theorem tick_emptied (rm : Raymath F) {g g' : Game F} (hu : updateGame rm g = some g')
    (i : Fin 3) (hfull : ((afterRefill g).bottomBoxes.get i).isEmpty = false)
    (hemp : (g'.bottomBoxes.get i).isEmpty = true) :
    g.train.isMoving = false ∧ g.train.isFilling = true ∧
    (g'.bottomBoxes.get i).refillTimer = refillTime ∧
    (g'.train.isMoving = false → g'.train.stationTimer = stationDelay) ∧
    (g'.train.isFilling = false → g'.train.cargoCount = 3) := by
  cases hm : g.train.isMoving
  · rw [updateGame_stopped rm hm] at hu
    cases hu
    rcases stationStep_emptied (afterRefill g) i with h | ⟨hf, h1, h2⟩
    · rw [h, hfull] at hemp; cases hemp
    · refine ⟨rfl, hf, by rw [h1], ?_, ?_⟩
      · intro hs
        rcases h2 with ⟨a, -⟩ | ⟨-, -, c⟩
        · rw [a] at hs; cases hs
        · exact c
      · intro hs
        rcases h2 with ⟨-, b⟩ | ⟨-, b, -⟩
        · exact b
        · rw [b] at hs; cases hs
  · have hb := moving_tick_bottom rm hu hm
    have : g'.bottomBoxes.get i = (afterRefill g).bottomBoxes.get i := by rw [hb]; rfl
    rw [this, hfull] at hemp
    cases hemp

theorem sinceEmptied_step (rm : Raymath F) (i : Fin 3) (b : Box F) (k : Nat) (hk : k < 180)
    {g : Game F} (h : sinceEmptied rm i b k g) :
    ∃ g', updateGame rm g = some g' ∧ sinceEmptied rm i b (k + 1) g' := by
  obtain ⟨hr, hb, ht, hc⟩ := h
  have hinv := inv_reachable hr
  cases hm : g.train.isMoving
  · have ht1 := ht hm
    have hle : g.train.stationTimer ≤ stationDelay := by
      rcases hinv.phase with hp | hp | hp | hp | hp | hp | hp | hp
      · rw [hp.1.1] at hm; cases hm
      · rw [hp.1.1] at hm; cases hm
      all_goals exact hp.2.2.1
    simp only [stationDelay] at hle
    have hu := updateGame_dwell rm hm (by omega) (by omega)
    refine ⟨_, hu, Reachable.tick hr hu, ?_, ?_, ?_⟩
    · show (refillBottomBoxes g.bottomBoxes).get i = _
      rw [refill_get, hb, Function.iterate_succ_apply']
    · intro _
      show 300 ≤ g.train.stationTimer - ((1 : Nat) : Int) + ((k + 1 : Nat) : Int)
      push_cast
      omega
    · exact hc
  · obtain ⟨hfl, hem⟩ := moving_flags_of_phase hinv.phase hm
    obtain ⟨g', hu, hcount, -, -, -⟩ := moving_tick_frame rm g hr hm
    obtain ⟨g2, hu2, -, -, hstop, -⟩ := moving_tick_trigger rm g hr hm
    rw [hu] at hu2
    cases hu2
    have hr' := Reachable.tick hr hu
    refine ⟨g', hu, hr', ?_, ?_, ?_⟩
    · rw [moving_tick_bottom rm hu hm, refill_get, hb, Function.iterate_succ_apply']
    · intro hs
      have hflags := flags_of_phase (inv_reachable hr').phase
      have : g'.train.isFilling = true ∨ g'.train.isEmptying = true := by
        rcases hflags with ⟨a, -, -⟩ | ⟨-, a, -⟩ | ⟨-, -, a⟩
        · rw [a] at hs; cases hs
        · exact Or.inl a
        · exact Or.inr a
      rw [(hstop this).2]
      simp only [stationDelay]
      push_cast
      omega
    · intro _
      rw [hcount]
      exact hc hfl

theorem sinceEmptied_run (rm : Raymath F) (i : Fin 3) (b : Box F) {g : Game F}
    (h : sinceEmptied rm i b 0 g) (k : Nat) (hk : k ≤ 180) :
    ∃ gk, run rm k g = some gk ∧ sinceEmptied rm i b k gk := by
  induction k with
  | zero => exact ⟨g, rfl, h⟩
  | succ k ih =>
    obtain ⟨gk, h1, h2⟩ := ih (by omega)
    obtain ⟨g', h3, h4⟩ := sinceEmptied_step rm i b k (by omega) h2
    refine ⟨g', ?_, h4⟩
    have h5 : run rm 1 gk = some g' := by simp [run, h3]
    exact run_chain rm h1 h5

/-- C13: in every reachable state `g`, when the tick `g → g'` is a fill transfer that
empties bottom box `i` (the box is non-empty after the refill loop of the tick and empty
at its end), then the train was stopped and filling, and for every `0 ≤ k < refillTime`
the game `k` ticks after `g'` exists and has box `i` still empty with
`refillTimer = refillTime - k`, while the game `refillTime = 180` ticks after `g'` has
box `i` full again: `isEmpty = false`, colour `Black`, `refillTimer = 0`. -/
theorem C13_refill_after_fill (rm : Raymath F) (g g' : Game F) (i : Fin 3)
    (h : Reachable rm g) (hu : updateGame rm g = some g')
    (hfull : ((afterRefill g).bottomBoxes.get i).isEmpty = false)
    (hemp : (g'.bottomBoxes.get i).isEmpty = true) :
    g.train.isMoving = false ∧ g.train.isFilling = true ∧
    (∀ k : Nat, (k : Int) < refillTime →
      ∃ gk, run rm k g' = some gk ∧ (gk.bottomBoxes.get i).isEmpty = true ∧
        (gk.bottomBoxes.get i).refillTimer = refillTime - k) ∧
    ∃ gk, run rm 180 g' = some gk ∧ (gk.bottomBoxes.get i).isEmpty = false ∧
      (gk.bottomBoxes.get i).color = Black ∧ (gk.bottomBoxes.get i).refillTimer = 0 := by
  obtain ⟨hm, hf, hrt, hstop, hcnt⟩ := tick_emptied rm hu i hfull hemp
  have hs : sinceEmptied rm i (g'.bottomBoxes.get i) 0 g' := by
    refine ⟨Reachable.tick h hu, rfl, ?_, hcnt⟩
    intro hx
    rw [hstop hx]
    decide
  refine ⟨hm, hf, ?_, ?_⟩
  · intro k hk
    simp only [refillTime] at hk
    obtain ⟨gk, h1, -, h2, -, -⟩ := sinceEmptied_run rm i _ hs k (by omega)
    refine ⟨gk, h1, ?_⟩
    rw [h2, refillBox_iterate k hemp (by rw [hrt]; decide) (by rw [hrt])]
    have : ¬ (g'.bottomBoxes.get i).refillTimer ≤ (k : Int) := by
      rw [hrt]; simp only [refillTime]; omega
    rw [if_neg this]
    exact ⟨hemp, by rw [hrt]⟩
  · obtain ⟨gk, h1, -, h2, -, -⟩ := sinceEmptied_run rm i _ hs 180 (le_refl _)
    refine ⟨gk, h1, ?_⟩
    rw [h2, refillBox_iterate 180 hemp (by rw [hrt]; decide) (by rw [hrt])]
    have : (g'.bottomBoxes.get i).refillTimer ≤ ((180 : Nat) : Int) := by
      rw [hrt]; decide
    rw [if_pos this]
    exact ⟨rfl, rfl, rfl⟩

theorem C13_refill_after_fill_witness :
    beforeFill1.train.isMoving = false ∧ beforeFill1.train.isFilling = true ∧
    (∀ k : Nat, (k : Int) < refillTime →
      ∃ gk, run f32Math k afterFill1 = some gk ∧ (gk.bottomBoxes.get 0).isEmpty = true ∧
        (gk.bottomBoxes.get 0).refillTimer = refillTime - k) ∧
    ∃ gk, run f32Math 180 afterFill1 = some gk ∧ (gk.bottomBoxes.get 0).isEmpty = false ∧
      (gk.bottomBoxes.get 0).color = Black ∧ (gk.bottomBoxes.get 0).refillTimer = 0 :=
  C13_refill_after_fill f32Math beforeFill1 afterFill1 0 reach_beforeFill1
    (updateGame_of_run_one f32Math run_to_301) rfl rfl

end Claims

end Raytrain
